import Mathlib

/-!
# Debug-event dispatch service

Shallow embedding of `src/servers/nn/nnServer (copy).cpp` (with the action
codes of `src/servers/nn/nnWindow.h`): the per-team mailbox
(`NNHandler::PushMessage`, `NNHandler::_PopMessage`), the registry
(`NNHandlerRoster`), the policy lookup (`action_for_team`) and the decision
state machine of the handler thread (`NNHandler::_HandlerThread`).

Conventions of the embedding.

* Machine integers (`status_t`, `team_id`, `thread_id`, `sem_id`, `int32`) are
  `Int`; no arithmetic that could overflow is performed on them here.
* Calls into the operating system and into libraries that are not part of the
  repository are answered by an environment record (`Env`, `InitEnv`); every
  externally visible action is appended to a trace of `Effect`s.
* A blocking `acquire_sem` is resolved by a schedule of `WakeEvent`s: what
  happens while the consumer waits. An empty schedule means that the thread
  waits forever, which is the result `none`.
* Log output (`debug_printf`, `TRACE`) is not modelled.
-/

/-! ## System constants (`Errors.h`, `debugger.h` of the host system) -/

abbrev status_t := Int
abbrev team_id := Int
abbrev thread_id := Int
abbrev port_id := Int
abbrev sem_id := Int

abbrev B_GENERAL_ERROR_BASE : Int := -2147483648
abbrev B_OS_ERROR_BASE : Int := B_GENERAL_ERROR_BASE + 0x1000
abbrev B_STORAGE_ERROR_BASE : Int := B_GENERAL_ERROR_BASE + 0x6000

abbrev B_OK : status_t := 0
abbrev B_ERROR : status_t := -1
abbrev B_NO_MEMORY : status_t := B_GENERAL_ERROR_BASE + 0
abbrev B_BAD_VALUE : status_t := B_GENERAL_ERROR_BASE + 5
abbrev B_INTERRUPTED : status_t := B_GENERAL_ERROR_BASE + 10
abbrev B_BAD_SEM_ID : status_t := B_OS_ERROR_BASE + 0
abbrev B_BAD_THREAD_ID : status_t := B_OS_ERROR_BASE + 0x100
abbrev B_ENTRY_NOT_FOUND : status_t := B_STORAGE_ERROR_BASE + 3

abbrev B_DEBUGGER_MESSAGE_THREAD_DEBUGGED : Int := 0
abbrev B_DEBUGGER_MESSAGE_DEBUGGER_CALL : Int := 1
abbrev B_DEBUGGER_MESSAGE_EXCEPTION_OCCURRED : Int := 8
abbrev B_DEBUGGER_MESSAGE_TEAM_DELETED : Int := 10
abbrev B_DEBUGGER_MESSAGE_HANDED_OVER : Int := 17

/-! ## Action codes (`nnWindow.h`, the anonymous enum) -/

abbrev kActionKillTeam : Int := 0
abbrev kActionDebugTeam : Int := 1
abbrev kActionWriteCoreFile : Int := 2
abbrev kActionSaveReportTeam : Int := 3
abbrev kActionPromptUser : Int := 4

/-- The macro `USE_GUI` of `nnWindow.h`. -/
abbrev USE_GUI : Bool := true

/-! ## Messages and the mailbox of a handler -/

/-- Class `DebugMessage`: the message code and the fields of
`debug_debugger_message_data` the server looks at (`origin.team`,
`origin.thread`, `origin.nub_port`); `payload` stands for the rest of the
union. -/
structure DebugMessage where
  fCode : Int
  team : team_id
  thread : thread_id
  nub_port : port_id
  payload : Nat
deriving DecidableEq, Repr

/-- Class `NNHandler`, the fields that carry state: the message list, the id
of the message-count semaphore together with the count the kernel holds for
it, the team, `fTeamInfo.args`, the executable path, the handler thread and
`fDebugContext.nub_port`. `addr` is the address of the object, which is what
the registry stores. -/
structure NNHandler where
  addr : Nat
  fMessages : List DebugMessage
  fMessageCountSem : sem_id
  semCount : Nat
  fTeam : team_id
  fTeamInfoArgs : String
  fExecutablePath : String
  fHandlerThread : thread_id
  nubPort : port_id
deriving DecidableEq, Repr

/-- What can happen while a thread is blocked in `acquire_sem`: a producer
pushes a message, or the call comes back with a (negative) error code such as
`B_INTERRUPTED` or `B_BAD_SEM_ID`. -/
inductive WakeEvent where
  | push (m : DebugMessage)
  | error (e : status_t) (neg : e < 0)

/-- Kernel call `release_sem`: an invalid id is refused, otherwise the count
goes up by one. Returns the status and the new count. -/
def release_sem (id : sem_id) (count : Nat) : status_t × Nat :=
  if id < 0 then (B_BAD_SEM_ID, count) else (B_OK, count + 1)

/-- `NNHandler::PushMessage`: append to the list, release the semaphore,
return `B_OK`. -/
def NNHandler.PushMessage (h : NNHandler) (message : DebugMessage) :
    status_t × NNHandler :=
  let fMessages := h.fMessages ++ [message]
  let released := release_sem h.fMessageCountSem h.semCount
  (B_OK, { h with fMessages := fMessages, semCount := released.2 })

/-- Result of `NNHandler::_PopMessage`: the returned status, the
out-parameter (`none` when it was not written or is `NULL`), the handler
afterwards and the rest of the schedule. -/
structure PopResult where
  error : status_t
  message : Option DebugMessage
  handler : NNHandler
  sched : List WakeEvent

/-- The part of `_PopMessage` after a successful `acquire_sem`:
`message = fMessages.Head(); fMessages.Remove(message); return B_OK`. -/
def NNHandler.takeHead (h : NNHandler) (sched : List WakeEvent) : PopResult :=
  { error := B_OK, message := h.fMessages.head?,
    handler := { h with fMessages := h.fMessages.tail }, sched := sched }

/-- The blocked `acquire_sem` of `_PopMessage` (count zero, valid id) with the
`do ... while (error == B_INTERRUPTED)` loop around it: the call waits for the
next event of the schedule. A push raises the count, which lets the acquire
succeed; an error code is returned by `acquire_sem`, and the loop repeats the
call when that code is `B_INTERRUPTED`. -/
def NNHandler.waitMessage (h : NNHandler) : List WakeEvent → Option PopResult
  | [] => none
  | WakeEvent.push m :: rest =>
      let pushed := (h.PushMessage m).2
      some (NNHandler.takeHead { pushed with semCount := pushed.semCount - 1 } rest)
  | WakeEvent.error e _ :: rest =>
      if e = B_INTERRUPTED then NNHandler.waitMessage h rest
      else if e ≠ B_OK then
        some { error := e, message := none, handler := h, sched := rest }
      else some (NNHandler.takeHead h rest)

/-- `NNHandler::_PopMessage`. `acquire_sem` fails with `B_BAD_SEM_ID` on an
invalid id (returned, since it is not `B_INTERRUPTED`), succeeds at once when
the count is positive, and otherwise blocks (`waitMessage`). After a successful
acquire the head of the list is taken. -/
def NNHandler._PopMessage (h : NNHandler) (sched : List WakeEvent) : Option PopResult :=
  if h.fMessageCountSem < 0 then
    some { error := B_BAD_SEM_ID, message := none, handler := h, sched := sched }
  else if 0 < h.semCount then
    some (NNHandler.takeHead { h with semCount := h.semCount - 1 } sched)
  else
    h.waitMessage sched

/-- Pushes the messages one after the other. -/
def pushAll (h : NNHandler) (ms : List DebugMessage) : NNHandler :=
  ms.foldl (fun acc m => (acc.PushMessage m).2) h

/-- Calls `_PopMessage` `n` times in a row and collects status and message of
each call. -/
def popN : Nat → NNHandler → List WakeEvent →
    Option (List (status_t × Option DebugMessage) × NNHandler × List WakeEvent)
  | 0, h, sched => some ([], h, sched)
  | n + 1, h, sched =>
    match h._PopMessage sched with
    | none => none
    | some r =>
      match popN n r.handler r.sched with
      | none => none
      | some (out, h2, s2) => some ((r.error, r.message) :: out, h2, s2)

/-! ## Effects and the registry -/

/-- Control requests sent to the debug nub of a team with
`send_debug_message`. -/
inductive DebugRequest where
  | set_team_flags
  | prepare_handover
  | write_core_file (path : String)
deriving DecidableEq, Repr

/-- Externally visible actions, in the order the code performs them. -/
inductive Effect where
  | new_handler (addr : Nat) (team : team_id)
  | delete_handler (addr : Nat)
  | delete_message (m : DebugMessage)
  | kill_team (team : team_id)
  | send_debug_message (team : team_id) (request : DebugRequest)
  | resume_thread (thread : thread_id)
  | print_stack_trace (thread : thread_id)
  | notify_app_server (team : team_id)
  | notify_registrar (team : team_id) (openAlert stopShutdown : Bool)
  | init_gui
  | alert_go (appName : String)
  | messenger_send (team : team_id)
  | load_image (argv : List String)
  | get_thread_info (thread : thread_id)
  | remove_handler (team : team_id)
deriving DecidableEq, Repr

/-- `KillTeam(team, appName)`: the team info is only read for the log line;
the action is `kill_team(team)`. -/
def KillTeam (team : team_id) : List Effect :=
  [Effect.kill_team team]

/-- `NNHandler::_KillTeam`: `KillTeam(fTeam, fTeamInfo.args)`. -/
def NNHandler._KillTeam (h : NNHandler) : List Effect :=
  KillTeam h.fTeam

/-- `NNHandler::Team`. -/
def NNHandler.Team (h : NNHandler) : team_id :=
  h.fTeam

/-- `std::map::find` on `NNHandlerMap`, kept as an association list: the
entry stored under the key. -/
def mapFind : List (team_id × NNHandler) → team_id → Option NNHandler
  | [], _ => none
  | (k, v) :: rest, team => if k = team then some v else mapFind rest team

/-- `std::map::erase(it)` for the iterator `find` returned: removes the entry
found under the key. -/
def mapErase : List (team_id × NNHandler) → team_id → List (team_id × NNHandler)
  | [], _ => []
  | (k, v) :: rest, team => if k = team then rest else (k, v) :: mapErase rest team

/-- `fHandlers[key] = value`: overwrites the entry of the key, or inserts
one. -/
def mapAssign : List (team_id × NNHandler) → team_id → NNHandler →
    List (team_id × NNHandler)
  | [], team, value => [(team, value)]
  | (k, v) :: rest, team, value =>
    if k = team then (k, value) :: rest else (k, v) :: mapAssign rest team value

/-- A write through a handler pointer: the entries that point to the object
at the address of `h` see its new state. -/
def mapStore (m : List (team_id × NNHandler)) (h : NNHandler) : List (team_id × NNHandler) :=
  m.map (fun e => if e.2.addr = h.addr then (e.1, h) else e)

/-- Class `NNHandlerRoster`: the map from team to handler pointer. An entry
holds the address of the handler (`NNHandler.addr`) together with the state of
the object at that address. -/
structure NNHandlerRoster where
  fHandlers : List (team_id × NNHandler)
deriving DecidableEq, Repr

/-- The keys of a `std::map` are unique. -/
def NNHandlerRoster.WF (r : NNHandlerRoster) : Prop :=
  (r.fHandlers.map Prod.fst).Nodup

instance (r : NNHandlerRoster) : Decidable r.WF := by
  unfold NNHandlerRoster.WF; infer_instance

/-- `NNHandlerRoster::AddHandler`. -/
def NNHandlerRoster.AddHandler (r : NNHandlerRoster) (handler : Option NNHandler) :
    Bool × NNHandlerRoster :=
  match handler with
  | none => (false, r)
  | some h => (true, { fHandlers := mapAssign r.fHandlers h.Team h })

/-- `NNHandlerRoster::RemoveHandler`: the removed handler (`none` for `NULL`)
and the registry afterwards. -/
def NNHandlerRoster.RemoveHandler (r : NNHandlerRoster) (team : team_id) :
    Option NNHandler × NNHandlerRoster :=
  match mapFind r.fHandlers team with
  | some handler => (some handler, { fHandlers := mapErase r.fHandlers team })
  | none => (none, r)

/-- `NNHandlerRoster::HandlerFor`. -/
def NNHandlerRoster.HandlerFor (r : NNHandlerRoster) (team : team_id) : Option NNHandler :=
  match mapFind r.fHandlers team with
  | some handler => some handler
  | none => none

/-- What the system answers during `DispatchMessage` when a handler has to be
created: the address `new(nothrow)` returns (`none` for `NULL`) and the results
of the calls made by `NNHandler::Init`. -/
structure InitEnv where
  new_handler : Option Nat
  get_team_info : status_t × String
  get_app_path : status_t × String
  init_debug_context : status_t
  create_sem : sem_id
  spawn_thread : thread_id

/-- Constructor `NNHandler::NNHandler(team)`. -/
def NNHandler.new (addr : Nat) (team : team_id) : NNHandler :=
  { addr := addr, fMessages := [], fMessageCountSem := -1, semCount := 0,
    fTeam := team, fTeamInfoArgs := "", fExecutablePath := "",
    fHandlerThread := -1, nubPort := -1 }

/-- `NNHandler::Init`: returns the status, the handler and the effects. -/
def NNHandler.Init (env : InitEnv) (h : NNHandler) (nubPort : port_id) :
    status_t × NNHandler × List Effect :=
  -- get the team info for the team
  if env.get_team_info.1 ≠ B_OK then (env.get_team_info.1, h, [])
  else
    let h1 := { h with fTeamInfoArgs := env.get_team_info.2 }
    -- get the executable path
    let h2 := { h1 with fExecutablePath :=
      if env.get_app_path.1 ≠ B_OK then "" else env.get_app_path.2 }
    -- init a debug context for the handler
    if env.init_debug_context ≠ B_OK then (env.init_debug_context, h2, [])
    else
      let h3 := { h2 with nubPort := nubPort }
      -- set team flags
      let flags := [Effect.send_debug_message h.fTeam DebugRequest.set_team_flags]
      -- create the message count semaphore
      let h4 := { h3 with fMessageCountSem := env.create_sem, semCount := 0 }
      if h4.fMessageCountSem < 0 then (h4.fMessageCountSem, h4, flags)
      else
        -- spawn the handler thread
        let h5 := { h4 with fHandlerThread := env.spawn_thread }
        if h5.fHandlerThread < 0 then (h5.fHandlerThread, h5, flags)
        else (B_OK, h5, flags ++ [Effect.resume_thread h5.fHandlerThread])

/-- Result of `NNHandlerRoster::DispatchMessage`. -/
structure DispatchResult where
  status : status_t
  roster : NNHandlerRoster
  trace : List Effect

/-- `NNHandlerRoster::DispatchMessage`. A message that is not handed over to
a handler is deleted by the `ObjectDeleter` when the function returns. The
handler that `delete handler` destroys here is new: no message is queued in it
yet, so its destructor deletes none. -/
def NNHandlerRoster.DispatchMessage (env : InitEnv) (r : NNHandlerRoster)
    (message : Option DebugMessage) : DispatchResult :=
  match message with
  | none => { status := B_BAD_VALUE, roster := r, trace := [] }
  | some message =>
    let team := message.team
    -- get the responsible team debug handler
    match r.HandlerFor team with
    | some handler =>
      -- hand over the message to it
      let pushed := (handler.PushMessage message).2
      { status := B_OK, roster := { fHandlers := mapStore r.fHandlers pushed }, trace := [] }
    | none =>
      -- no handler yet, we need to create one
      match env.new_handler with
      | none =>
        { status := B_NO_MEMORY, roster := r,
          trace := KillTeam team ++ [Effect.delete_message message] }
      | some addr =>
        let created := [Effect.new_handler addr team]
        let init := NNHandler.Init env (NNHandler.new addr team) message.nub_port
        if init.1 ≠ B_OK then
          { status := init.1, roster := r,
            trace := created ++ init.2.2 ++ [Effect.delete_handler addr] ++ KillTeam team
              ++ [Effect.delete_message message] }
        else
          let added := r.AddHandler (some init.2.1)
          if !added.1 then
            { status := B_NO_MEMORY, roster := added.2,
              trace := created ++ init.2.2 ++ [Effect.delete_handler addr] ++ KillTeam team
                ++ [Effect.delete_message message] }
          else
            -- hand over the message to it
            let pushed := (init.2.1.PushMessage message).2
            { status := B_OK, roster := { fHandlers := mapStore added.2.fHandlers pushed },
              trace := created ++ init.2.2 }

/-- The registry states the server can be in: it starts empty and is changed
by `DispatchMessage` and `RemoveHandler`. -/
inductive NNHandlerRoster.Reachable : NNHandlerRoster → Prop where
  | init : NNHandlerRoster.Reachable { fHandlers := [] }
  | dispatch (env : InitEnv) (r : NNHandlerRoster) (message : Option DebugMessage) :
      NNHandlerRoster.Reachable r →
      NNHandlerRoster.Reachable (r.DispatchMessage env message).roster
  | remove (r : NNHandlerRoster) (team : team_id) :
      NNHandlerRoster.Reachable r → NNHandlerRoster.Reachable (r.RemoveHandler team).2

/-! ## Policy lookup -/

/-- A parameter of the driver settings file: its name and its values. -/
structure BDriverParameter where
  name : String
  values : List String
deriving DecidableEq, Repr

/-- The settings file `system/debug_server/settings` as `action_for_team`
reads it: the values of the parameter `default_action` (`none` when the
parameter is absent) and the sub-parameters of `executable_actions`, in file
order. -/
structure BDriverSettings where
  default_action : Option (List String)
  executable_actions : List BDriverParameter
deriving DecidableEq, Repr

/-- Answers of the system and of the libraries to the calls a handler thread
makes. -/
structure Env where
  /-- Status of `find_directory(B_USER_SETTINGS_DIRECTORY, ...)`. -/
  find_settings_directory : status_t
  /-- Status of `BDriverSettings::Load`. -/
  settings_load : status_t
  /-- The loaded settings. -/
  settings : BDriverSettings
  /-- Result of `RegExp::SetPattern(pattern, PATTERN_TYPE_WILDCARD)`. -/
  set_pattern : String → Bool
  /-- Result of `RegExp::Match(value).HasMatched()` for a pattern. -/
  regexp_match : String → String → Bool
  /-- Leaf of `BPath(teamName)`, `none` when `InitCheck()` fails. -/
  path_leaf : String → Option String
  /-- The teams `get_next_team_info` enumerates, each with the name of its
  `entry_ref` (`none` when `get_app_ref` fails). -/
  teams : List (team_id × Option String)
  /-- Status of `InitGUIContext`. -/
  init_gui : status_t
  /-- Result of `nnWindow::Go`. -/
  alert_go : Int
  /-- Status of the `B_DEBUG_MESSAGE_PREPARE_HANDOVER` request. -/
  prepare_handover : status_t
  /-- Result of `be_roster->IsRunning(kDebuggerSignature)`. -/
  is_running : Bool
  /-- Status of `BMessage::AddInt32`. -/
  add_int32 : status_t
  /-- Status of `BMessenger::SendMessage`. -/
  send_message : status_t
  /-- Result of `find_directory(B_SYSTEM_BIN_DIRECTORY, ...)`. -/
  find_bin_directory : status_t × String
  /-- Result of `find_directory(B_SYSTEM_APPS_DIRECTORY, ...)`. -/
  find_apps_directory : status_t × String
  /-- Result of `find_directory(B_DESKTOP_DIRECTORY, ...)`. -/
  find_desktop_directory : status_t × String
  /-- Result of `BPath::Append(leaf)` on a path. -/
  path_append : String → String → status_t × String
  /-- Result of `BPath::SetTo(dir, leaf)`. -/
  path_set_to : String → String → status_t × String
  /-- Result of `BStringList::Add(string)`. -/
  list_add : String → Bool
  /-- Thread returned by `load_image` for an argument vector. -/
  load_image : List String → thread_id
  /-- Status of `get_thread_info(thread, ...)` at the n-th liveness check. -/
  get_thread_info : Nat → thread_id → status_t
  /-- Return value of `lstat(path, ...)` and `errno` after it. -/
  lstat : String → Int × Int
  /-- Status of the `B_DEBUG_WRITE_CORE_FILE` request and `reply.error`. -/
  write_core_file : String → status_t × status_t

/-- `strcasecmp(a, b) == 0`. -/
def strcaseeq (a b : String) : Bool :=
  a.toList.map Char.toLower == b.toList.map Char.toLower

/-- `action_for_string`: the status and the value of `_action` afterwards. -/
def action_for_string (action : String) (_action : Int) : status_t × Int :=
  if action = "kill" then (B_OK, kActionKillTeam)
  else if action = "debug" then (B_OK, kActionDebugTeam)
  else if action = "log" ∨ action = "report" then (B_OK, kActionSaveReportTeam)
  else if strcaseeq action "core" then (B_OK, kActionWriteCoreFile)
  else if strcaseeq action "user" then (B_OK, kActionPromptUser)
  else (B_BAD_VALUE, _action)

/-- `match_team_name`. -/
def match_team_name (env : Env) (teamName parameterName : String) : Bool :=
  if env.set_pattern parameterName then
    let value :=
      if parameterName.toList.head? ≠ some '/' then
        -- the expression in question is a team name match only
        match env.path_leaf teamName with
        | some leaf => leaf
        | none => teamName
      else teamName
    env.regexp_match parameterName value
  else false

/-- `BDriverSettings::GetParameterValue(name, unknownValue, noValue)` on the
values of the parameter. -/
def GetParameterValue (parameter : Option (List String)) (unknownValue noValue : String) :
    String :=
  match parameter with
  | none => unknownValue
  | some [] => noValue
  | some (value :: _) => value

/-- The loop of `action_for_team` over the sub-parameters of
`executable_actions`: parameters that do not match are skipped, the first one
that matches sets the action if its first value is an action string, and ends
the loop. -/
def executable_action (env : Env) (teamName : String) :
    List BDriverParameter → Int → Bool → Int × Bool
  | [], _action, _explicitActionFound => (_action, _explicitActionFound)
  | child :: rest, _action, _explicitActionFound =>
    if !match_team_name env teamName child.name then
      executable_action env teamName rest _action _explicitActionFound
    else
      match child.values with
      | [] => (_action, _explicitActionFound)
      | value :: _ =>
        if (action_for_string value _action).1 = B_OK then
          ((action_for_string value _action).2, true)
        else (_action, _explicitActionFound)

/-- `action_for_team`: the status and the values of `_action` and
`_explicitActionFound` afterwards. -/
def action_for_team (env : Env) (teamName : String) (_action : Int)
    (_explicitActionFound : Bool) : status_t × Int × Bool :=
  if env.find_settings_directory ≠ B_OK then
    (env.find_settings_directory, _action, _explicitActionFound)
  else if env.settings_load ≠ B_OK then
    (env.settings_load, _action, _explicitActionFound)
  else
    let default := action_for_string
      (GetParameterValue env.settings.default_action "user" "user") _action
    let action := if default.1 = B_OK then default.2 else kActionPromptUser
    let found := executable_action env teamName env.settings.executable_actions action false
    (B_OK, found.1, found.2)

/-- The default action `action_for_team` starts from (lines 131 to 136): the
action named by the parameter `default_action`, `kActionPromptUser` when the
parameter is absent, has no value or does not name an action. -/
def defaultAction (env : Env) : Int :=
  let default := action_for_string
    (GetParameterValue env.settings.default_action "user" "user") kActionPromptUser
  if default.1 = B_OK then default.2 else kActionPromptUser

/-- What a matching rule of `executable_actions` does to `_action` and
`_explicitActionFound` (lines 146 to 151 of `action_for_team`). -/
def ruleAction (child : BDriverParameter) (_action : Int) (_explicitActionFound : Bool) :
    Int × Bool :=
  match child.values with
  | [] => (_action, _explicitActionFound)
  | value :: _ =>
    if (action_for_string value _action).1 = B_OK then
      ((action_for_string value _action).2, true)
    else (_action, _explicitActionFound)

/-! ## The handler: decision and actions -/

/-- `strrchr(path, '/')` followed by the step over the slash: the characters
after the last slash, the whole string if there is none. -/
def lastComponent (path : List Char) : List Char :=
  (path.reverse.takeWhile (fun c => c ≠ '/')).reverse

/-- `NNHandler::_LastPathComponent`. -/
def _LastPathComponent (path : String) : String :=
  String.mk (lastComponent path.toList)

/-- `NNHandler::_ExecutableNameEquals`. -/
def NNHandler._ExecutableNameEquals (h : NNHandler) (name : String) : Bool :=
  _LastPathComponent h.fExecutablePath == name

/-- `NNHandler::_IsAppServer`. -/
def NNHandler._IsAppServer (h : NNHandler) : Bool :=
  h._ExecutableNameEquals "app_server"

/-- `NNHandler::_IsInputServer`. -/
def NNHandler._IsInputServer (h : NNHandler) : Bool :=
  h._ExecutableNameEquals "input_server"

/-- `NNHandler::_IsRegistrar`. -/
def NNHandler._IsRegistrar (h : NNHandler) : Bool :=
  h._ExecutableNameEquals "registrar"

/-- `NNHandler::_IsGUIServer`. -/
def NNHandler._IsGUIServer (h : NNHandler) : Bool :=
  h._IsAppServer || h._IsInputServer || h._IsRegistrar

/-- `NNHandler::_FindTeam`: the first team whose `entry_ref` has the name,
`B_ENTRY_NOT_FOUND` if there is none. -/
def _FindTeam (name : String) : List (team_id × Option String) → team_id
  | [] => B_ENTRY_NOT_FOUND
  | (team, ref) :: rest =>
    match ref with
    | some refName => if refName = name then team else _FindTeam name rest
    | none => _FindTeam name rest

/-- `NNHandler::_AreGUIServersAlive`; the third operand is the team id taken
as a truth value. -/
def _AreGUIServersAlive (env : Env) : Bool :=
  decide (_FindTeam "app_server" env.teams ≥ 0)
    && decide (_FindTeam "input_server" env.teams ≥ 0)
    && decide (_FindTeam "registrar" env.teams ≠ 0)

/-- Lines 876 to 882 of `_HandleMessage`: the action of the policy and
whether it is explicit; both fall back to their defaults when
`action_for_team` fails. -/
def NNHandler.policyAction (env : Env) (h : NNHandler) : Int × Bool :=
  let looked := action_for_team env h.fExecutablePath kActionPromptUser false
  if looked.1 ≠ B_OK then (kActionPromptUser, false) else (looked.2.1, looked.2.2)

/-- The value a C++ `bool` has when it is returned as `int32`. -/
def int32_of_bool (b : Bool) : Int :=
  if b then 1 else 0

/-- `NNHandler::_HandleMessage`: the returned action and the effects. -/
def NNHandler._HandleMessage (env : Env) (h : NNHandler) (message : DebugMessage) :
    Int × List Effect :=
  if message.fCode = B_DEBUGGER_MESSAGE_TEAM_DELETED then
    -- This shouldn't happen.
    (int32_of_bool true, [])
  else
    let printed := [Effect.print_stack_trace message.thread]
    let debugAction := (h.policyAction env).1
    let explicitActionFound := (h.policyAction env).2
    -- ask the user whether to debug or kill the team
    if h._IsGUIServer then
      -- App server, input server, or registrar. We always debug those.
      -- if not specifically overridden.
      (if !explicitActionFound then kActionDebugTeam else debugAction, printed)
    else if debugAction = kActionPromptUser ∧ USE_GUI = true ∧ _AreGUIServersAlive env = true then
      if env.init_gui = B_OK then
        -- normal app -- tell the user
        let went := if env.alert_go < 0 then kActionKillTeam else env.alert_go
        (went, printed ++ [Effect.init_gui, Effect.notify_app_server h.fTeam,
          Effect.notify_registrar h.fTeam true false, Effect.alert_go h.fTeamInfoArgs,
          Effect.notify_registrar h.fTeam false (went != kActionKillTeam)])
      else (debugAction, printed ++ [Effect.init_gui])
    else (debugAction, printed)

/-- The argument vector `_EnterDebugger` builds (variant
`HANDOVER_USE_DEBUGGER`): the error it returns early with, or the strings of
`arguments`. -/
def NNHandler.debuggerArguments (env : Env) (h : NNHandler) (saveReport debugInConsoled : Bool) :
    Except status_t (List String) :=
  let terminal : Except status_t (List String) :=
    if debugInConsoled then
      if env.find_bin_directory.1 ≠ B_OK then Except.error env.find_bin_directory.1
      else
        let consoled := env.path_append env.find_bin_directory.2 "consoled"
        if consoled.1 ≠ B_OK then Except.error consoled.1
        else if !env.list_add consoled.2 then Except.error B_NO_MEMORY
        else Except.ok [consoled.2]
    else Except.ok []
  match terminal with
  | Except.error error => Except.error error
  | Except.ok arguments =>
    if env.find_apps_directory.1 ≠ B_OK then Except.error env.find_apps_directory.1
    else
      let debugger := env.path_append env.find_apps_directory.2 "Debugger"
      if debugger.1 ≠ B_OK then Except.error debugger.1
      else if !env.list_add debugger.2 then Except.error B_NO_MEMORY
      else if debugInConsoled && !env.list_add "--cli" then Except.error B_NO_MEMORY
      else
        let cli := if debugInConsoled then ["--cli"] else []
        let debuggerParam := toString h.fTeam
        if saveReport && !env.list_add "--save-report" then Except.error B_NO_MEMORY
        else
          let report := if saveReport then ["--save-report"] else []
          if !env.list_add "--team" || !env.list_add debuggerParam then
            Except.error B_NO_MEMORY
          else
            Except.ok (arguments ++ [debugger.2] ++ cli ++ report ++ ["--team", debuggerParam])

/-- `NNHandler::_EnterDebugger` (variant `HANDOVER_USE_DEBUGGER`): the
returned thread id, negative on failure, and the effects. -/
def NNHandler._EnterDebugger (env : Env) (h : NNHandler) (saveReport : Bool) :
    thread_id × List Effect :=
  -- prepare a debugger handover
  let prepared := [Effect.send_debug_message h.fTeam DebugRequest.prepare_handover]
  if env.prepare_handover ≠ B_OK then (env.prepare_handover, prepared)
  else
    let debugInConsoled := h._IsGUIServer || !_AreGUIServersAlive env
    let attach := !debugInConsoled && !saveReport && env.is_running
    -- for graphical handovers, check if Debugger is already running
    if attach ∧ env.add_int32 = B_OK ∧ env.send_message = B_OK then
      (0, prepared ++ [Effect.messenger_send h.fTeam])
    else
      let sent :=
        if attach ∧ env.add_int32 = B_OK then prepared ++ [Effect.messenger_send h.fTeam]
        else prepared
      -- prepare the argument vector
      match h.debuggerArguments env saveReport debugInConsoled with
      | Except.error error => (error, sent)
      | Except.ok argv =>
        -- start the debugger
        let thread := env.load_image argv
        if thread < 0 then (thread, sent ++ [Effect.load_image argv])
        else (thread, sent ++ [Effect.load_image argv, Effect.resume_thread thread])

/-- The search loop of `_WriteCoreFile` from `index` on: the path of the first
candidate for which `lstat` fails with `B_ENTRY_NOT_FOUND`, or the error the
function returns with. The first argument bounds the number of rounds. -/
def coreFilePath (env : Env) (directoryPath fileBaseName : String) :
    Nat → Nat → Option (Except status_t String)
  | 0, _ => none
  | rounds + 1, index =>
    let fileName := if index > 0 then fileBaseName ++ "-" ++ toString index else fileBaseName
    let filePath := env.path_set_to directoryPath fileName
    if filePath.1 ≠ B_OK then some (Except.error filePath.1)
    else if (env.lstat filePath.2).1 ≠ 0 ∧ (env.lstat filePath.2).2 = B_ENTRY_NOT_FOUND then
      some (Except.ok filePath.2)
    else if index > 1000 then some (Except.error B_ERROR)
    else coreFilePath env directoryPath fileBaseName rounds (index + 1)

/-- `NNHandler::_WriteCoreFile`: the returned status and the effects. The
search is given 1002 rounds, one for each index from 0 to 1001. -/
def NNHandler._WriteCoreFile (env : Env) (h : NNHandler) : status_t × List Effect :=
  -- get a usable path for the core file
  if env.find_desktop_directory.1 ≠ B_OK then (env.find_desktop_directory.1, [])
  else
    let executableName := _LastPathComponent h.fExecutablePath
    let fileBaseName := "core-" ++ executableName ++ "-" ++ toString h.fTeam
    match coreFilePath env env.find_desktop_directory.2 fileBaseName 1002 0 with
    | none => (B_ERROR, [])
    | some (Except.error error) => (error, [])
    | some (Except.ok filePath) =>
      let sent := env.write_core_file filePath
      (if sent.1 = B_OK then sent.2 else sent.1,
        [Effect.send_debug_message h.fTeam (DebugRequest.write_core_file filePath)])

/-- State of the hand-over loop of `_HandlerThread` when it ends: the value
of `debugAction`, the handler, the rest of the schedule and the effects. -/
structure LoopResult where
  debugAction : Int
  handler : NNHandler
  sched : List WakeEvent
  trace : List Effect

/-- The `do ... while (!terminate)` loop of `_HandlerThread`. `checks` counts
the liveness checks made so far; the first argument bounds the number of
rounds. The result is `none` when the thread never leaves the loop because it
waits for a message that does not come, or when the message popped is
`NULL`. -/
def handOverLoop (env : Env) (debuggerThread : thread_id) :
    Nat → Nat → Int → NNHandler → List WakeEvent → Option LoopResult
  | 0, _, _, _, _ => none
  | rounds + 1, checks, debugAction, h, sched =>
    match h._PopMessage sched with
    | none => none
    | some popped =>
      if popped.error ≠ B_OK then
        some { debugAction := kActionKillTeam, handler := popped.handler,
               sched := popped.sched, trace := [] }
      else
        match popped.message with
        | none => none
        | some message =>
          if message.fCode = B_DEBUGGER_MESSAGE_HANDED_OVER then
            -- The team has successfully been handed over to the debugger.
            some { debugAction := debugAction, handler := popped.handler,
                   sched := popped.sched, trace := [Effect.delete_message message] }
          else if message.fCode = B_DEBUGGER_MESSAGE_TEAM_DELETED then
            -- The team died. Nothing to do.
            some { debugAction := debugAction, handler := popped.handler,
                   sched := popped.sched, trace := [Effect.delete_message message] }
          else
            -- check whether the debugger thread still lives
            let checked := [Effect.get_thread_info debuggerThread]
            if env.get_thread_info checks debuggerThread ≠ B_OK then
              -- the debugger is gone
              some { debugAction := kActionKillTeam, handler := popped.handler,
                     sched := popped.sched,
                     trace := checked ++ [Effect.delete_message message] }
            else
              match handOverLoop env debuggerThread rounds (checks + 1) debugAction
                  popped.handler popped.sched with
              | none => none
              | some later =>
                some { later with
                  trace := checked ++ [Effect.delete_message message] ++ later.trace }

/-- Number of rounds after which the hand-over loop has come to an end or
waits forever: every round takes a unit of the semaphore count or an event of
the schedule. -/
def loopRounds (h : NNHandler) (sched : List WakeEvent) : Nat :=
  h.semCount + sched.length + 1

/-- Result of a run of `_HandlerThread` that reaches its end. -/
structure ThreadResult where
  status : status_t
  debugAction : Int
  roster : NNHandlerRoster
  trace : List Effect

/-- The first part of `_HandlerThread`: pop the initial message and handle
it. Gives the value of `debugAction`, the handler, the schedule and the
effects; `none` when the pop never returns or returns a `NULL` message. -/
def NNHandler.initialAction (env : Env) (this : NNHandler) (sched : List WakeEvent) :
    Option LoopResult :=
  match this._PopMessage sched with
  | none => none
  | some popped =>
    if popped.error = B_OK then
      match popped.message with
      | none => none
      | some message =>
        -- handle the message
        let handled := popped.handler._HandleMessage env message
        some { debugAction := handled.1, handler := popped.handler, sched := popped.sched,
               trace := handled.2 ++ [Effect.delete_message message] }
    else
      some { debugAction := kActionKillTeam, handler := popped.handler,
             sched := popped.sched, trace := [] }

/-- The middle part of `_HandlerThread`: kill the team or hand it over to the
debugger. Gives the final value of `debugAction` with the effects. -/
def NNHandler.handOver (env : Env) (h : NNHandler) (sched : List WakeEvent)
    (debugAction : Int) : Option LoopResult :=
  if debugAction = kActionKillTeam then
    -- The team shall be killed.
    some { debugAction := debugAction, handler := h, sched := sched, trace := [] }
  else if debugAction = kActionWriteCoreFile then
    some { debugAction := kActionKillTeam, handler := h, sched := sched,
           trace := (h._WriteCoreFile env).2 }
  else
    let entered := h._EnterDebugger env (decide (debugAction = kActionSaveReportTeam))
    if entered.1 ≥ 0 then
      -- wait for the "handed over" or a "team deleted" message
      match handOverLoop env entered.1 (loopRounds h sched) 0 debugAction h sched with
      | none => none
      | some looped => some { looped with trace := entered.2 ++ looped.trace }
    else
      some { debugAction := kActionKillTeam, handler := h, sched := sched, trace := entered.2 }

/-- `NNHandler::~NNHandler`, as `delete this` runs it at the end of the handler
thread: the messages that are still queued are deleted, from the head on.
The thread does not wait for itself; deleting the semaphore and destroying the
debug context leave nothing in the trace. -/
def NNHandler.destructor (h : NNHandler) : List Effect :=
  h.fMessages.map Effect.delete_message

/-- `NNHandler::_HandlerThread`, run on the handler `this` with the registry
`roster`. The result is `none` when the thread does not reach its end. The
last statement, `delete this`, runs the destructor on the handler as the run
left it and then frees the object. -/
def NNHandler._HandlerThread (env : Env) (this : NNHandler) (sched : List WakeEvent)
    (roster : NNHandlerRoster) : Option ThreadResult :=
  -- get initial message
  match this.initialAction env sched with
  | none => none
  | some first =>
    -- kill the team or hand it over to the debugger
    match first.handler.handOver env first.sched first.debugAction with
    | none => none
    | some last =>
      let killed := if last.debugAction = kActionKillTeam then last.handler._KillTeam else []
      -- remove this handler from the roster and delete it
      some { status := B_OK, debugAction := last.debugAction,
             roster := (roster.RemoveHandler this.fTeam).2,
             trace := first.trace ++ last.trace ++ killed
               ++ [Effect.remove_handler this.fTeam] ++ last.handler.destructor
               ++ [Effect.delete_handler this.addr] }

/-- The terminate requests of a trace: the teams `kill_team` was called for,
in order. -/
def kills (trace : List Effect) : List team_id :=
  trace.filterMap (fun e =>
    match e with
    | Effect.kill_team team => some team
    | _ => none)

/-- The handlers constructed in a trace: their addresses. -/
def constructed (trace : List Effect) : List Nat :=
  trace.filterMap (fun e =>
    match e with
    | Effect.new_handler addr _ => some addr
    | _ => none)

/-- The team-to-handler mapping of the registry: which team points to which
handler object. -/
def NNHandlerRoster.mapping (r : NNHandlerRoster) : List (team_id × Nat) :=
  r.fHandlers.map (fun e => (e.1, e.2.addr))

/-- Whether the trace has a debugger launch: a `load_image` call or a message
to a running debugger. -/
def launchesDebugger (trace : List Effect) : Bool :=
  trace.any (fun e =>
    match e with
    | Effect.load_image _ => true
    | Effect.messenger_send _ => true
    | _ => false)

/-- Whether the trace has a request to the debug nub to prepare a
hand-over. -/
def preparesHandover (trace : List Effect) : Bool :=
  trace.any (fun e =>
    match e with
    | Effect.send_debug_message _ DebugRequest.prepare_handover => true
    | _ => false)

/-- Whether the prompt was shown. -/
def prompts (trace : List Effect) : Bool :=
  trace.any (fun e =>
    match e with
    | Effect.alert_go _ => true
    | _ => false)

/-- Whether a core dump was requested. -/
def dumpsCore (trace : List Effect) : Bool :=
  trace.any (fun e =>
    match e with
    | Effect.send_debug_message _ (DebugRequest.write_core_file _) => true
    | _ => false)

/-- The registry actions of a trace: the teams `RemoveHandler` was called
for by a handler thread, in order. -/
def removals (trace : List Effect) : List team_id :=
  trace.filterMap (fun e =>
    match e with
    | Effect.remove_handler team => some team
    | _ => none)

/-- The core dump requests that reach the debug nub in a trace: their
paths. -/
def coreRequests (trace : List Effect) : List String :=
  trace.filterMap (fun e =>
    match e with
    | Effect.send_debug_message _ (DebugRequest.write_core_file path) => some path
    | _ => none)

/-- Modelled from the spec: the result of `nnWindow::Go`, which is declared in
`nnWindow.h` and whose body is not among the sources. The spec gives the
prompt the results Kill, Debug and SaveReportAndDebug; `_HandleMessage`
expects a negative value when the prompt is closed without a choice. -/
def nnWindow_Go_result (result : Int) : Bool :=
  decide (result < 0) || result == kActionKillTeam || result == kActionDebugTeam
    || result == kActionSaveReportTeam

/-! ## The listener -/

/-- One return of `read_port` on the listener port: the size or error it
returns, the message code, and the fields of the data it wrote. -/
structure PortRead where
  bytesRead : Int
  code : Int
  team : team_id
  thread : thread_id
  nub_port : port_id
  payload : Nat
deriving DecidableEq, Repr

/-- The message the listener builds from a read: `SetCode(code)` on the
message the data was read into. -/
def PortRead.message (read : PortRead) : DebugMessage :=
  { fCode := read.code, team := read.team, thread := read.thread, nub_port := read.nub_port,
    payload := read.payload }

/-- How a run of the listener over a finite sequence of reads ends: the
process has exited, the function has returned, or the thread is blocked in
`read_port`. -/
inductive ListenerEnd where
  | exited (status : Int)
  | returned (status : status_t)
  | waiting
deriving DecidableEq, Repr

/-- Result of a run of `NN::_Listener`: how it ended, the messages passed to
`DispatchMessage` in call order, the registry and the effects. -/
structure ListenerResult where
  outcome : ListenerEnd
  dispatched : List DebugMessage
  roster : NNHandlerRoster
  trace : List Effect

/-- `NN::_Listener` over the sequence of results `read_port` gives. `sys n`
answers the system calls made during the n-th `DispatchMessage` call. The
member `fTerminating` is never written, so it is a parameter. -/
def NN._Listener (sys : Nat → InitEnv) (fTerminating : Bool) :
    List PortRead → Nat → NNHandlerRoster → ListenerResult
  | [], _, roster =>
    { outcome := if fTerminating then ListenerEnd.returned B_OK else ListenerEnd.waiting,
      dispatched := [], roster := roster, trace := [] }
  | read :: rest, n, roster =>
    if fTerminating then
      { outcome := ListenerEnd.returned B_OK, dispatched := [], roster := roster, trace := [] }
    else if read.bytesRead = B_INTERRUPTED then
      -- receive the next debug message: the read is repeated
      NN._Listener sys fTerminating rest n roster
    else if read.bytesRead < 0 then
      { outcome := ListenerEnd.exited 1, dispatched := [], roster := roster, trace := [] }
    else
      -- dispatch the message
      let res := roster.DispatchMessage (sys n) (some read.message)
      let later := NN._Listener sys fTerminating rest (n + 1) res.roster
      { later with
        dispatched := read.message :: later.dispatched, trace := res.trace ++ later.trace }

/-- The registry and the effects after `NNHandlerRoster::DispatchMessage` has
been called for each message of a list in turn, the calls numbered from `n`
and the n-th call answered by `sys n`. -/
def dispatchAll (sys : Nat → InitEnv) :
    List DebugMessage → Nat → NNHandlerRoster → NNHandlerRoster × List Effect
  | [], _, roster => (roster, [])
  | message :: rest, n, roster =>
    let res := roster.DispatchMessage (sys n) (some message)
    let later := dispatchAll sys rest (n + 1) res.roster
    (later.1, res.trace ++ later.2)

/-! ## The mailbox invariant -/

/-- The states of the mailbox of one handler: it starts with the semaphore
`Init` created (valid id, count zero) and an empty list, and is changed by
`PushMessage` and by `_PopMessage` calls that return `B_OK`. -/
inductive NNHandler.MailboxReachable : NNHandler → Prop where
  | init (h : NNHandler) : 0 ≤ h.fMessageCountSem → h.fMessages = [] → h.semCount = 0 →
      NNHandler.MailboxReachable h
  | push (h : NNHandler) (message : DebugMessage) :
      NNHandler.MailboxReachable h → NNHandler.MailboxReachable (h.PushMessage message).2
  | pop (h : NNHandler) (sched : List WakeEvent) (popped : PopResult) :
      NNHandler.MailboxReachable h → h._PopMessage sched = some popped →
      popped.error = B_OK → NNHandler.MailboxReachable popped.handler

/-- The effects only `_HandleMessage` has: the stack trace, the set-up of the
GUI, the notifications and the prompt. -/
def isDecisionEffect : Effect → Bool
  | Effect.print_stack_trace _ => true
  | Effect.init_gui => true
  | Effect.notify_app_server _ => true
  | Effect.notify_registrar _ _ _ => true
  | Effect.alert_go _ => true
  | _ => false

/-- The effects of `_HandleMessage` in a trace. -/
def decisionEffects (trace : List Effect) : List Effect :=
  trace.filter isDecisionEffect

/-! ## Core file names -/

/-- The file name `_WriteCoreFile` tries at an index: the base name, followed
by a dash and the index when the index is positive. -/
def coreFileName (fileBaseName : String) (index : Nat) : String :=
  if index > 0 then fileBaseName ++ "-" ++ toString index else fileBaseName

/-- The base name of the core file of a handler: `core-`, the last component
of the executable path, a dash and the team. -/
def NNHandler.coreBaseName (h : NNHandler) : String :=
  "core-" ++ _LastPathComponent h.fExecutablePath ++ "-" ++ toString h.fTeam

/-- The path `BPath::SetTo` gives for the candidate at an index. -/
def corePath (env : Env) (directoryPath fileBaseName : String) (index : Nat) : String :=
  (env.path_set_to directoryPath (coreFileName fileBaseName index)).2

/-- Whether the candidate at an index is free: `lstat` fails on its path with
`errno` equal to `B_ENTRY_NOT_FOUND`. -/
def coreFree (env : Env) (directoryPath fileBaseName : String) (index : Nat) : Prop :=
  (env.lstat (corePath env directoryPath fileBaseName index)).1 ≠ 0 ∧
  (env.lstat (corePath env directoryPath fileBaseName index)).2 = B_ENTRY_NOT_FOUND

instance (env : Env) (directoryPath fileBaseName : String) (index : Nat) :
    Decidable (coreFree env directoryPath fileBaseName index) := by
  unfold coreFree; infer_instance

/-! ## Machine integers of the utility code -/

/-- The value of a 32-bit `int` as `unsigned`: its residue modulo 2^32. -/
def toU32 (a : Int) : Nat :=
  (a % 4294967296).toNat

/-- The `int` with a given 32-bit pattern (two's complement). -/
def ofU32 (n : Nat) : Int :=
  if n < 2147483648 then (n : Int) else (n : Int) - 4294967296

/-- A result of `int` arithmetic, wrapped around to 32 bits. -/
def wrap32 (x : Int) : Int :=
  (x + 2147483648) % 4294967296 - 2147483648

/-- Whether a value is a 32-bit `int`. -/
def isInt32 (a : Int) : Prop :=
  -2147483648 ≤ a ∧ a ≤ 2147483647

instance (a : Int) : Decidable (isInt32 a) := by
  unfold isInt32; infer_instance

/-- `integer_cmp` of `mylib/object.c` on the two integers the objects point
to: their difference as an `int`. -/
def integer_cmp (obj1 obj2 : Int) : Int :=
  wrap32 (obj1 - obj2)

/-- `__mod_pw2` of `extra/mod_pw2.h`: `a & (b - 1)` on 32-bit patterns. -/
def __mod_pw2 (a b : Int) : Int :=
  ofU32 (Nat.land (toU32 a) (toU32 (wrap32 (b - 1))))

/-- The remainder operator of C on `int`: the sign follows the dividend. -/
def c_rem (a b : Int) : Int :=
  Int.tmod a b

/-! ## The matrix transpose -/

/-- `struct table` of `mylib/table.h`: width, height and the objects. `size`
is the number of objects allocated behind the pointer `objects`, which is the
memory read and written through it. The member `info` plays no part in
`table_get` and `table_set`. -/
structure table (α : Type) where
  width : Nat
  height : Nat
  size : Nat
  objects : Nat → α

/-- Arithmetic on `unsigned` is modulo 2^32. -/
def unsigned_wrap (n : Nat) : Nat :=
  n % 4294967296

/-- `table_create(info, height, width)`: `none` when an assertion fails. The
allocation has `width*height` objects, the product being computed in
`unsigned`; `memory` is what the fresh allocation holds. -/
def table_create {α : Type} (memory : Nat → α) (height width : Nat) : Option (table α) :=
  if 0 < width ∧ 0 < height then
    some { width := width, height := height, size := unsigned_wrap (width * height),
           objects := memory }
  else none

/-- `table_get`: `none` when an assertion fails or the index lies outside the
allocation. -/
def table_get {α : Type} (t : table α) (i j : Nat) : Option α :=
  if i < t.height ∧ j < t.width then
    if unsigned_wrap (i * t.width + j) < t.size then
      some (t.objects (unsigned_wrap (i * t.width + j)))
    else none
  else none

/-- `table_set`: the table afterwards, `none` when an assertion fails or the
index lies outside the allocation. -/
def table_set {α : Type} (t : table α) (i j : Nat) (obj : α) : Option (table α) :=
  if i < t.height ∧ j < t.width then
    if unsigned_wrap (i * t.width + j) < t.size then
      some { t with objects := Function.update t.objects (unsigned_wrap (i * t.width + j)) obj }
    else none
  else none

/-! ## Sample data -/

/-- A message for team 42 with the given code. -/
def sampleMessage (code : Int) (payload : Nat) : DebugMessage :=
  { fCode := code, team := 42, thread := 421, nub_port := 9, payload := payload }

/-- A handler for team 42 after a successful `Init`. -/
def sampleHandler : NNHandler :=
  { addr := 1000, fMessages := [], fMessageCountSem := 5, semCount := 0, fTeam := 42,
    fTeamInfoArgs := "crasher", fExecutablePath := "/boot/home/apps/crasher",
    fHandlerThread := 77, nubPort := 9 }

/-- The handler of `sampleHandler` with two messages in its queue: an
exception and a later message of another kind. -/
def queuedHandler : NNHandler :=
  pushAll sampleHandler
    [sampleMessage B_DEBUGGER_MESSAGE_EXCEPTION_OCCURRED 0, sampleMessage 12 1]

/-- A handler without a message count semaphore that has a message in its
list. -/
def semlessHandler : NNHandler :=
  { sampleHandler with fMessageCountSem := -1, fMessages := [sampleMessage 12 1] }

/-- A message for team 7. -/
def otherMessage : DebugMessage :=
  { fCode := 8, team := 7, thread := 71, nub_port := 3, payload := 0 }

/-- A handler for team 7 with one queued message. -/
def otherHandler : NNHandler :=
  { addr := 3000, fMessages := [otherMessage],
    fMessageCountSem := 6, semCount := 1, fTeam := 7, fTeamInfoArgs := "other",
    fExecutablePath := "/bin/other", fHandlerThread := 78, nubPort := 3 }

/-- A registry with handlers for the teams 7 and 42. -/
def sampleRoster : NNHandlerRoster :=
  { fHandlers := [(7, otherHandler), (42, sampleHandler)] }

/-- A registry with a handler for team 7 only. -/
def smallRoster : NNHandlerRoster :=
  { fHandlers := [(7, otherHandler)] }

/-- A system in which the debug context of a new handler cannot be set
up. -/
def failingInit : InitEnv :=
  { new_handler := some 2000, get_team_info := (B_OK, "crasher"),
    get_app_path := (B_OK, "/boot/home/apps/crasher"), init_debug_context := B_ERROR,
    create_sem := 5, spawn_thread := 77 }

/-- A system with the GUI servers running, no policy rules, and a debugger
that can be launched. Patterns without wildcards match literally. -/
def sampleEnv : Env :=
  { find_settings_directory := B_OK, settings_load := B_OK,
    settings := { default_action := none, executable_actions := [] },
    set_pattern := fun _ => true,
    regexp_match := fun pattern value => pattern == value,
    path_leaf := fun path => some (_LastPathComponent path),
    teams := [(10, some "app_server"), (11, some "input_server"), (12, some "registrar")],
    init_gui := B_OK, alert_go := kActionDebugTeam,
    prepare_handover := B_OK, is_running := false, add_int32 := B_OK, send_message := B_OK,
    find_bin_directory := (B_OK, "/boot/system/bin"),
    find_apps_directory := (B_OK, "/boot/system/apps"),
    find_desktop_directory := (B_OK, "/boot/home/Desktop"),
    path_append := fun dir leaf => (B_OK, dir ++ "/" ++ leaf),
    path_set_to := fun dir leaf => (B_OK, dir ++ "/" ++ leaf),
    list_add := fun _ => true,
    load_image := fun _ => 500,
    get_thread_info := fun _ _ => B_OK,
    lstat := fun _ => (-1, B_ENTRY_NOT_FOUND),
    write_core_file := fun _ => (B_OK, B_OK) }

/-- The system of `sampleEnv` before the GUI servers have started. -/
def consoleEnv : Env :=
  { sampleEnv with teams := [] }

/-- The system of `sampleEnv` with the policy rule `crasher kill`. -/
def killRuleEnv : Env :=
  { sampleEnv with
    settings := { default_action := none, executable_actions := [⟨"crasher", ["kill"]⟩] } }

/-- The system of `sampleEnv` with the policy rule `app_server kill`. -/
def killServerEnv : Env :=
  { sampleEnv with
    settings := { default_action := none, executable_actions := [⟨"app_server", ["kill"]⟩] } }

/-- The system of `sampleEnv` when the team is gone: the debug nub does not
answer. -/
def goneEnv : Env :=
  { sampleEnv with prepare_handover := B_BAD_VALUE }

/-- The system of `sampleEnv` with a debugger that has died. -/
def deadDebuggerEnv : Env :=
  { sampleEnv with get_thread_info := fun _ _ => B_BAD_THREAD_ID }

/-- A handler for the application server, team 10. -/
def serverHandler : NNHandler :=
  { addr := 4000, fMessages := [], fMessageCountSem := 8, semCount := 0, fTeam := 10,
    fTeamInfoArgs := "app_server", fExecutablePath := "/boot/system/servers/app_server",
    fHandlerThread := 79, nubPort := 4 }

/-- A message for team 10, an exception. -/
def serverMessage : DebugMessage :=
  { fCode := B_DEBUGGER_MESSAGE_EXCEPTION_OCCURRED, team := 10, thread := 101, nub_port := 4,
    payload := 0 }

/-- A second handler object for team 42, at another address. -/
def replacementHandler : NNHandler :=
  { sampleHandler with addr := 5000 }

/-- The system of `sampleEnv` with the setting `default_action kill`. -/
def defaultKillEnv : Env :=
  { sampleEnv with settings := { default_action := some ["kill"], executable_actions := [] } }

/-- The system of `sampleEnv` with the policy rules `other debug`,
`crasher core` and `crasher kill`, in this order. -/
def rulesEnv : Env :=
  { sampleEnv with
    settings := { default_action := none,
                  executable_actions := [⟨"other", ["debug"]⟩, ⟨"crasher", ["core"]⟩,
                    ⟨"crasher", ["kill"]⟩] } }

/-- A system in which a new handler can be set up. -/
def workingInit : InitEnv :=
  { new_handler := some 2000, get_team_info := (B_OK, "crasher"),
    get_app_path := (B_OK, "/boot/home/apps/crasher"), init_debug_context := B_OK,
    create_sem := 5, spawn_thread := 77 }

/-- A read of the listener port with the given result and code, for team
42. -/
def sampleRead (bytesRead code : Int) : PortRead :=
  { bytesRead := bytesRead, code := code, team := 42, thread := 421, nub_port := 9,
    payload := 0 }

/-! ## Mailbox order -/

theorem pushAll_eq (h : NNHandler) (ms : List DebugMessage)
    (hsem : 0 ≤ h.fMessageCountSem) :
    pushAll h ms =
      { h with fMessages := h.fMessages ++ ms, semCount := h.semCount + ms.length } := by
  induction ms generalizing h with
  | nil => simp [pushAll]
  | cons m ms ih =>
    have hnot : ¬ h.fMessageCountSem < 0 := not_lt.mpr hsem
    have step := ih (h.PushMessage m).2 (by simpa [NNHandler.PushMessage] using hsem)
    simp only [pushAll, List.foldl_cons] at step ⊢
    rw [step]
    simp [NNHandler.PushMessage, release_sem, hnot]
    omega

theorem popN_queue (q : List DebugMessage) (h : NNHandler) (sched : List WakeEvent)
    (hsem : 0 ≤ h.fMessageCountSem) (hq : h.fMessages = q ++ h.fMessages.drop q.length)
    (hc : q.length ≤ h.semCount) :
    popN q.length h sched =
      some (q.map (fun m => (B_OK, some m)),
        { h with fMessages := h.fMessages.drop q.length, semCount := h.semCount - q.length },
        sched) := by
  induction q generalizing h with
  | nil => simp [popN]
  | cons m q ih =>
    have hnot : ¬ h.fMessageCountSem < 0 := not_lt.mpr hsem
    simp only [List.length_cons] at hc hq ⊢
    have hpos : 0 < h.semCount := by omega
    obtain ⟨tl, htl⟩ : ∃ tl, h.fMessages = m :: tl := by
      rw [hq]; exact ⟨_, rfl⟩
    have hq2 : tl = q ++ tl.drop q.length := by
      rw [htl] at hq
      simpa using hq
    simp only [popN, NNHandler._PopMessage, hnot, hpos, if_true, if_false,
      NNHandler.takeHead, htl, List.head?_cons, List.tail_cons]
    rw [ih _ (by simpa using hsem) (by simpa using hq2) (by simp; omega)]
    simp [List.drop_succ_cons, Nat.sub_sub]
    omega

/-- C1: N events pushed with `PushMessage` to a handler with an empty mailbox
(semaphore created, count zero) come back from N successive `_PopMessage`
calls, each returning `B_OK`, in exactly the order they were pushed; this
holds whatever happens around the consumer (any schedule), and the mailbox is
empty again afterwards. -/
theorem C1_mailbox_fifo (h : NNHandler) (ms : List DebugMessage) (sched : List WakeEvent)
    (hsem : 0 ≤ h.fMessageCountSem) (hempty : h.fMessages = []) (hcount : h.semCount = 0) :
    popN ms.length (pushAll h ms) sched =
      some (ms.map (fun m => (B_OK, some m)), h, sched) := by
  rw [pushAll_eq h ms hsem]
  rw [popN_queue ms _ sched (by simpa using hsem) (by simp [hempty]) (by simp)]
  cases h
  simp_all

/-! ## The registry -/

theorem mapFind_eq_none (m : List (team_id × NNHandler)) (team : team_id) :
    mapFind m team = none ↔ team ∉ m.map Prod.fst := by
  induction m with
  | nil => simp [mapFind]
  | cons e m ih =>
    obtain ⟨k, v⟩ := e
    by_cases hk : k = team
    · simp [mapFind, hk]
    · have hk2 : ¬ team = k := fun h => hk h.symm
      simp [mapFind, hk, hk2, ih]

theorem keys_mapErase (m : List (team_id × NNHandler)) (team : team_id) :
    (mapErase m team).map Prod.fst = (m.map Prod.fst).erase team := by
  induction m with
  | nil => simp [mapErase]
  | cons e m ih =>
    obtain ⟨k, v⟩ := e
    by_cases hk : k = team
    · simp [mapErase, hk]
    · simp [mapErase, hk, ih, List.erase_cons_tail]

theorem keys_mapStore (m : List (team_id × NNHandler)) (h : NNHandler) :
    (mapStore m h).map Prod.fst = m.map Prod.fst := by
  induction m with
  | nil => simp [mapStore]
  | cons e m ih =>
    simp only [mapStore, List.map_cons] at ih ⊢
    rw [ih]
    by_cases ha : e.2.addr = h.addr <;> simp [ha]

theorem keys_mapAssign (m : List (team_id × NNHandler)) (team : team_id) (h : NNHandler) :
    (mapAssign m team h).map Prod.fst =
      if team ∈ m.map Prod.fst then m.map Prod.fst else m.map Prod.fst ++ [team] := by
  induction m with
  | nil => simp [mapAssign]
  | cons e m ih =>
    obtain ⟨k, v⟩ := e
    by_cases hk : k = team
    · simp [mapAssign, hk]
    · have hk2 : ¬ team = k := fun h => hk h.symm
      simp only [mapAssign, hk, if_false, List.map_cons, ih, List.mem_cons, hk2, false_or]
      by_cases hm : team ∈ m.map Prod.fst <;> simp [hm]

theorem nodup_mapAssign (m : List (team_id × NNHandler)) (team : team_id) (h : NNHandler)
    (hm : (m.map Prod.fst).Nodup) : ((mapAssign m team h).map Prod.fst).Nodup := by
  rw [keys_mapAssign]
  by_cases ht : team ∈ m.map Prod.fst
  · simpa [ht] using hm
  · rw [if_neg ht]
    exact List.Nodup.append hm (List.nodup_singleton team) (by simpa using ht)

theorem mapFind_mapErase (m : List (team_id × NNHandler)) (team : team_id)
    (hm : (m.map Prod.fst).Nodup) : mapFind (mapErase m team) team = none := by
  rw [mapFind_eq_none, keys_mapErase]
  exact fun hmem => (List.Nodup.mem_erase_iff hm).mp hmem |>.1 rfl

theorem mapStore_cons (k : team_id) (v : NNHandler) (m : List (team_id × NNHandler))
    (h : NNHandler) :
    mapStore ((k, v) :: m) h = (k, if v.addr = h.addr then h else v) :: mapStore m h := by
  by_cases ha : v.addr = h.addr <;> simp [mapStore, ha]

theorem mapFind_mapStore (m : List (team_id × NNHandler)) (team : team_id)
    (handler pushed : NNHandler) (hfind : mapFind m team = some handler)
    (haddr : pushed.addr = handler.addr) :
    mapFind (mapStore m pushed) team = some pushed := by
  induction m with
  | nil => simp [mapFind] at hfind
  | cons e m ih =>
    obtain ⟨k, v⟩ := e
    rw [mapStore_cons]
    by_cases hk : k = team
    · simp only [mapFind, hk, if_true, Option.some.injEq] at hfind
      subst hfind
      simp [mapFind, hk, haddr]
    · simp only [mapFind, hk, if_false] at hfind
      simp [mapFind, hk, ih hfind]

theorem mapping_mapStore (m : List (team_id × NNHandler)) (h : NNHandler) :
    (mapStore m h).map (fun e => (e.1, e.2.addr)) = m.map (fun e => (e.1, e.2.addr)) := by
  induction m with
  | nil => simp [mapStore]
  | cons e m ih =>
    simp only [mapStore, List.map_cons] at ih ⊢
    rw [ih]
    by_cases ha : e.2.addr = h.addr <;> simp [ha]

theorem HandlerFor_eq (r : NNHandlerRoster) (team : team_id) :
    r.HandlerFor team = mapFind r.fHandlers team := by
  unfold NNHandlerRoster.HandlerFor
  cases mapFind r.fHandlers team <;> rfl

theorem RemoveHandler_WF (r : NNHandlerRoster) (team : team_id) (hwf : r.WF) :
    (r.RemoveHandler team).2.WF := by
  unfold NNHandlerRoster.RemoveHandler
  cases hfind : mapFind r.fHandlers team with
  | none => simpa using hwf
  | some handler =>
    simp only [NNHandlerRoster.WF, keys_mapErase]
    exact List.Nodup.erase team hwf

theorem DispatchMessage_WF (env : InitEnv) (r : NNHandlerRoster)
    (message : Option DebugMessage) (hwf : r.WF) : (r.DispatchMessage env message).roster.WF := by
  unfold NNHandlerRoster.DispatchMessage
  cases message with
  | none => simpa using hwf
  | some message =>
    simp only []
    cases hfor : r.HandlerFor message.team with
    | some handler =>
      simp only [NNHandlerRoster.WF, keys_mapStore]
      exact hwf
    | none =>
      simp only []
      cases hnew : env.new_handler with
      | none => simpa using hwf
      | some addr =>
        simp only []
        split
        · exact hwf
        · simp only [NNHandlerRoster.AddHandler, Bool.not_true, Bool.false_eq_true, if_false,
            NNHandlerRoster.WF, keys_mapStore]
          exact nodup_mapAssign _ _ _ hwf

theorem Reachable_WF (r : NNHandlerRoster) (hr : NNHandlerRoster.Reachable r) : r.WF := by
  induction hr with
  | init => simp [NNHandlerRoster.WF]
  | dispatch env r message _ ih => exact DispatchMessage_WF env r message ih
  | remove r team _ ih => exact RemoveHandler_WF r team ih

theorem kills_append (a b : List Effect) : kills (a ++ b) = kills a ++ kills b := by
  simp [kills, List.filterMap_append]

theorem kills_Init (env : InitEnv) (h : NNHandler) (nubPort : port_id) :
    kills (NNHandler.Init env h nubPort).2.2 = [] := by
  unfold NNHandler.Init
  simp only []
  split_ifs <;> simp [kills]

/-- C1 at two messages pushed to `sampleHandler`. -/
theorem C1_mailbox_fifo_witness :
    (0 : Int) ≤ sampleHandler.fMessageCountSem ∧ sampleHandler.fMessages = [] ∧
    sampleHandler.semCount = 0 ∧
    popN 2 (pushAll sampleHandler [sampleMessage 8 0, sampleMessage 17 1]) [] =
      some ([(B_OK, some (sampleMessage 8 0)), (B_OK, some (sampleMessage 17 1))],
        sampleHandler, []) :=
  ⟨by decide, rfl, rfl,
    C1_mailbox_fifo sampleHandler [sampleMessage 8 0, sampleMessage 17 1] [] (by decide) rfl rfl⟩

/-- C2: when the team of an event already has a registered handler,
`DispatchMessage` returns `B_OK`, constructs no handler (it has no effect
besides the push), leaves the team-to-handler mapping as it was, and the
handler of the team is the same object with the event appended at the tail of
its queue; and every registry state reachable by `DispatchMessage` and
`RemoveHandler` holds at most one handler per team. -/
theorem C2_dispatch_to_registered_handler :
    (∀ (env : InitEnv) (r : NNHandlerRoster) (message : DebugMessage) (handler : NNHandler),
      r.HandlerFor message.team = some handler →
      (r.DispatchMessage env (some message)).status = B_OK ∧
      (r.DispatchMessage env (some message)).trace = [] ∧
      constructed (r.DispatchMessage env (some message)).trace = [] ∧
      (r.DispatchMessage env (some message)).roster.mapping = r.mapping ∧
      (r.DispatchMessage env (some message)).roster.HandlerFor message.team =
        some { handler with
          fMessages := handler.fMessages ++ [message],
          semCount := (release_sem handler.fMessageCountSem handler.semCount).2 }) ∧
    (∀ r : NNHandlerRoster, NNHandlerRoster.Reachable r →
      ∀ team : team_id, (r.fHandlers.map Prod.fst).count team ≤ 1) := by
  refine ⟨?_, ?_⟩
  · intro env r message handler hfor
    have hfind : mapFind r.fHandlers message.team = some handler := by
      rw [← HandlerFor_eq]; exact hfor
    simp only [NNHandlerRoster.DispatchMessage, hfor, NNHandlerRoster.mapping,
      mapping_mapStore, HandlerFor_eq, constructed, List.filterMap_nil, true_and]
    exact mapFind_mapStore _ _ handler _ hfind rfl
  · intro r hr team
    exact List.nodup_iff_count_le_one.mp (Reachable_WF r hr) team

/-- C2 at `sampleRoster` and a message for team 42. -/
theorem C2_dispatch_to_registered_handler_witness :
    sampleRoster.HandlerFor (sampleMessage 8 0).team = some sampleHandler ∧
    (sampleRoster.DispatchMessage failingInit (some (sampleMessage 8 0))).status = B_OK ∧
    (sampleRoster.DispatchMessage failingInit (some (sampleMessage 8 0))).roster.mapping =
      [(7, 3000), (42, 1000)] :=
  ⟨by decide,
    (C2_dispatch_to_registered_handler.1 failingInit sampleRoster (sampleMessage 8 0)
      sampleHandler (by decide)).1,
    (C2_dispatch_to_registered_handler.1 failingInit sampleRoster (sampleMessage 8 0)
      sampleHandler (by decide)).2.2.2.1.trans (by decide)⟩

/-- C3: when the team of an event has no registered handler and
`NNHandler::Init` of the new handler fails, `DispatchMessage` issues exactly
one terminate request, for that team, returns the error of `Init` (which is
not `B_OK`), leaves the registry and every queue in it as they were, and the
registry has no handler for the team. -/
theorem C3_init_failure_kills_team (env : InitEnv) (r : NNHandlerRoster)
    (message : DebugMessage) (addr : Nat)
    (hnone : r.HandlerFor message.team = none) (hnew : env.new_handler = some addr)
    (hfail : (NNHandler.Init env (NNHandler.new addr message.team) message.nub_port).1 ≠ B_OK) :
    kills (r.DispatchMessage env (some message)).trace = [message.team] ∧
    (r.DispatchMessage env (some message)).status =
      (NNHandler.Init env (NNHandler.new addr message.team) message.nub_port).1 ∧
    (r.DispatchMessage env (some message)).status ≠ B_OK ∧
    (r.DispatchMessage env (some message)).roster = r ∧
    (r.DispatchMessage env (some message)).roster.HandlerFor message.team = none := by
  simp only [NNHandlerRoster.DispatchMessage, hnone, hnew, hfail, if_true, ne_eq,
    not_false_eq_true, kills_append, kills_Init, KillTeam, and_self, and_true]
  simp [kills]

/-- C3 at `smallRoster`, a message for team 42 and a system in which
`init_debug_context` fails. -/
theorem C3_init_failure_kills_team_witness :
    smallRoster.HandlerFor (sampleMessage 8 0).team = none ∧
    failingInit.new_handler = some 2000 ∧
    kills (smallRoster.DispatchMessage failingInit (some (sampleMessage 8 0))).trace = [42] ∧
    (smallRoster.DispatchMessage failingInit (some (sampleMessage 8 0))).status = B_ERROR ∧
    (smallRoster.DispatchMessage failingInit (some (sampleMessage 8 0))).roster = smallRoster :=
  ⟨by decide, rfl,
    (C3_init_failure_kills_team failingInit smallRoster (sampleMessage 8 0) 2000
      (by decide) rfl (by decide)).1,
    (C3_init_failure_kills_team failingInit smallRoster (sampleMessage 8 0) 2000
      (by decide) rfl (by decide)).2.1,
    (C3_init_failure_kills_team failingInit smallRoster (sampleMessage 8 0) 2000
      (by decide) rfl (by decide)).2.2.2.1⟩

theorem mapFind_RemoveHandler (r : NNHandlerRoster) (team : team_id) (hwf : r.WF) :
    mapFind (r.RemoveHandler team).2.fHandlers team = none := by
  unfold NNHandlerRoster.RemoveHandler
  cases hfind : mapFind r.fHandlers team with
  | none => simpa using hfind
  | some handler => simpa using mapFind_mapErase r.fHandlers team hwf

/-- C10: on a registry whose keys are unique (every `std::map` is), a second
`RemoveHandler(team)` directly after a first one returns `NULL` and leaves the
registry exactly as the first call left it. -/
theorem C10_remove_twice (r : NNHandlerRoster) (team : team_id) (hwf : r.WF) :
    ((r.RemoveHandler team).2.RemoveHandler team).1 = none ∧
    ((r.RemoveHandler team).2.RemoveHandler team).2 = (r.RemoveHandler team).2 := by
  have hgone := mapFind_RemoveHandler r team hwf
  constructor <;>
  · generalize (r.RemoveHandler team).2 = r1 at hgone ⊢
    simp [NNHandlerRoster.RemoveHandler, hgone]

/-- C10 at `sampleRoster` and team 42. -/
theorem C10_remove_twice_witness :
    sampleRoster.WF ∧
    (sampleRoster.RemoveHandler 42).1 = some sampleHandler ∧
    ((sampleRoster.RemoveHandler 42).2.RemoveHandler 42).1 = none ∧
    ((sampleRoster.RemoveHandler 42).2.RemoveHandler 42).2 = smallRoster :=
  ⟨by decide, by decide, (C10_remove_twice sampleRoster 42 (by decide)).1,
    (C10_remove_twice sampleRoster 42 (by decide)).2.trans (by decide)⟩

/-! ## The handler thread -/

theorem waitMessage_spec (h : NNHandler) (sched : List WakeEvent) (popped : PopResult)
    (hpop : h.waitMessage sched = some popped) :
    popped.handler.fTeam = h.fTeam ∧ popped.handler.addr = h.addr ∧
    popped.handler.semCount ≤ h.semCount ∧ popped.sched.length < sched.length := by
  induction sched with
  | nil => simp [NNHandler.waitMessage] at hpop
  | cons ev rest ih =>
    cases ev with
    | push m =>
      simp only [NNHandler.waitMessage, Option.some.injEq] at hpop
      subst hpop
      simp only [NNHandler.takeHead, NNHandler.PushMessage, release_sem, List.length_cons]
      split_ifs <;> simp
    | error e neg =>
      simp only [NNHandler.waitMessage] at hpop
      split_ifs at hpop with h1 h2
      · obtain ⟨a, b, c, d⟩ := ih hpop
        exact ⟨a, b, c, by simp only [List.length_cons]; omega⟩
      · simp only [Option.some.injEq] at hpop
        subst hpop
        simp
      · simp only [Option.some.injEq] at hpop
        subst hpop
        simp [NNHandler.takeHead]

theorem PopMessage_spec (h : NNHandler) (sched : List WakeEvent) (popped : PopResult)
    (hpop : h._PopMessage sched = some popped) :
    popped.handler.fTeam = h.fTeam ∧ popped.handler.addr = h.addr ∧
    (popped.error = B_OK →
      popped.handler.semCount + popped.sched.length < h.semCount + sched.length) := by
  unfold NNHandler._PopMessage at hpop
  split_ifs at hpop with h1 h2
  · simp only [Option.some.injEq] at hpop
    subst hpop
    exact ⟨rfl, rfl, fun hok => absurd hok (show ¬ B_BAD_SEM_ID = B_OK by decide)⟩
  · simp only [Option.some.injEq] at hpop
    subst hpop
    simp only [NNHandler.takeHead, true_and]
    intro _
    omega
  · obtain ⟨a, b, c, d⟩ := waitMessage_spec h sched popped hpop
    exact ⟨a, b, fun _ => by omega⟩

theorem handOverLoop_rounds (env : Env) (debuggerThread : thread_id) (debugAction : Int) :
    ∀ (r1 r2 checks : Nat) (h : NNHandler) (sched : List WakeEvent),
      h.semCount + sched.length < r1 → h.semCount + sched.length < r2 →
      handOverLoop env debuggerThread r1 checks debugAction h sched =
        handOverLoop env debuggerThread r2 checks debugAction h sched := by
  intro r1
  induction r1 with
  | zero => intro r2 checks h sched h1; omega
  | succ r1 ih =>
    intro r2 checks h sched h1 h2
    cases r2 with
    | zero => omega
    | succ r2 =>
      simp only [handOverLoop]
      cases hpop : h._PopMessage sched with
      | none => rfl
      | some popped =>
        simp only []
        by_cases herr : popped.error = B_OK
        · have hlt := (PopMessage_spec h sched popped hpop).2.2 herr
          rw [ih r2 (checks + 1) popped.handler popped.sched (by omega) (by omega)]
        · simp [herr]

theorem handOverLoop_spec (env : Env) (debuggerThread : thread_id) (debugAction : Int) :
    ∀ (rounds checks : Nat) (h : NNHandler) (sched : List WakeEvent) (last : LoopResult),
      handOverLoop env debuggerThread rounds checks debugAction h sched = some last →
      kills last.trace = [] ∧ last.handler.fTeam = h.fTeam := by
  intro rounds
  induction rounds with
  | zero => intro checks h sched last hloop; simp [handOverLoop] at hloop
  | succ rounds ih =>
    intro checks h sched last hloop
    simp only [handOverLoop] at hloop
    cases hpop : h._PopMessage sched with
    | none => simp [hpop] at hloop
    | some popped =>
      have hteam := (PopMessage_spec h sched popped hpop).1
      simp only [hpop] at hloop
      by_cases h1 : popped.error = B_OK
      · simp only [h1, ne_eq, not_true_eq_false, if_false] at hloop
        cases hmsg : popped.message with
        | none => simp [hmsg] at hloop
        | some message =>
          simp only [hmsg] at hloop
          by_cases h2 : message.fCode = B_DEBUGGER_MESSAGE_HANDED_OVER
          · simp only [h2, if_true, Option.some.injEq] at hloop
            subst hloop
            exact ⟨rfl, hteam⟩
          · simp only [h2, if_false] at hloop
            by_cases h3 : message.fCode = B_DEBUGGER_MESSAGE_TEAM_DELETED
            · simp only [h3, if_true, Option.some.injEq] at hloop
              subst hloop
              exact ⟨rfl, hteam⟩
            · simp only [h3, if_false] at hloop
              by_cases h4 : env.get_thread_info checks debuggerThread = B_OK
              · simp only [h4, ne_eq, not_true_eq_false, if_false] at hloop
                cases hrec : handOverLoop env debuggerThread rounds (checks + 1) debugAction
                    popped.handler popped.sched with
                | none => simp [hrec] at hloop
                | some later =>
                  simp only [hrec, Option.some.injEq] at hloop
                  subst hloop
                  obtain ⟨k1, k2⟩ := ih _ _ _ _ hrec
                  refine ⟨?_, k2.trans hteam⟩
                  simp only [kills_append, k1]
                  rfl
              · simp only [ne_eq, h4, not_false_eq_true, if_true, Option.some.injEq] at hloop
                subst hloop
                exact ⟨rfl, hteam⟩
      · simp only [ne_eq, h1, not_false_eq_true, if_true, Option.some.injEq] at hloop
        subst hloop
        exact ⟨rfl, hteam⟩

theorem kills_HandleMessage (env : Env) (h : NNHandler) (message : DebugMessage) :
    kills (h._HandleMessage env message).2 = [] := by
  unfold NNHandler._HandleMessage
  simp only []
  split_ifs <;> simp [kills]

theorem kills_EnterDebugger (env : Env) (h : NNHandler) (saveReport : Bool) :
    kills (h._EnterDebugger env saveReport).2 = [] := by
  unfold NNHandler._EnterDebugger
  simp only []
  split_ifs
  · simp [kills]
  · simp [kills]
  · cases h.debuggerArguments env saveReport (h._IsGUIServer || !_AreGUIServersAlive env) with
    | error error => simp [kills]
    | ok argv =>
      simp only []
      split_ifs <;> simp [kills]
  · cases h.debuggerArguments env saveReport (h._IsGUIServer || !_AreGUIServersAlive env) with
    | error error => simp [kills]
    | ok argv =>
      simp only []
      split_ifs <;> simp [kills]

theorem kills_WriteCoreFile (env : Env) (h : NNHandler) :
    kills (h._WriteCoreFile env).2 = [] := by
  unfold NNHandler._WriteCoreFile
  simp only []
  split_ifs
  · rfl
  · split <;> simp [kills]

theorem preparesHandover_EnterDebugger (env : Env) (h : NNHandler) (saveReport : Bool) :
    ∃ rest, (h._EnterDebugger env saveReport).2 =
      Effect.send_debug_message h.fTeam DebugRequest.prepare_handover :: rest := by
  unfold NNHandler._EnterDebugger
  simp only []
  split_ifs
  · exact ⟨_, rfl⟩
  · exact ⟨_, rfl⟩
  · cases h.debuggerArguments env saveReport (h._IsGUIServer || !_AreGUIServersAlive env) with
    | error error => exact ⟨_, rfl⟩
    | ok argv =>
      simp only []
      split_ifs <;> exact ⟨_, rfl⟩
  · cases h.debuggerArguments env saveReport (h._IsGUIServer || !_AreGUIServersAlive env) with
    | error error => exact ⟨_, rfl⟩
    | ok argv =>
      simp only []
      split_ifs <;> exact ⟨_, rfl⟩

theorem initialAction_spec (env : Env) (this : NNHandler) (sched : List WakeEvent)
    (first : LoopResult) (hfirst : this.initialAction env sched = some first) :
    kills first.trace = [] ∧ first.handler.fTeam = this.fTeam := by
  unfold NNHandler.initialAction at hfirst
  cases hpop : this._PopMessage sched with
  | none => simp [hpop] at hfirst
  | some popped =>
    have hteam := (PopMessage_spec this sched popped hpop).1
    simp only [hpop] at hfirst
    by_cases h1 : popped.error = B_OK
    · simp only [h1, if_true] at hfirst
      cases hmsg : popped.message with
      | none => simp [hmsg] at hfirst
      | some message =>
        simp only [hmsg, Option.some.injEq] at hfirst
        subst hfirst
        refine ⟨?_, hteam⟩
        simp only [kills_append, kills_HandleMessage]
        rfl
    · simp only [h1, if_false, Option.some.injEq] at hfirst
      subst hfirst
      exact ⟨rfl, hteam⟩

theorem handOver_spec (env : Env) (h : NNHandler) (sched : List WakeEvent) (debugAction : Int)
    (last : LoopResult) (hlast : h.handOver env sched debugAction = some last) :
    kills last.trace = [] ∧ last.handler.fTeam = h.fTeam := by
  unfold NNHandler.handOver at hlast
  by_cases h1 : debugAction = kActionKillTeam
  · simp only [h1, if_true, Option.some.injEq] at hlast
    subst hlast
    exact ⟨rfl, rfl⟩
  · simp only [h1, if_false] at hlast
    by_cases h2 : debugAction = kActionWriteCoreFile
    · simp only [h2, if_true, Option.some.injEq] at hlast
      subst hlast
      exact ⟨kills_WriteCoreFile env h, rfl⟩
    · simp only [h2, if_false] at hlast
      by_cases h3 : (h._EnterDebugger env (decide (debugAction = kActionSaveReportTeam))).1 ≥ 0
      · simp only [h3, if_true] at hlast
        cases hloop : handOverLoop env
            (h._EnterDebugger env (decide (debugAction = kActionSaveReportTeam))).1
            (loopRounds h sched) 0 debugAction h sched with
        | none => simp [hloop] at hlast
        | some looped =>
          simp only [hloop, Option.some.injEq] at hlast
          subst hlast
          obtain ⟨k1, k2⟩ := handOverLoop_spec env _ debugAction _ _ _ _ _ hloop
          refine ⟨?_, k2⟩
          simp only [kills_append, kills_EnterDebugger, k1]
          rfl
      · simp only [h3, if_false, Option.some.injEq] at hlast
        subst hlast
        exact ⟨kills_EnterDebugger env h _, rfl⟩

theorem kills_destructor (h : NNHandler) : kills h.destructor = [] := by
  unfold NNHandler.destructor
  induction h.fMessages with
  | nil => rfl
  | cons m rest ih => simpa [kills] using ih

/-- The destructor deletes messages and does nothing else: no prompt, no
debugger launch, no hand-over request, no core dump. -/
theorem destructor_quiet (h : NNHandler) :
    prompts h.destructor = false ∧ launchesDebugger h.destructor = false ∧
    preparesHandover h.destructor = false ∧ dumpsCore h.destructor = false ∧
    coreRequests h.destructor = [] := by
  unfold NNHandler.destructor
  induction h.fMessages with
  | nil => exact ⟨rfl, rfl, rfl, rfl, rfl⟩
  | cons m rest ih =>
    obtain ⟨a, b, c, d, e⟩ := ih
    refine ⟨?_, ?_, ?_, ?_, ?_⟩
    · simpa [prompts] using a
    · simpa [launchesDebugger] using b
    · simpa [preparesHandover] using c
    · simpa [dumpsCore] using d
    · simpa [coreRequests] using e

/-- The terminate requests of a run of the handler thread: one for the own
team when the final value of `debugAction` is `kActionKillTeam`, none
otherwise. -/
theorem HandlerThread_kills (env : Env) (this : NNHandler) (sched : List WakeEvent)
    (roster : NNHandlerRoster) (res : ThreadResult)
    (hrun : this._HandlerThread env sched roster = some res) :
    kills res.trace = if res.debugAction = kActionKillTeam then [this.fTeam] else [] := by
  unfold NNHandler._HandlerThread at hrun
  cases hfirst : this.initialAction env sched with
  | none => simp [hfirst] at hrun
  | some first =>
    simp only [hfirst] at hrun
    cases hlast : first.handler.handOver env first.sched first.debugAction with
    | none => simp [hlast] at hrun
    | some last =>
      simp only [hlast, Option.some.injEq] at hrun
      subst hrun
      obtain ⟨k1, t1⟩ := initialAction_spec env this sched first hfirst
      obtain ⟨k2, t2⟩ := handOver_spec env _ _ _ last hlast
      simp only [kills_append, kills_destructor, k1, k2, List.nil_append]
      by_cases hk : last.debugAction = kActionKillTeam
      · simp [hk, NNHandler._KillTeam, KillTeam, kills, t2, t1]
      · simp [hk, kills]

theorem PopMessage_path (h : NNHandler) (sched : List WakeEvent) (popped : PopResult)
    (hpop : h._PopMessage sched = some popped) :
    popped.handler.fExecutablePath = h.fExecutablePath := by
  have hwait : ∀ (sched : List WakeEvent) (popped : PopResult),
      h.waitMessage sched = some popped →
      popped.handler.fExecutablePath = h.fExecutablePath := by
    intro sched
    induction sched with
    | nil => intro popped hp; simp [NNHandler.waitMessage] at hp
    | cons ev rest ih =>
      intro popped hp
      cases ev with
      | push m =>
        simp only [NNHandler.waitMessage, Option.some.injEq] at hp
        subst hp
        rfl
      | error e neg =>
        simp only [NNHandler.waitMessage] at hp
        split_ifs at hp
        · exact ih popped hp
        · simp only [Option.some.injEq] at hp
          subst hp
          rfl
        · simp only [Option.some.injEq] at hp
          subst hp
          rfl
  unfold NNHandler._PopMessage at hpop
  split_ifs at hpop
  · simp only [Option.some.injEq] at hpop
    subst hpop
    rfl
  · simp only [Option.some.injEq] at hpop
    subst hpop
    rfl
  · exact hwait sched popped hpop

theorem IsGUIServer_path (h1 h2 : NNHandler) (hpath : h1.fExecutablePath = h2.fExecutablePath) :
    h1._IsGUIServer = h2._IsGUIServer := by
  simp [NNHandler._IsGUIServer, NNHandler._IsAppServer, NNHandler._IsInputServer,
    NNHandler._IsRegistrar, NNHandler._ExecutableNameEquals, hpath]

theorem policyAction_path (env : Env) (h1 h2 : NNHandler)
    (hpath : h1.fExecutablePath = h2.fExecutablePath) :
    h1.policyAction env = h2.policyAction env := by
  simp [NNHandler.policyAction, hpath]

/-- C4 (the code at a failing input): the first message popped by the handler
of team 42 is `B_DEBUGGER_MESSAGE_TEAM_DELETED`. `_HandleMessage` returns
`true`, which as an action code is `kActionDebugTeam`, so the thread enters the
hand-over branch: it sends the prepare-handover request, and when that request
fails (the team is gone) it issues a terminate request for the team; when the
request succeeds it launches a debugger for the team. -/
theorem C4_team_deleted_is_handled_as_debug :
    sampleHandler._HandleMessage goneEnv (sampleMessage B_DEBUGGER_MESSAGE_TEAM_DELETED 0) =
      (kActionDebugTeam, []) ∧
    (sampleHandler._HandlerThread goneEnv
      [WakeEvent.push (sampleMessage B_DEBUGGER_MESSAGE_TEAM_DELETED 0)] sampleRoster).map
        (fun res => res.trace) =
      some [Effect.delete_message (sampleMessage B_DEBUGGER_MESSAGE_TEAM_DELETED 0),
        Effect.send_debug_message 42 DebugRequest.prepare_handover,
        Effect.kill_team 42, Effect.remove_handler 42, Effect.delete_handler 1000] ∧
    (sampleHandler._HandlerThread sampleEnv
      [WakeEvent.push (sampleMessage B_DEBUGGER_MESSAGE_TEAM_DELETED 0),
       WakeEvent.push (sampleMessage B_DEBUGGER_MESSAGE_HANDED_OVER 0)] sampleRoster).map
        (fun res => res.trace) =
      some [Effect.delete_message (sampleMessage B_DEBUGGER_MESSAGE_TEAM_DELETED 0),
        Effect.send_debug_message 42 DebugRequest.prepare_handover,
        Effect.load_image ["/boot/system/apps/Debugger", "--team", "42"],
        Effect.resume_thread 500,
        Effect.delete_message (sampleMessage B_DEBUGGER_MESSAGE_HANDED_OVER 0),
        Effect.remove_handler 42, Effect.delete_handler 1000] := by
  refine ⟨by decide, by decide, by decide⟩

/-- C6 fails for the application server under the policy rule
`app_server kill`: the decision for an exception is `kActionKillTeam`, not
`kActionDebugTeam`. -/
theorem C6_counterexample :
    _LastPathComponent serverHandler.fExecutablePath = "app_server" ∧
    serverMessage.fCode ≠ B_DEBUGGER_MESSAGE_TEAM_DELETED ∧
    (serverHandler._HandleMessage killServerEnv serverMessage).1 = kActionKillTeam ∧
    (serverHandler._HandleMessage killServerEnv serverMessage).1 ≠ kActionDebugTeam := by
  refine ⟨by decide, by decide, by decide, by decide⟩

/-- C6 (amended): for a target whose executable has the last path component
`app_server`, `input_server` or `registrar`, and an event that is not
process-deleted, `_HandleMessage` returns `kActionDebugTeam` whenever the
policy has no explicit action for the executable, whatever the default action
is; when a matching rule gives an explicit action, that action is returned.
The prompt is not shown in either case. -/
theorem C6_gui_server_decision (env : Env) (h : NNHandler) (message : DebugMessage)
    (hexe : _LastPathComponent h.fExecutablePath = "app_server" ∨
      _LastPathComponent h.fExecutablePath = "input_server" ∨
      _LastPathComponent h.fExecutablePath = "registrar")
    (hcode : message.fCode ≠ B_DEBUGGER_MESSAGE_TEAM_DELETED) :
    ((h.policyAction env).2 = false → (h._HandleMessage env message).1 = kActionDebugTeam) ∧
    ((h.policyAction env).2 = true →
      (h._HandleMessage env message).1 = (h.policyAction env).1) ∧
    prompts (h._HandleMessage env message).2 = false := by
  have hgui : h._IsGUIServer = true := by
    simp only [NNHandler._IsGUIServer, NNHandler._IsAppServer, NNHandler._IsInputServer,
      NNHandler._IsRegistrar, NNHandler._ExecutableNameEquals, Bool.or_eq_true, beq_iff_eq]
    tauto
  simp only [NNHandler._HandleMessage, hcode, if_false, hgui, if_true]
  refine ⟨fun hf => by simp [hf], fun ht => by simp [ht], by simp [prompts]⟩

/-- C6 (amended) at the application server, without and with a rule. -/
theorem C6_gui_server_decision_witness :
    (serverHandler._HandleMessage sampleEnv serverMessage).1 = kActionDebugTeam ∧
    (serverHandler._HandleMessage killServerEnv serverMessage).1 =
      (serverHandler.policyAction killServerEnv).1 :=
  ⟨(C6_gui_server_decision sampleEnv serverHandler serverMessage (Or.inl (by decide))
      (by decide)).1 (by decide),
    (C6_gui_server_decision killServerEnv serverHandler serverMessage (Or.inl (by decide))
      (by decide)).2.1 (by decide)⟩

/-- C7: the first event of a non-privileged target is a generic exception and
the policy gives the explicit action Kill for its executable. The thread then
reaches its end; its effects are the stack trace, the release of the message,
one terminate request for the own team, the removal of the handler and its
deletion, in which the messages still queued are released: no prompt, no
debugger launch, no hand-over request, no core dump. Afterwards the registry,
whose keys are unique, has no handler for the team. -/
theorem C7_kill_rule_kills_once (env : Env) (this : NNHandler) (sched : List WakeEvent)
    (roster : NNHandlerRoster) (popped : PopResult) (message : DebugMessage)
    (hwf : roster.WF)
    (hpop : this._PopMessage sched = some popped) (hok : popped.error = B_OK)
    (hmsg : popped.message = some message)
    (hcode : message.fCode = B_DEBUGGER_MESSAGE_EXCEPTION_OCCURRED)
    (hgui : this._IsGUIServer = false)
    (hpol : this.policyAction env = (kActionKillTeam, true)) :
    ∃ res, this._HandlerThread env sched roster = some res ∧
      res.trace = [Effect.print_stack_trace message.thread, Effect.delete_message message,
        Effect.kill_team this.fTeam, Effect.remove_handler this.fTeam]
        ++ popped.handler.fMessages.map Effect.delete_message
        ++ [Effect.delete_handler this.addr] ∧
      kills res.trace = [this.fTeam] ∧ prompts res.trace = false ∧
      launchesDebugger res.trace = false ∧ preparesHandover res.trace = false ∧
      dumpsCore res.trace = false ∧ res.roster.HandlerFor this.fTeam = none := by
  have hpath := PopMessage_path this sched popped hpop
  have hteam := (PopMessage_spec this sched popped hpop).1
  have hgui2 : popped.handler._IsGUIServer = false := by
    rw [IsGUIServer_path _ _ hpath]; exact hgui
  have hpol2 : popped.handler.policyAction env = (kActionKillTeam, true) := by
    rw [policyAction_path env _ _ hpath]; exact hpol
  have hne : ¬ message.fCode = B_DEBUGGER_MESSAGE_TEAM_DELETED := by
    rw [hcode]; decide
  have hhandle : popped.handler._HandleMessage env message =
      (kActionKillTeam, [Effect.print_stack_trace message.thread]) := by
    simp [NNHandler._HandleMessage, hne, hgui2, hpol2]
  have hfirst : this.initialAction env sched =
      some { debugAction := kActionKillTeam, handler := popped.handler, sched := popped.sched,
             trace := [Effect.print_stack_trace message.thread,
               Effect.delete_message message] } := by
    simp [NNHandler.initialAction, hpop, hok, hmsg, hhandle]
  obtain ⟨q1, q2, q3, q4, _⟩ := destructor_quiet popped.handler
  have q0 := kills_destructor popped.handler
  unfold NNHandler.destructor at q0 q1 q2 q3 q4
  refine ⟨{ status := B_OK, debugAction := kActionKillTeam,
            roster := (roster.RemoveHandler this.fTeam).2,
            trace := [Effect.print_stack_trace message.thread, Effect.delete_message message,
              Effect.kill_team this.fTeam, Effect.remove_handler this.fTeam]
              ++ popped.handler.fMessages.map Effect.delete_message
              ++ [Effect.delete_handler this.addr] }, ?_, rfl, ?_, ?_, ?_, ?_, ?_, ?_⟩
  · simp [NNHandler._HandlerThread, hfirst, NNHandler.handOver, NNHandler._KillTeam, KillTeam,
      hteam, NNHandler.destructor]
  · simp only [kills_append, q0]
    simp [kills]
  · have happ : ∀ a b : List Effect, prompts (a ++ b) = (prompts a || prompts b) := by
      intro a b; simp [prompts, List.any_append]
    simp only [happ, q1]
    simp [prompts]
  · have happ : ∀ a b : List Effect,
        launchesDebugger (a ++ b) = (launchesDebugger a || launchesDebugger b) := by
      intro a b; simp [launchesDebugger, List.any_append]
    simp only [happ, q2]
    simp [launchesDebugger]
  · have happ : ∀ a b : List Effect,
        preparesHandover (a ++ b) = (preparesHandover a || preparesHandover b) := by
      intro a b; simp [preparesHandover, List.any_append]
    simp only [happ, q3]
    simp [preparesHandover]
  · have happ : ∀ a b : List Effect, dumpsCore (a ++ b) = (dumpsCore a || dumpsCore b) := by
      intro a b; simp [dumpsCore, List.any_append]
    simp only [happ, q4]
    simp [dumpsCore]
  · rw [HandlerFor_eq]
    exact mapFind_RemoveHandler roster this.fTeam hwf

/-- C7 at `queuedHandler` under the policy rule `crasher kill`: the second
message of the queue is released when the handler is deleted. -/
theorem C7_kill_rule_kills_once_witness :
    ∃ res, queuedHandler._HandlerThread killRuleEnv [] sampleRoster = some res ∧
      res.trace = [Effect.print_stack_trace 421,
        Effect.delete_message (sampleMessage B_DEBUGGER_MESSAGE_EXCEPTION_OCCURRED 0),
        Effect.kill_team 42, Effect.remove_handler 42]
        ++ [Effect.delete_message (sampleMessage 12 1)]
        ++ [Effect.delete_handler 1000] ∧
      kills res.trace = [42] ∧ prompts res.trace = false ∧
      launchesDebugger res.trace = false ∧ preparesHandover res.trace = false ∧
      dumpsCore res.trace = false ∧ res.roster.HandlerFor 42 = none :=
  C7_kill_rule_kills_once killRuleEnv queuedHandler [] sampleRoster
    { error := B_OK, message := some (sampleMessage B_DEBUGGER_MESSAGE_EXCEPTION_OCCURRED 0),
      handler := { sampleHandler with fMessages := [sampleMessage 12 1], semCount := 1 },
      sched := [] }
    (sampleMessage B_DEBUGGER_MESSAGE_EXCEPTION_OCCURRED 0)
    (by decide) rfl rfl rfl rfl (by decide) (by decide)

theorem preparesHandover_append (a b : List Effect) :
    preparesHandover (a ++ b) = (preparesHandover a || preparesHandover b) := by
  simp [preparesHandover, List.any_append]

theorem handOver_enters (env : Env) (h : NNHandler) (sched : List WakeEvent) (debugAction : Int)
    (last : LoopResult) (h1 : debugAction ≠ kActionKillTeam)
    (h2 : debugAction ≠ kActionWriteCoreFile)
    (hlast : h.handOver env sched debugAction = some last) :
    ∃ rest, last.trace =
      (h._EnterDebugger env (decide (debugAction = kActionSaveReportTeam))).2 ++ rest := by
  unfold NNHandler.handOver at hlast
  simp only [h1, h2, if_false] at hlast
  by_cases h3 : (h._EnterDebugger env (decide (debugAction = kActionSaveReportTeam))).1 ≥ 0
  · simp only [h3, if_true] at hlast
    cases hloop : handOverLoop env
        (h._EnterDebugger env (decide (debugAction = kActionSaveReportTeam))).1
        (loopRounds h sched) 0 debugAction h sched with
    | none => simp [hloop] at hlast
    | some looped =>
      simp only [hloop, Option.some.injEq] at hlast
      subst hlast
      exact ⟨looped.trace, rfl⟩
  · simp only [h3, if_false, Option.some.injEq] at hlast
    subst hlast
    exact ⟨[], by simp⟩

theorem handOver_launch_failed (env : Env) (h : NNHandler) (sched : List WakeEvent)
    (debugAction : Int) (h1 : debugAction ≠ kActionKillTeam)
    (h2 : debugAction ≠ kActionWriteCoreFile)
    (hfail : (h._EnterDebugger env (decide (debugAction = kActionSaveReportTeam))).1 < 0) :
    h.handOver env sched debugAction =
      some { debugAction := kActionKillTeam, handler := h, sched := sched,
             trace := (h._EnterDebugger env (decide (debugAction = kActionSaveReportTeam))).2 } := by
  unfold NNHandler.handOver
  simp only [h1, h2, if_false, ge_iff_le, not_le.mpr hfail]

/-- C5 fails for team 42 before the GUI servers have started: the first event
is a debugger call, no rule matches, the prompt cannot be shown. The handler
launches the debugger in `consoled`, and when the hand-over message arrives it
ends without any terminate request. -/
theorem C5_counterexample :
    sampleHandler._IsGUIServer = false ∧
    (sampleMessage B_DEBUGGER_MESSAGE_DEBUGGER_CALL 0).fCode = B_DEBUGGER_MESSAGE_DEBUGGER_CALL ∧
    sampleHandler.policyAction consoleEnv = (kActionPromptUser, false) ∧
    _AreGUIServersAlive consoleEnv = false ∧
    (sampleHandler._HandlerThread consoleEnv
      [WakeEvent.push (sampleMessage B_DEBUGGER_MESSAGE_DEBUGGER_CALL 0),
       WakeEvent.push (sampleMessage B_DEBUGGER_MESSAGE_HANDED_OVER 0)] sampleRoster).map
        (fun res => res.trace) =
      some [Effect.print_stack_trace 421,
        Effect.delete_message (sampleMessage B_DEBUGGER_MESSAGE_DEBUGGER_CALL 0),
        Effect.send_debug_message 42 DebugRequest.prepare_handover,
        Effect.load_image ["/boot/system/bin/consoled", "/boot/system/apps/Debugger", "--cli",
          "--team", "42"],
        Effect.resume_thread 500,
        Effect.delete_message (sampleMessage B_DEBUGGER_MESSAGE_HANDED_OVER 0),
        Effect.remove_handler 42, Effect.delete_handler 1000] ∧
    (sampleHandler._HandlerThread consoleEnv
      [WakeEvent.push (sampleMessage B_DEBUGGER_MESSAGE_DEBUGGER_CALL 0),
       WakeEvent.push (sampleMessage B_DEBUGGER_MESSAGE_HANDED_OVER 0)] sampleRoster).map
        (fun res => (kills res.trace, launchesDebugger res.trace)) = some ([], true) := by
  refine ⟨by decide, by decide, by decide, by decide, by decide, by decide⟩

/-- C5 (amended): the first event of a non-privileged target is a debugger
call, the policy gives PromptUser without an explicit action, and the prompt
cannot be shown (the GUI servers are not alive, or `_InitGUI` fails). Then
`_HandleMessage` returns `kActionPromptUser` without showing the prompt, and
the thread takes the hand-over branch: every run that ends has sent the
prepare-handover request of `_EnterDebugger(false)`. The fall-back to Kill is
taken when `_EnterDebugger` fails: the thread then ends with exactly one
terminate request, for the own team. -/
theorem C5_no_prompt_hands_over (env : Env) (this : NNHandler) (sched : List WakeEvent)
    (roster : NNHandlerRoster) (popped : PopResult) (message : DebugMessage)
    (hpop : this._PopMessage sched = some popped) (hok : popped.error = B_OK)
    (hmsg : popped.message = some message)
    (hcode : message.fCode = B_DEBUGGER_MESSAGE_DEBUGGER_CALL)
    (hgui : this._IsGUIServer = false)
    (hpol : this.policyAction env = (kActionPromptUser, false))
    (hui : _AreGUIServersAlive env = false ∨ env.init_gui ≠ B_OK) :
    (popped.handler._HandleMessage env message).1 = kActionPromptUser ∧
    prompts (popped.handler._HandleMessage env message).2 = false ∧
    (∀ res, this._HandlerThread env sched roster = some res →
      preparesHandover res.trace = true) ∧
    ((popped.handler._EnterDebugger env false).1 < 0 →
      ∃ res, this._HandlerThread env sched roster = some res ∧
        res.debugAction = kActionKillTeam ∧ kills res.trace = [this.fTeam]) := by
  have hpath := PopMessage_path this sched popped hpop
  have hgui2 : popped.handler._IsGUIServer = false := by
    rw [IsGUIServer_path _ _ hpath]; exact hgui
  have hpol2 : popped.handler.policyAction env = (kActionPromptUser, false) := by
    rw [policyAction_path env _ _ hpath]; exact hpol
  have hne : ¬ message.fCode = B_DEBUGGER_MESSAGE_TEAM_DELETED := by
    rw [hcode]; decide
  have hhandle : (popped.handler._HandleMessage env message).1 = kActionPromptUser ∧
      prompts (popped.handler._HandleMessage env message).2 = false := by
    simp only [NNHandler._HandleMessage, hne, if_false, hgui2, hpol2, Bool.false_eq_true]
    rcases hui with halive | hinit
    · simp [halive, prompts]
    · by_cases halive : _AreGUIServersAlive env = true
      · simp [halive, hinit, prompts]
      · simp [halive, prompts]
  have hfirst : this.initialAction env sched =
      some { debugAction := kActionPromptUser, handler := popped.handler,
             sched := popped.sched,
             trace := (popped.handler._HandleMessage env message).2
               ++ [Effect.delete_message message] } := by
    simp [NNHandler.initialAction, hpop, hok, hmsg, hhandle.1]
  have hsave : decide (kActionPromptUser = kActionSaveReportTeam) = false := by decide
  refine ⟨hhandle.1, hhandle.2, ?_, ?_⟩
  · intro res hrun
    unfold NNHandler._HandlerThread at hrun
    simp only [hfirst] at hrun
    cases hlast : popped.handler.handOver env popped.sched kActionPromptUser with
    | none => simp [hlast] at hrun
    | some last =>
      simp only [hlast, Option.some.injEq] at hrun
      subst hrun
      obtain ⟨rest, hrest⟩ := handOver_enters env _ _ _ last (by decide) (by decide) hlast
      obtain ⟨rest2, hrest2⟩ := preparesHandover_EnterDebugger env popped.handler
        (decide (kActionPromptUser = kActionSaveReportTeam))
      simp only [hrest, hrest2, preparesHandover_append]
      simp [preparesHandover]
  · intro hfail
    have hlast := handOver_launch_failed env popped.handler popped.sched kActionPromptUser
      (by decide) (by decide) (by rw [hsave]; exact hfail)
    have hrun : ∃ res, this._HandlerThread env sched roster = some res ∧
        res.debugAction = kActionKillTeam := by
      simp [NNHandler._HandlerThread, hfirst, hlast]
    obtain ⟨res, hres, hkill⟩ := hrun
    refine ⟨res, hres, hkill, ?_⟩
    rw [HandlerThread_kills env this sched roster res hres, if_pos hkill]

/-- C5 (amended) at team 42 before the GUI servers have started, with a debug
nub that refuses the hand-over. -/
theorem C5_no_prompt_hands_over_witness :
    (sampleHandler._HandleMessage { consoleEnv with prepare_handover := B_ERROR }
      (sampleMessage B_DEBUGGER_MESSAGE_DEBUGGER_CALL 0)).1 = kActionPromptUser ∧
    ∃ res, sampleHandler._HandlerThread { consoleEnv with prepare_handover := B_ERROR }
        [WakeEvent.push (sampleMessage B_DEBUGGER_MESSAGE_DEBUGGER_CALL 0)] sampleRoster =
        some res ∧
      res.debugAction = kActionKillTeam ∧ kills res.trace = [42] :=
  ⟨(C5_no_prompt_hands_over { consoleEnv with prepare_handover := B_ERROR } sampleHandler
      [WakeEvent.push (sampleMessage B_DEBUGGER_MESSAGE_DEBUGGER_CALL 0)] sampleRoster
      { error := B_OK, message := some (sampleMessage B_DEBUGGER_MESSAGE_DEBUGGER_CALL 0),
        handler := sampleHandler, sched := [] }
      (sampleMessage B_DEBUGGER_MESSAGE_DEBUGGER_CALL 0)
      rfl rfl rfl rfl (by decide) (by decide) (Or.inl (by decide))).1,
    (C5_no_prompt_hands_over { consoleEnv with prepare_handover := B_ERROR } sampleHandler
      [WakeEvent.push (sampleMessage B_DEBUGGER_MESSAGE_DEBUGGER_CALL 0)] sampleRoster
      { error := B_OK, message := some (sampleMessage B_DEBUGGER_MESSAGE_DEBUGGER_CALL 0),
        handler := sampleHandler, sched := [] }
      (sampleMessage B_DEBUGGER_MESSAGE_DEBUGGER_CALL 0)
      rfl rfl rfl rfl (by decide) (by decide) (Or.inl (by decide))).2.2.2 (by decide)⟩

theorem handOverLoop_end (env : Env) (debuggerThread : thread_id) (rounds checks : Nat)
    (debugAction : Int) (h : NNHandler) (sched : List WakeEvent) (popped : PopResult)
    (message : DebugMessage)
    (hpop : h._PopMessage sched = some popped) (hok : popped.error = B_OK)
    (hmsg : popped.message = some message)
    (hcode : message.fCode = B_DEBUGGER_MESSAGE_HANDED_OVER ∨
      message.fCode = B_DEBUGGER_MESSAGE_TEAM_DELETED) :
    handOverLoop env debuggerThread (rounds + 1) checks debugAction h sched =
      some { debugAction := debugAction, handler := popped.handler, sched := popped.sched,
             trace := [Effect.delete_message message] } := by
  simp only [handOverLoop, hpop, hok, hmsg, ne_eq, not_true_eq_false, if_false]
  rcases hcode with hc | hc
  · simp [hc]
  · simp [hc]

theorem handOverLoop_other (env : Env) (debuggerThread : thread_id) (rounds checks : Nat)
    (debugAction : Int) (h : NNHandler) (sched : List WakeEvent) (popped : PopResult)
    (message : DebugMessage)
    (hpop : h._PopMessage sched = some popped) (hok : popped.error = B_OK)
    (hmsg : popped.message = some message)
    (hcode1 : message.fCode ≠ B_DEBUGGER_MESSAGE_HANDED_OVER)
    (hcode2 : message.fCode ≠ B_DEBUGGER_MESSAGE_TEAM_DELETED) :
    handOverLoop env debuggerThread (rounds + 1) checks debugAction h sched =
      if env.get_thread_info checks debuggerThread ≠ B_OK then
        some { debugAction := kActionKillTeam, handler := popped.handler,
               sched := popped.sched,
               trace := [Effect.get_thread_info debuggerThread,
                 Effect.delete_message message] }
      else
        (handOverLoop env debuggerThread rounds (checks + 1) debugAction popped.handler
          popped.sched).map (fun later => { later with
            trace := [Effect.get_thread_info debuggerThread, Effect.delete_message message]
              ++ later.trace }) := by
  simp only [handOverLoop, hpop, hok, hmsg, ne_eq, not_true_eq_false, if_false, hcode1, hcode2]
  by_cases halive : env.get_thread_info checks debuggerThread = B_OK
  · simp only [halive, not_true_eq_false, if_false]
    cases handOverLoop env debuggerThread rounds (checks + 1) debugAction popped.handler
      popped.sched <;> simp
  · simp [halive]

/-- C8: the decision after the first event is to enter the debugger
(`kActionDebugTeam`) and `_EnterDebugger` succeeds. If the next message popped
is handed-over or process-deleted, the hand-over loop ends at that message,
leaving `debugAction` as it is, and the thread reaches its end: after the
effects of the decision and of the launch it releases the message, removes the
handler and deletes it, which releases the messages that are still queued,
with no terminate request at all. -/
theorem C8_hand_over_completes (env : Env) (this : NNHandler) (sched : List WakeEvent)
    (roster : NNHandlerRoster) (first : LoopResult) (popped : PopResult)
    (message : DebugMessage)
    (hfirst : this.initialAction env sched = some first)
    (hdec : first.debugAction = kActionDebugTeam)
    (hlaunch : (first.handler._EnterDebugger env false).1 ≥ 0)
    (hpop : first.handler._PopMessage first.sched = some popped) (hok : popped.error = B_OK)
    (hmsg : popped.message = some message)
    (hcode : message.fCode = B_DEBUGGER_MESSAGE_HANDED_OVER ∨
      message.fCode = B_DEBUGGER_MESSAGE_TEAM_DELETED) :
    handOverLoop env (first.handler._EnterDebugger env false).1
        (loopRounds first.handler first.sched) 0 kActionDebugTeam first.handler first.sched =
      some { debugAction := kActionDebugTeam, handler := popped.handler,
             sched := popped.sched, trace := [Effect.delete_message message] } ∧
    ∃ res, this._HandlerThread env sched roster = some res ∧
      res.debugAction = kActionDebugTeam ∧
      res.trace = first.trace ++ (first.handler._EnterDebugger env false).2
        ++ [Effect.delete_message message, Effect.remove_handler this.fTeam]
        ++ popped.handler.fMessages.map Effect.delete_message
        ++ [Effect.delete_handler this.addr] ∧
      kills res.trace = [] ∧
      res.roster = (roster.RemoveHandler this.fTeam).2 := by
  have hloop := handOverLoop_end env (first.handler._EnterDebugger env false).1
    (first.handler.semCount + first.sched.length) 0 kActionDebugTeam first.handler first.sched
    popped message hpop hok hmsg hcode
  have hsave : decide (kActionDebugTeam = kActionSaveReportTeam) = false := by decide
  have hlast : first.handler.handOver env first.sched first.debugAction =
      some { debugAction := kActionDebugTeam, handler := popped.handler,
             sched := popped.sched,
             trace := (first.handler._EnterDebugger env false).2
               ++ [Effect.delete_message message] } := by
    rw [hdec]
    unfold NNHandler.handOver
    have h1 : ¬ kActionDebugTeam = kActionKillTeam := by decide
    have h2 : ¬ kActionDebugTeam = kActionWriteCoreFile := by decide
    simp only [h1, h2, if_false, hsave, hlaunch, if_true, loopRounds, hloop]
  have hrun : this._HandlerThread env sched roster =
      some { status := B_OK, debugAction := kActionDebugTeam,
             roster := (roster.RemoveHandler this.fTeam).2,
             trace := first.trace ++ (first.handler._EnterDebugger env false).2
               ++ [Effect.delete_message message, Effect.remove_handler this.fTeam]
               ++ popped.handler.fMessages.map Effect.delete_message
               ++ [Effect.delete_handler this.addr] } := by
    have h1 : ¬ kActionDebugTeam = kActionKillTeam := by decide
    simp [NNHandler._HandlerThread, hfirst, hlast, h1, NNHandler.destructor]
  refine ⟨hloop, _, hrun, rfl, rfl, ?_, rfl⟩
  rw [HandlerThread_kills env this sched roster _ hrun]
  simp

/-- C8 at team 42: the user chooses Debug in the prompt, the debugger is
launched, and the hand-over message arrives while one more message is queued
behind it; that message is released with the handler. -/
theorem C8_hand_over_completes_witness :
    ∃ res, (pushAll sampleHandler [sampleMessage B_DEBUGGER_MESSAGE_EXCEPTION_OCCURRED 0,
          sampleMessage B_DEBUGGER_MESSAGE_HANDED_OVER 0, sampleMessage 12 1])._HandlerThread
        sampleEnv [] sampleRoster = some res ∧
      res.debugAction = kActionDebugTeam ∧ kills res.trace = [] ∧
      removals res.trace = [42] ∧
      res.trace.drop 10 =
        [Effect.delete_message (sampleMessage B_DEBUGGER_MESSAGE_HANDED_OVER 0),
         Effect.remove_handler 42, Effect.delete_message (sampleMessage 12 1),
         Effect.delete_handler 1000] :=
  (C8_hand_over_completes sampleEnv
      (pushAll sampleHandler [sampleMessage B_DEBUGGER_MESSAGE_EXCEPTION_OCCURRED 0,
        sampleMessage B_DEBUGGER_MESSAGE_HANDED_OVER 0, sampleMessage 12 1])
      [] sampleRoster
      { debugAction := kActionDebugTeam,
        handler := { sampleHandler with
          fMessages := [sampleMessage B_DEBUGGER_MESSAGE_HANDED_OVER 0, sampleMessage 12 1],
          semCount := 2 },
        sched := [],
        trace := [Effect.print_stack_trace 421, Effect.init_gui, Effect.notify_app_server 42,
          Effect.notify_registrar 42 true false, Effect.alert_go "crasher",
          Effect.notify_registrar 42 false true,
          Effect.delete_message (sampleMessage B_DEBUGGER_MESSAGE_EXCEPTION_OCCURRED 0)] }
      { error := B_OK, message := some (sampleMessage B_DEBUGGER_MESSAGE_HANDED_OVER 0),
        handler := { sampleHandler with fMessages := [sampleMessage 12 1], semCount := 1 },
        sched := [] }
      (sampleMessage B_DEBUGGER_MESSAGE_HANDED_OVER 0)
      rfl rfl (by decide) rfl rfl rfl (Or.inl rfl)).2.imp
    (fun _ hres => ⟨hres.1, hres.2.1, hres.2.2.2.1, by rw [hres.2.2.1]; decide,
      by rw [hres.2.2.1]; decide⟩)

/-- C9: in the hand-over loop a message is popped that is neither handed-over
nor process-deleted. If the liveness check of the debugger thread fails, the
loop ends at this message with `debugAction` set to Kill, having issued no
terminate request itself; if the check succeeds, the message is released and
the loop goes on with the next pop, `debugAction` unchanged, again with no
terminate request. When this happens at the first message of the loop of a
thread whose `_EnterDebugger` succeeded and the check fails, the thread
reaches its end with exactly one terminate request, for the own team. -/
theorem C9_liveness_check (env : Env) (debuggerThread : thread_id) (checks : Nat)
    (debugAction : Int) (h : NNHandler) (sched : List WakeEvent) (popped : PopResult)
    (message : DebugMessage)
    (hpop : h._PopMessage sched = some popped) (hok : popped.error = B_OK)
    (hmsg : popped.message = some message)
    (hcode1 : message.fCode ≠ B_DEBUGGER_MESSAGE_HANDED_OVER)
    (hcode2 : message.fCode ≠ B_DEBUGGER_MESSAGE_TEAM_DELETED) :
    (env.get_thread_info checks debuggerThread ≠ B_OK →
      handOverLoop env debuggerThread (loopRounds h sched) checks debugAction h sched =
        some { debugAction := kActionKillTeam, handler := popped.handler,
               sched := popped.sched,
               trace := [Effect.get_thread_info debuggerThread,
                 Effect.delete_message message] }) ∧
    (env.get_thread_info checks debuggerThread = B_OK →
      handOverLoop env debuggerThread (loopRounds h sched) checks debugAction h sched =
        (handOverLoop env debuggerThread (loopRounds popped.handler popped.sched) (checks + 1)
          debugAction popped.handler popped.sched).map (fun later => { later with
            trace := [Effect.get_thread_info debuggerThread, Effect.delete_message message]
              ++ later.trace })) ∧
    kills [Effect.get_thread_info debuggerThread, Effect.delete_message message] = [] ∧
    (∀ (this : NNHandler) (sched0 : List WakeEvent) (roster : NNHandlerRoster)
        (first : LoopResult),
      this.initialAction env sched0 = some first →
      first.debugAction = debugAction → first.handler = h → first.sched = sched →
      debugAction ≠ kActionKillTeam → debugAction ≠ kActionWriteCoreFile →
      (h._EnterDebugger env (decide (debugAction = kActionSaveReportTeam))).1 = debuggerThread →
      debuggerThread ≥ 0 → checks = 0 →
      env.get_thread_info checks debuggerThread ≠ B_OK →
      ∃ res, this._HandlerThread env sched0 roster = some res ∧
        res.debugAction = kActionKillTeam ∧ kills res.trace = [this.fTeam]) := by
  have hother := handOverLoop_other env debuggerThread (h.semCount + sched.length) checks
    debugAction h sched popped message hpop hok hmsg hcode1 hcode2
  have hdead : env.get_thread_info checks debuggerThread ≠ B_OK →
      handOverLoop env debuggerThread (loopRounds h sched) checks debugAction h sched =
        some { debugAction := kActionKillTeam, handler := popped.handler,
               sched := popped.sched,
               trace := [Effect.get_thread_info debuggerThread,
                 Effect.delete_message message] } := by
    intro hd
    rw [loopRounds, hother, if_pos hd]
  refine ⟨hdead, ?_, rfl, ?_⟩
  · intro halive
    have hlt := (PopMessage_spec h sched popped hpop).2.2 hok
    rw [loopRounds, hother, if_neg (by simpa using halive)]
    rw [handOverLoop_rounds env debuggerThread debugAction (h.semCount + sched.length)
      (loopRounds popped.handler popped.sched) (checks + 1) popped.handler popped.sched
      hlt (by unfold loopRounds; omega)]
  · intro this sched0 roster first hfirst hact hhandler hsched hk hc hthread hge hzero hd
    have hloop := hdead hd
    subst hzero hact hhandler hsched
    have hlast : first.handler.handOver env first.sched first.debugAction =
        some { debugAction := kActionKillTeam, handler := popped.handler,
               sched := popped.sched,
               trace := (first.handler._EnterDebugger env
                   (decide (first.debugAction = kActionSaveReportTeam))).2
                 ++ [Effect.get_thread_info debuggerThread,
                     Effect.delete_message message] } := by
      unfold NNHandler.handOver
      simp only [hk, hc, if_false, hthread, hge, if_true, hloop]
    have hrun : ∃ res, this._HandlerThread env sched0 roster = some res ∧
        res.debugAction = kActionKillTeam := by
      unfold NNHandler._HandlerThread
      rw [hfirst]
      simp [hlast]
    obtain ⟨res, hres, hkill⟩ := hrun
    refine ⟨res, hres, hkill, ?_⟩
    rw [HandlerThread_kills env this sched0 roster res hres, if_pos hkill]

/-- C9 at team 42: after the launch a thread-created message arrives and the
debugger thread is gone. -/
theorem C9_liveness_check_witness :
    handOverLoop deadDebuggerEnv 500
        (loopRounds sampleHandler [WakeEvent.push (sampleMessage 12 0)]) 0 kActionDebugTeam
        sampleHandler [WakeEvent.push (sampleMessage 12 0)] =
      some { debugAction := kActionKillTeam, handler := sampleHandler, sched := [],
             trace := [Effect.get_thread_info 500,
               Effect.delete_message (sampleMessage 12 0)] } ∧
    ∃ res, sampleHandler._HandlerThread deadDebuggerEnv
        [WakeEvent.push (sampleMessage B_DEBUGGER_MESSAGE_EXCEPTION_OCCURRED 0),
         WakeEvent.push (sampleMessage 12 0)] sampleRoster = some res ∧
      res.debugAction = kActionKillTeam ∧ kills res.trace = [42] :=
  ⟨(C9_liveness_check deadDebuggerEnv 500 0 kActionDebugTeam sampleHandler
      [WakeEvent.push (sampleMessage 12 0)]
      { error := B_OK, message := some (sampleMessage 12 0), handler := sampleHandler,
        sched := [] }
      (sampleMessage 12 0) rfl rfl rfl (by decide) (by decide)).1 (by decide),
    (C9_liveness_check deadDebuggerEnv 500 0 kActionDebugTeam sampleHandler
      [WakeEvent.push (sampleMessage 12 0)]
      { error := B_OK, message := some (sampleMessage 12 0), handler := sampleHandler,
        sched := [] }
      (sampleMessage 12 0) rfl rfl rfl (by decide) (by decide)).2.2.2 sampleHandler
      [WakeEvent.push (sampleMessage B_DEBUGGER_MESSAGE_EXCEPTION_OCCURRED 0),
       WakeEvent.push (sampleMessage 12 0)] sampleRoster
      { debugAction := kActionDebugTeam, handler := sampleHandler,
        sched := [WakeEvent.push (sampleMessage 12 0)],
        trace := [Effect.print_stack_trace 421, Effect.init_gui, Effect.notify_app_server 42,
          Effect.notify_registrar 42 true false, Effect.alert_go "crasher",
          Effect.notify_registrar 42 false true,
          Effect.delete_message (sampleMessage B_DEBUGGER_MESSAGE_EXCEPTION_OCCURRED 0)] }
      rfl rfl rfl rfl (by decide) (by decide) (by decide) (by decide) rfl (by decide)⟩

/-! ## Removal from the registry -/

theorem mapFind_mapErase_ne (m : List (team_id × NNHandler)) (team t : team_id)
    (hne : t ≠ team) : mapFind (mapErase m team) t = mapFind m t := by
  induction m with
  | nil => rfl
  | cons e m ih =>
    obtain ⟨k, v⟩ := e
    by_cases hk : k = team
    · subst hk
      have hkt : ¬ k = t := fun h => hne h.symm
      simp [mapErase, mapFind, hkt]
    · by_cases hkt : k = t
      · subst hkt
        simp [mapErase, mapFind, hk]
      · simp [mapErase, mapFind, hk, hkt, ih]

theorem filter_mapErase (m : List (team_id × NNHandler)) (team : team_id) :
    (mapErase m team).filter (fun e => decide (e.1 ≠ team)) =
      m.filter (fun e => decide (e.1 ≠ team)) := by
  induction m with
  | nil => rfl
  | cons e m ih =>
    obtain ⟨k, v⟩ := e
    by_cases hk : k = team
    · simp [mapErase, hk]
    · simp only [mapErase, hk, if_false, List.filter_cons]
      rw [ih]

theorem RemoveHandler_other (r : NNHandlerRoster) (team t : team_id) (hne : t ≠ team) :
    (r.RemoveHandler team).2.HandlerFor t = r.HandlerFor t := by
  rw [HandlerFor_eq, HandlerFor_eq]
  unfold NNHandlerRoster.RemoveHandler
  cases hfind : mapFind r.fHandlers team with
  | none => rfl
  | some handler => exact mapFind_mapErase_ne r.fHandlers team t hne

theorem RemoveHandler_filter (r : NNHandlerRoster) (team : team_id) :
    (r.RemoveHandler team).2.fHandlers.filter (fun e => decide (e.1 ≠ team)) =
      r.fHandlers.filter (fun e => decide (e.1 ≠ team)) := by
  unfold NNHandlerRoster.RemoveHandler
  cases hfind : mapFind r.fHandlers team with
  | none => rfl
  | some handler => exact filter_mapErase r.fHandlers team

theorem RemoveHandler_returns (r : NNHandlerRoster) (team : team_id) :
    (r.RemoveHandler team).1 = r.HandlerFor team := by
  rw [HandlerFor_eq]
  unfold NNHandlerRoster.RemoveHandler
  cases hfind : mapFind r.fHandlers team <;> rfl

theorem HandlerThread_roster (env : Env) (this : NNHandler) (sched : List WakeEvent)
    (roster : NNHandlerRoster) (res : ThreadResult)
    (hrun : this._HandlerThread env sched roster = some res) :
    res.roster = (roster.RemoveHandler this.fTeam).2 ∧
    ∃ before first last, this.initialAction env sched = some first ∧
      first.handler.handOver env first.sched first.debugAction = some last ∧
      res.trace = before ++ [Effect.remove_handler this.fTeam]
        ++ last.handler.fMessages.map Effect.delete_message
        ++ [Effect.delete_handler this.addr] := by
  unfold NNHandler._HandlerThread at hrun
  cases hfirst : this.initialAction env sched with
  | none => simp [hfirst] at hrun
  | some first =>
    simp only [hfirst] at hrun
    cases hlast : first.handler.handOver env first.sched first.debugAction with
    | none => simp [hlast] at hrun
    | some last =>
      simp only [hlast, Option.some.injEq] at hrun
      subst hrun
      exact ⟨rfl, _, first, last, rfl, hlast, rfl⟩

theorem mapFind_mapStore_addr (m : List (team_id × NNHandler)) (t : team_id)
    (stored found : NNHandler) (hfind : mapFind m t = some found) :
    ∃ after, mapFind (mapStore m stored) t = some after ∧ after.addr = found.addr := by
  induction m with
  | nil => simp [mapFind] at hfind
  | cons e m ih =>
    obtain ⟨k, v⟩ := e
    rw [mapStore_cons]
    by_cases hk : k = t
    · simp only [mapFind, hk, if_true, Option.some.injEq] at hfind
      subst hfind
      by_cases ha : v.addr = stored.addr
      · exact ⟨stored, by simp [mapFind, hk, ha], ha.symm⟩
      · exact ⟨v, by simp [mapFind, hk, ha], rfl⟩
    · simp only [mapFind, hk, if_false] at hfind
      obtain ⟨after, h1, h2⟩ := ih hfind
      exact ⟨after, by simp [mapFind, hk, h1], h2⟩

theorem mapFind_mapAssign_ne (m : List (team_id × NNHandler)) (team t : team_id)
    (value : NNHandler) (hne : t ≠ team) :
    mapFind (mapAssign m team value) t = mapFind m t := by
  induction m with
  | nil =>
    have hne2 : ¬ team = t := fun h => hne h.symm
    simp [mapAssign, mapFind, hne2]
  | cons e m ih =>
    obtain ⟨k, v⟩ := e
    by_cases hk : k = team
    · subst hk
      have hkt : ¬ k = t := fun h => hne h.symm
      simp [mapAssign, mapFind, hkt]
    · by_cases hkt : k = t
      · subst hkt
        simp [mapAssign, mapFind, hk]
      · simp [mapAssign, mapFind, hk, hkt, ih]

theorem Init_fields (env : InitEnv) (h : NNHandler) (nubPort : port_id) :
    (NNHandler.Init env h nubPort).2.1.fTeam = h.fTeam ∧
    (NNHandler.Init env h nubPort).2.1.addr = h.addr ∧
    (NNHandler.Init env h nubPort).2.1.fMessages = h.fMessages := by
  unfold NNHandler.Init
  simp only []
  split_ifs <;> exact ⟨rfl, rfl, rfl⟩

theorem DispatchMessage_keeps_handler (env : InitEnv) (r : NNHandlerRoster)
    (message : Option DebugMessage) (t : team_id) (found : NNHandler)
    (hfor : r.HandlerFor t = some found) :
    ∃ after, (r.DispatchMessage env message).roster.HandlerFor t = some after ∧
      after.addr = found.addr := by
  have hfind : mapFind r.fHandlers t = some found := by rw [← HandlerFor_eq]; exact hfor
  unfold NNHandlerRoster.DispatchMessage
  cases message with
  | none => exact ⟨found, hfor, rfl⟩
  | some message =>
    simp only []
    cases hmsg : r.HandlerFor message.team with
    | some handler =>
      simp only [HandlerFor_eq]
      exact mapFind_mapStore_addr _ _ _ _ hfind
    | none =>
      simp only []
      have hne : t ≠ message.team := by
        intro h
        rw [h, hmsg] at hfor
        exact absurd hfor (by simp)
      cases hnew : env.new_handler with
      | none => exact ⟨found, hfor, rfl⟩
      | some addr =>
        simp only []
        split
        · exact ⟨found, hfor, rfl⟩
        · simp only [NNHandlerRoster.AddHandler, Bool.not_true, Bool.false_eq_true, if_false,
            HandlerFor_eq]
          apply mapFind_mapStore_addr
          rw [mapFind_mapAssign_ne _ _ _ _ ?_]
          · exact hfind
          · rw [NNHandler.Team, (Init_fields env _ _).1]
            exact hne

/-! ## Registry actions of the handler thread -/

theorem removals_append (a b : List Effect) :
    removals (a ++ b) = removals a ++ removals b := by
  simp [removals, List.filterMap_append]

theorem handOverLoop_removals (env : Env) (debuggerThread : thread_id) (debugAction : Int) :
    ∀ (rounds checks : Nat) (h : NNHandler) (sched : List WakeEvent) (last : LoopResult),
      handOverLoop env debuggerThread rounds checks debugAction h sched = some last →
      removals last.trace = [] ∧ last.handler.fTeam = h.fTeam := by
  intro rounds
  induction rounds with
  | zero => intro checks h sched last hloop; simp [handOverLoop] at hloop
  | succ rounds ih =>
    intro checks h sched last hloop
    simp only [handOverLoop] at hloop
    cases hpop : h._PopMessage sched with
    | none => simp [hpop] at hloop
    | some popped =>
      have hteam := (PopMessage_spec h sched popped hpop).1
      simp only [hpop] at hloop
      by_cases h1 : popped.error = B_OK
      · simp only [h1, ne_eq, not_true_eq_false, if_false] at hloop
        cases hmsg : popped.message with
        | none => simp [hmsg] at hloop
        | some message =>
          simp only [hmsg] at hloop
          by_cases h2 : message.fCode = B_DEBUGGER_MESSAGE_HANDED_OVER
          · simp only [h2, if_true, Option.some.injEq] at hloop
            subst hloop
            exact ⟨rfl, hteam⟩
          · simp only [h2, if_false] at hloop
            by_cases h3 : message.fCode = B_DEBUGGER_MESSAGE_TEAM_DELETED
            · simp only [h3, if_true, Option.some.injEq] at hloop
              subst hloop
              exact ⟨rfl, hteam⟩
            · simp only [h3, if_false] at hloop
              by_cases h4 : env.get_thread_info checks debuggerThread = B_OK
              · simp only [h4, ne_eq, not_true_eq_false, if_false] at hloop
                cases hrec : handOverLoop env debuggerThread rounds (checks + 1) debugAction
                    popped.handler popped.sched with
                | none => simp [hrec] at hloop
                | some later =>
                  simp only [hrec, Option.some.injEq] at hloop
                  subst hloop
                  obtain ⟨k1, k2⟩ := ih _ _ _ _ hrec
                  refine ⟨?_, k2.trans hteam⟩
                  simp only [removals_append, k1]
                  rfl
              · simp only [ne_eq, h4, not_false_eq_true, if_true, Option.some.injEq] at hloop
                subst hloop
                exact ⟨rfl, hteam⟩
      · simp only [ne_eq, h1, not_false_eq_true, if_true, Option.some.injEq] at hloop
        subst hloop
        exact ⟨rfl, hteam⟩

theorem removals_HandleMessage (env : Env) (h : NNHandler) (message : DebugMessage) :
    removals (h._HandleMessage env message).2 = [] := by
  unfold NNHandler._HandleMessage
  simp only []
  split_ifs <;> simp [removals]

theorem removals_EnterDebugger (env : Env) (h : NNHandler) (saveReport : Bool) :
    removals (h._EnterDebugger env saveReport).2 = [] := by
  unfold NNHandler._EnterDebugger
  simp only []
  split_ifs
  · simp [removals]
  · simp [removals]
  · cases h.debuggerArguments env saveReport (h._IsGUIServer || !_AreGUIServersAlive env) with
    | error error => simp [removals]
    | ok argv =>
      simp only []
      split_ifs <;> simp [removals]
  · cases h.debuggerArguments env saveReport (h._IsGUIServer || !_AreGUIServersAlive env) with
    | error error => simp [removals]
    | ok argv =>
      simp only []
      split_ifs <;> simp [removals]

theorem removals_WriteCoreFile (env : Env) (h : NNHandler) :
    removals (h._WriteCoreFile env).2 = [] := by
  unfold NNHandler._WriteCoreFile
  simp only []
  split_ifs
  · rfl
  · split <;> simp [removals]

theorem initialAction_removals (env : Env) (this : NNHandler) (sched : List WakeEvent)
    (first : LoopResult) (hfirst : this.initialAction env sched = some first) :
    removals first.trace = [] ∧ first.handler.fTeam = this.fTeam := by
  unfold NNHandler.initialAction at hfirst
  cases hpop : this._PopMessage sched with
  | none => simp [hpop] at hfirst
  | some popped =>
    have hteam := (PopMessage_spec this sched popped hpop).1
    simp only [hpop] at hfirst
    by_cases h1 : popped.error = B_OK
    · simp only [h1, if_true] at hfirst
      cases hmsg : popped.message with
      | none => simp [hmsg] at hfirst
      | some message =>
        simp only [hmsg, Option.some.injEq] at hfirst
        subst hfirst
        refine ⟨?_, hteam⟩
        simp only [removals_append, removals_HandleMessage]
        rfl
    · simp only [h1, if_false, Option.some.injEq] at hfirst
      subst hfirst
      exact ⟨rfl, hteam⟩

theorem handOver_removals (env : Env) (h : NNHandler) (sched : List WakeEvent) (debugAction : Int)
    (last : LoopResult) (hlast : h.handOver env sched debugAction = some last) :
    removals last.trace = [] ∧ last.handler.fTeam = h.fTeam := by
  unfold NNHandler.handOver at hlast
  by_cases h1 : debugAction = kActionKillTeam
  · simp only [h1, if_true, Option.some.injEq] at hlast
    subst hlast
    exact ⟨rfl, rfl⟩
  · simp only [h1, if_false] at hlast
    by_cases h2 : debugAction = kActionWriteCoreFile
    · simp only [h2, if_true, Option.some.injEq] at hlast
      subst hlast
      exact ⟨removals_WriteCoreFile env h, rfl⟩
    · simp only [h2, if_false] at hlast
      by_cases h3 : (h._EnterDebugger env (decide (debugAction = kActionSaveReportTeam))).1 ≥ 0
      · simp only [h3, if_true] at hlast
        cases hloop : handOverLoop env
            (h._EnterDebugger env (decide (debugAction = kActionSaveReportTeam))).1
            (loopRounds h sched) 0 debugAction h sched with
        | none => simp [hloop] at hlast
        | some looped =>
          simp only [hloop, Option.some.injEq] at hlast
          subst hlast
          obtain ⟨k1, k2⟩ := handOverLoop_removals env _ debugAction _ _ _ _ _ hloop
          refine ⟨?_, k2⟩
          simp only [removals_append, removals_EnterDebugger, k1]
          rfl
      · simp only [h3, if_false, Option.some.injEq] at hlast
        subst hlast
        exact ⟨removals_EnterDebugger env h _, rfl⟩


theorem removals_destructor (h : NNHandler) : removals h.destructor = [] := by
  unfold NNHandler.destructor
  induction h.fMessages with
  | nil => rfl
  | cons m rest ih => simpa [removals] using ih

theorem HandlerThread_removals (env : Env) (this : NNHandler) (sched : List WakeEvent)
    (roster : NNHandlerRoster) (res : ThreadResult)
    (hrun : this._HandlerThread env sched roster = some res) :
    removals res.trace = [this.fTeam] := by
  unfold NNHandler._HandlerThread at hrun
  cases hfirst : this.initialAction env sched with
  | none => simp [hfirst] at hrun
  | some first =>
    simp only [hfirst] at hrun
    cases hlast : first.handler.handOver env first.sched first.debugAction with
    | none => simp [hlast] at hrun
    | some last =>
      simp only [hlast, Option.some.injEq] at hrun
      subst hrun
      obtain ⟨k1, _⟩ := initialAction_removals env this sched first hfirst
      obtain ⟨k2, _⟩ := handOver_removals env _ _ _ last hlast
      simp only [removals_append, removals_destructor, k1, k2, List.nil_append]
      by_cases hk : last.debugAction = kActionKillTeam
      · simp [hk, NNHandler._KillTeam, KillTeam, removals]
      · simp [hk, removals]

/-- C11 fails when another handler object has been registered under the team
of a running handler: `AddHandler` puts `replacementHandler` (address 5000)
under team 42, and the teardown of `sampleHandler` (address 1000) removes it;
the registry has no handler for team 42 afterwards. -/
theorem C11_counterexample :
    replacementHandler.addr ≠ sampleHandler.addr ∧
    replacementHandler.fTeam = sampleHandler.fTeam ∧
    (sampleRoster.AddHandler (some replacementHandler)).2.HandlerFor 42 =
      some replacementHandler ∧
    (sampleHandler._HandlerThread killRuleEnv
      [WakeEvent.push (sampleMessage B_DEBUGGER_MESSAGE_EXCEPTION_OCCURRED 0)]
      (sampleRoster.AddHandler (some replacementHandler)).2).map
        (fun res => res.roster.HandlerFor 42) = some none ∧
    ((sampleRoster.AddHandler (some replacementHandler)).2.RemoveHandler sampleHandler.fTeam).1 =
      some replacementHandler := by
  refine ⟨by decide, by decide, by decide, by decide, by decide⟩

/-- C11 (amended): the removal a handler issues at teardown is
`RemoveHandler(fTeam)`, which finds the entry by the team alone. It returns
and removes whichever handler is registered under that team, and it leaves the
handler of every other team registered. `DispatchMessage` never replaces a
registered handler: after it the team points to the same handler object. -/
theorem C11_self_removal_by_team :
    (∀ (env : Env) (this : NNHandler) (sched : List WakeEvent) (roster : NNHandlerRoster)
        (res : ThreadResult),
      this._HandlerThread env sched roster = some res →
      res.roster = (roster.RemoveHandler this.fTeam).2) ∧
    (∀ (roster : NNHandlerRoster) (team : team_id),
      (roster.RemoveHandler team).1 = roster.HandlerFor team ∧
      ∀ t : team_id, t ≠ team →
        (roster.RemoveHandler team).2.HandlerFor t = roster.HandlerFor t) ∧
    (∀ (env : InitEnv) (roster : NNHandlerRoster) (message : Option DebugMessage)
        (t : team_id) (found : NNHandler),
      roster.HandlerFor t = some found →
      ∃ after, (roster.DispatchMessage env message).roster.HandlerFor t = some after ∧
        after.addr = found.addr) :=
  ⟨fun env this sched roster res hrun => (HandlerThread_roster env this sched roster res hrun).1,
    fun roster team => ⟨RemoveHandler_returns roster team,
      fun t hne => RemoveHandler_other roster team t hne⟩,
    fun env roster message t found hfor =>
      DispatchMessage_keeps_handler env roster message t found hfor⟩

/-- C11 (amended) at `sampleRoster`: the teardown of the handler of team 42
leaves the handler of team 7, and a dispatch for team 42 goes to the handler at
address 1000. -/
theorem C11_self_removal_by_team_witness :
    (sampleRoster.RemoveHandler 42).2.HandlerFor 7 = some otherHandler ∧
    ∃ after, (sampleRoster.DispatchMessage workingInit
        (some (sampleMessage B_DEBUGGER_MESSAGE_HANDED_OVER 0))).roster.HandlerFor 42 =
        some after ∧ after.addr = 1000 :=
  ⟨((C11_self_removal_by_team.2.1 sampleRoster 42).2 7 (by decide)).trans (by decide),
    C11_self_removal_by_team.2.2 workingInit sampleRoster
      (some (sampleMessage B_DEBUGGER_MESSAGE_HANDED_OVER 0)) 42 sampleHandler (by decide)⟩

/-- C17: every run of the handler thread that reaches its end, whatever
branch it took, calls `RemoveHandler` exactly once, for its own team. It is the
last action before `delete this`, and the only registry action of the run:
what follows is the release of the messages that are still in the queue of the
handler as the run left it, and of the handler itself. The registry afterwards
is the registry before without the entry of that team: on a registry with
unique keys no handler is left for the team, and the entries of all other
teams are as they were. -/
theorem C17_teardown_removes_own_entry (env : Env) (this : NNHandler)
    (sched : List WakeEvent) (roster : NNHandlerRoster) (res : ThreadResult)
    (hwf : roster.WF) (hrun : this._HandlerThread env sched roster = some res) :
    removals res.trace = [this.fTeam] ∧
    (∃ before first last, this.initialAction env sched = some first ∧
      first.handler.handOver env first.sched first.debugAction = some last ∧
      res.trace = before ++ [Effect.remove_handler this.fTeam]
        ++ last.handler.fMessages.map Effect.delete_message
        ++ [Effect.delete_handler this.addr] ∧
      removals before = []) ∧
    res.roster = (roster.RemoveHandler this.fTeam).2 ∧
    res.roster.HandlerFor this.fTeam = none ∧
    (∀ t : team_id, t ≠ this.fTeam → res.roster.HandlerFor t = roster.HandlerFor t) ∧
    res.roster.fHandlers.filter (fun e => decide (e.1 ≠ this.fTeam)) =
      roster.fHandlers.filter (fun e => decide (e.1 ≠ this.fTeam)) := by
  obtain ⟨hroster, before, first, last, hfirst, hlast, htrace⟩ :=
    HandlerThread_roster env this sched roster res hrun
  have hrem := HandlerThread_removals env this sched roster res hrun
  refine ⟨hrem, ⟨before, first, last, hfirst, hlast, htrace, ?_⟩, hroster, ?_, ?_, ?_⟩
  · have hq := removals_destructor last.handler
    unfold NNHandler.destructor at hq
    rw [htrace] at hrem
    simp only [removals_append, hq, List.append_nil] at hrem
    have hone : removals [Effect.remove_handler this.fTeam] = [this.fTeam] := rfl
    have hzero : removals [Effect.delete_handler this.addr] = [] := rfl
    rw [hone, hzero, List.append_nil] at hrem
    have hlen := congrArg List.length hrem
    simp only [List.length_append, List.length_singleton] at hlen
    exact List.length_eq_zero.mp (by omega)
  · rw [hroster, HandlerFor_eq]
    exact mapFind_RemoveHandler roster this.fTeam hwf
  · intro t hne
    rw [hroster]
    exact RemoveHandler_other roster this.fTeam t hne
  · rw [hroster]
    exact RemoveHandler_filter roster this.fTeam

/-- C17 at the run of the handler of team 42 that hands the team over to the
debugger while a third message is still queued. -/
theorem C17_teardown_removes_own_entry_witness :
    sampleRoster.WF ∧
    (pushAll sampleHandler
        [sampleMessage B_DEBUGGER_MESSAGE_EXCEPTION_OCCURRED 0,
         sampleMessage B_DEBUGGER_MESSAGE_HANDED_OVER 0, sampleMessage 12 1])._HandlerThread
        sampleEnv [] sampleRoster =
      some { status := B_OK, debugAction := kActionDebugTeam, roster := smallRoster,
             trace := [Effect.print_stack_trace 421, Effect.init_gui,
               Effect.notify_app_server 42, Effect.notify_registrar 42 true false,
               Effect.alert_go "crasher", Effect.notify_registrar 42 false true,
               Effect.delete_message (sampleMessage B_DEBUGGER_MESSAGE_EXCEPTION_OCCURRED 0),
               Effect.send_debug_message 42 DebugRequest.prepare_handover,
               Effect.load_image ["/boot/system/apps/Debugger", "--team", "42"],
               Effect.resume_thread 500,
               Effect.delete_message (sampleMessage B_DEBUGGER_MESSAGE_HANDED_OVER 0),
               Effect.remove_handler 42, Effect.delete_message (sampleMessage 12 1),
               Effect.delete_handler 1000] } ∧
    smallRoster.HandlerFor 42 = none ∧ smallRoster.HandlerFor 7 = sampleRoster.HandlerFor 7 :=
  ⟨by decide, rfl,
    (C17_teardown_removes_own_entry sampleEnv (pushAll sampleHandler
        [sampleMessage B_DEBUGGER_MESSAGE_EXCEPTION_OCCURRED 0,
         sampleMessage B_DEBUGGER_MESSAGE_HANDED_OVER 0, sampleMessage 12 1])
      [] sampleRoster
      { status := B_OK, debugAction := kActionDebugTeam, roster := smallRoster,
        trace := [Effect.print_stack_trace 421, Effect.init_gui,
          Effect.notify_app_server 42, Effect.notify_registrar 42 true false,
          Effect.alert_go "crasher", Effect.notify_registrar 42 false true,
          Effect.delete_message (sampleMessage B_DEBUGGER_MESSAGE_EXCEPTION_OCCURRED 0),
          Effect.send_debug_message 42 DebugRequest.prepare_handover,
          Effect.load_image ["/boot/system/apps/Debugger", "--team", "42"],
          Effect.resume_thread 500,
          Effect.delete_message (sampleMessage B_DEBUGGER_MESSAGE_HANDED_OVER 0),
          Effect.remove_handler 42, Effect.delete_message (sampleMessage 12 1),
          Effect.delete_handler 1000] }
      (by decide) rfl).2.2.2.1,
    (C17_teardown_removes_own_entry sampleEnv (pushAll sampleHandler
        [sampleMessage B_DEBUGGER_MESSAGE_EXCEPTION_OCCURRED 0,
         sampleMessage B_DEBUGGER_MESSAGE_HANDED_OVER 0, sampleMessage 12 1])
      [] sampleRoster
      { status := B_OK, debugAction := kActionDebugTeam, roster := smallRoster,
        trace := [Effect.print_stack_trace 421, Effect.init_gui,
          Effect.notify_app_server 42, Effect.notify_registrar 42 true false,
          Effect.alert_go "crasher", Effect.notify_registrar 42 false true,
          Effect.delete_message (sampleMessage B_DEBUGGER_MESSAGE_EXCEPTION_OCCURRED 0),
          Effect.send_debug_message 42 DebugRequest.prepare_handover,
          Effect.load_image ["/boot/system/apps/Debugger", "--team", "42"],
          Effect.resume_thread 500,
          Effect.delete_message (sampleMessage B_DEBUGGER_MESSAGE_HANDED_OVER 0),
          Effect.remove_handler 42, Effect.delete_message (sampleMessage 12 1),
          Effect.delete_handler 1000] }
      (by decide) rfl).2.2.2.2.1 7 (by decide)⟩

/-! ## Policy lookup -/

theorem action_for_string_status (action : String) (a b : Int) :
    (action_for_string action a).1 = (action_for_string action b).1 ∧
    ((action_for_string action a).1 = B_OK →
      (action_for_string action a).2 = (action_for_string action b).2) := by
  unfold action_for_string
  split_ifs
  all_goals first
    | exact ⟨rfl, fun _ => rfl⟩
    | exact ⟨rfl, fun hbad => absurd hbad (show ¬ B_BAD_VALUE = B_OK by decide)⟩

theorem action_for_team_default (env : Env) (_action : Int) :
    (if (action_for_string (GetParameterValue env.settings.default_action "user" "user")
        _action).1 = B_OK then
      (action_for_string (GetParameterValue env.settings.default_action "user" "user")
        _action).2
    else kActionPromptUser) = defaultAction env := by
  unfold defaultAction
  obtain ⟨h1, h2⟩ := action_for_string_status
    (GetParameterValue env.settings.default_action "user" "user") _action kActionPromptUser
  simp only []
  by_cases hok : (action_for_string (GetParameterValue env.settings.default_action "user"
      "user") _action).1 = B_OK
  · rw [if_pos hok, if_pos (h1 ▸ hok), h2 hok]
  · rw [if_neg hok, if_neg (h1 ▸ hok)]

theorem executable_action_first_match (env : Env) (teamName : String)
    (pre post : List BDriverParameter) (child : BDriverParameter) (_action : Int)
    (_explicitActionFound : Bool)
    (hpre : ∀ p ∈ pre, match_team_name env teamName p.name = false)
    (hchild : match_team_name env teamName child.name = true) :
    executable_action env teamName (pre ++ child :: post) _action _explicitActionFound =
      ruleAction child _action _explicitActionFound := by
  induction pre with
  | nil =>
    simp only [List.nil_append, executable_action, hchild, ruleAction, Bool.not_true,
      Bool.false_eq_true, if_false]
  | cons p pre ih =>
    have hp : match_team_name env teamName p.name = false := hpre p (List.mem_cons_self _ _)
    simp only [List.cons_append, executable_action, hp, Bool.not_false, if_true]
    exact ih (fun q hq => hpre q (List.mem_cons_of_mem _ hq))

theorem executable_action_no_match (env : Env) (teamName : String)
    (rules : List BDriverParameter) (_action : Int) (_explicitActionFound : Bool)
    (hnone : ∀ p ∈ rules, match_team_name env teamName p.name = false) :
    executable_action env teamName rules _action _explicitActionFound =
      (_action, _explicitActionFound) := by
  induction rules with
  | nil => rfl
  | cons p rules ih =>
    have hp : match_team_name env teamName p.name = false := hnone p (List.mem_cons_self _ _)
    simp only [executable_action, hp, Bool.not_false, if_true]
    exact ih (fun q hq => hnone q (List.mem_cons_of_mem _ hq))

/-- C12: in `action_for_team` the first matching rule wins. When the settings
are loaded and `child` is the first rule of `executable_actions` whose pattern
matches the executable name, the result is that of this rule alone: its
action with explicit-action-found set when its first value is an action
string, and otherwise the default action with explicit-action-found false.
The rules after it do not occur in the result. -/
theorem C12_first_matching_rule_wins (env : Env) (teamName : String)
    (pre post : List BDriverParameter) (child : BDriverParameter) (_action : Int)
    (_explicitActionFound : Bool)
    (hdir : env.find_settings_directory = B_OK) (hload : env.settings_load = B_OK)
    (hrules : env.settings.executable_actions = pre ++ child :: post)
    (hpre : ∀ p ∈ pre, match_team_name env teamName p.name = false)
    (hchild : match_team_name env teamName child.name = true) :
    action_for_team env teamName _action _explicitActionFound =
      (B_OK, ruleAction child (defaultAction env) false) ∧
    (∀ other : List BDriverParameter,
      executable_action env teamName (pre ++ child :: other) (defaultAction env) false =
        executable_action env teamName (pre ++ child :: post) (defaultAction env) false) ∧
    (child.values = [] → ruleAction child (defaultAction env) false =
      (defaultAction env, false)) ∧
    (∀ (value : String) (rest : List String), child.values = value :: rest →
      ruleAction child (defaultAction env) false =
        if (action_for_string value kActionPromptUser).1 = B_OK then
          ((action_for_string value kActionPromptUser).2, true)
        else (defaultAction env, false)) := by
  refine ⟨?_, ?_, ?_, ?_⟩
  · unfold action_for_team
    simp only [hdir, hload, ne_eq, not_true_eq_false, if_false, action_for_team_default,
      hrules, executable_action_first_match env teamName pre post child _ _ hpre hchild]
  · intro other
    rw [executable_action_first_match env teamName pre other child _ _ hpre hchild,
      executable_action_first_match env teamName pre post child _ _ hpre hchild]
  · intro hv
    simp [ruleAction, hv]
  · intro value rest hv
    obtain ⟨h1, h2⟩ := action_for_string_status value (defaultAction env) kActionPromptUser
    simp only [ruleAction, hv]
    by_cases hok : (action_for_string value (defaultAction env)).1 = B_OK
    · rw [if_pos hok, if_pos (h1 ▸ hok), h2 hok]
    · rw [if_neg hok, if_neg (h1 ▸ hok)]

/-- C12 at the rules `other debug`, `crasher core`, `crasher kill` and the
executable of team 42: the second rule decides. -/
theorem C12_first_matching_rule_wins_witness :
    action_for_team rulesEnv "/boot/home/apps/crasher" kActionPromptUser false =
      (B_OK, kActionWriteCoreFile, true) :=
  (C12_first_matching_rule_wins rulesEnv "/boot/home/apps/crasher" [⟨"other", ["debug"]⟩]
    [⟨"crasher", ["kill"]⟩] ⟨"crasher", ["core"]⟩ kActionPromptUser false rfl rfl rfl
    (by decide) (by decide)).1.trans (by decide)

/-- C13 fails under the setting `default_action kill`: no rule matches the
executable of team 42, and the policy gives `kActionKillTeam`. -/
theorem C13_counterexample :
    defaultKillEnv.settings.executable_actions = [] ∧
    sampleHandler.policyAction defaultKillEnv = (kActionKillTeam, false) ∧
    action_for_team defaultKillEnv sampleHandler.fExecutablePath kActionPromptUser false =
      (B_OK, kActionKillTeam, false) := by
  refine ⟨rfl, by decide, by decide⟩

/-- C13 (amended): when no rule of `executable_actions` matches the
executable, the policy lookup of `_HandleMessage` gives explicit-action-found
false and the default action: `kActionPromptUser` when the settings cannot be
loaded, and otherwise the action named by the parameter `default_action`,
which is `kActionPromptUser` when the parameter is absent, has no value or
does not name an action. -/
theorem C13_no_rule_gives_default (env : Env) (h : NNHandler)
    (hnone : ∀ p ∈ env.settings.executable_actions,
      match_team_name env h.fExecutablePath p.name = false) :
    h.policyAction env =
      (if env.find_settings_directory ≠ B_OK ∨ env.settings_load ≠ B_OK then kActionPromptUser
        else defaultAction env, false) ∧
    (env.settings.default_action = none → h.policyAction env = (kActionPromptUser, false)) ∧
    (env.settings.default_action = some [] → h.policyAction env = (kActionPromptUser, false)) ∧
    (∀ (value : String) (rest : List String),
      env.settings.default_action = some (value :: rest) →
      (action_for_string value kActionPromptUser).1 ≠ B_OK →
      h.policyAction env = (kActionPromptUser, false)) := by
  have hmain : h.policyAction env =
      (if env.find_settings_directory ≠ B_OK ∨ env.settings_load ≠ B_OK then kActionPromptUser
        else defaultAction env, false) := by
    unfold NNHandler.policyAction action_for_team
    by_cases hdir : env.find_settings_directory = B_OK
    · by_cases hload : env.settings_load = B_OK
      · simp only [hdir, hload, ne_eq, not_true_eq_false, if_false, or_self,
          action_for_team_default,
          executable_action_no_match env h.fExecutablePath _ _ _ hnone]
      · simp [hdir, hload]
    · simp [hdir]
  refine ⟨hmain, ?_, ?_, ?_⟩
  · intro hd
    rw [hmain]
    have : defaultAction env = kActionPromptUser := by
      simp [defaultAction, hd, GetParameterValue, action_for_string, strcaseeq]
    split_ifs <;> simp [this]
  · intro hd
    rw [hmain]
    have : defaultAction env = kActionPromptUser := by
      simp [defaultAction, hd, GetParameterValue, action_for_string, strcaseeq]
    split_ifs <;> simp [this]
  · intro value rest hd hbad
    rw [hmain]
    have : defaultAction env = kActionPromptUser := by
      simp [defaultAction, hd, GetParameterValue, hbad]
    split_ifs <;> simp [this]

/-- C13 (amended) at team 42 without rules and without `default_action`. -/
theorem C13_no_rule_gives_default_witness :
    sampleHandler.policyAction sampleEnv = (kActionPromptUser, false) :=
  (C13_no_rule_gives_default sampleEnv sampleHandler (by decide)).2.1 rfl

/-! ## Branches of the handler thread -/

theorem launchesDebugger_append (a b : List Effect) :
    launchesDebugger (a ++ b) = (launchesDebugger a || launchesDebugger b) := by
  simp [launchesDebugger, List.any_append]

theorem coreRequests_append (a b : List Effect) :
    coreRequests (a ++ b) = coreRequests a ++ coreRequests b := by
  simp [coreRequests, List.filterMap_append]

theorem HandleMessage_quiet (env : Env) (h : NNHandler) (message : DebugMessage) :
    launchesDebugger (h._HandleMessage env message).2 = false ∧
    preparesHandover (h._HandleMessage env message).2 = false ∧
    coreRequests (h._HandleMessage env message).2 = [] := by
  unfold NNHandler._HandleMessage
  simp only []
  split_ifs <;> simp [launchesDebugger, preparesHandover, coreRequests]

theorem initialAction_quiet (env : Env) (this : NNHandler) (sched : List WakeEvent)
    (first : LoopResult) (hfirst : this.initialAction env sched = some first) :
    launchesDebugger first.trace = false ∧ preparesHandover first.trace = false ∧
    coreRequests first.trace = [] := by
  unfold NNHandler.initialAction at hfirst
  cases hpop : this._PopMessage sched with
  | none => simp [hpop] at hfirst
  | some popped =>
    simp only [hpop] at hfirst
    by_cases h1 : popped.error = B_OK
    · simp only [h1, if_true] at hfirst
      cases hmsg : popped.message with
      | none => simp [hmsg] at hfirst
      | some message =>
        simp only [hmsg, Option.some.injEq] at hfirst
        subst hfirst
        obtain ⟨q1, q2, q3⟩ := HandleMessage_quiet env popped.handler message
        simp only [launchesDebugger_append, preparesHandover_append, coreRequests_append, q1,
          q2, q3]
        simp [launchesDebugger, preparesHandover, coreRequests]
    · simp only [h1, if_false, Option.some.injEq] at hfirst
      subst hfirst
      simp [launchesDebugger, preparesHandover, coreRequests]

theorem WriteCoreFile_trace (env : Env) (h : NNHandler) :
    (h._WriteCoreFile env).2 = [] ∨
    ∃ path, (h._WriteCoreFile env).2 =
      [Effect.send_debug_message h.fTeam (DebugRequest.write_core_file path)] := by
  unfold NNHandler._WriteCoreFile
  simp only []
  split_ifs
  · exact Or.inl rfl
  · split
    · exact Or.inl rfl
    · exact Or.inl rfl
    · exact Or.inr ⟨_, rfl⟩

theorem coreFilePath_terminates (env : Env) (directoryPath fileBaseName : String) :
    ∀ (rounds index : Nat), 0 < rounds → 1002 ≤ rounds + index →
      coreFilePath env directoryPath fileBaseName rounds index ≠ none := by
  intro rounds
  induction rounds with
  | zero => intro index h0; omega
  | succ rounds ih =>
    intro index _ hsum
    unfold coreFilePath
    simp only []
    rw [show (if index > 0 then fileBaseName ++ "-" ++ toString index else fileBaseName) =
      coreFileName fileBaseName index from rfl]
    split_ifs with h1 h2 h3
    · simp
    · simp
    · simp
    · exact ih (index + 1) (by omega) (by omega)

theorem coreFilePath_mono (env : Env) (directoryPath fileBaseName : String) :
    ∀ (rounds index : Nat) (r : Except status_t String),
      coreFilePath env directoryPath fileBaseName rounds index = some r →
      coreFilePath env directoryPath fileBaseName (rounds + 1) index = some r := by
  intro rounds
  induction rounds with
  | zero => intro index r h; simp [coreFilePath] at h
  | succ rounds ih =>
    intro index r h
    unfold coreFilePath at h ⊢
    simp only [] at h ⊢
    rw [show (if index > 0 then fileBaseName ++ "-" ++ toString index else fileBaseName) =
      coreFileName fileBaseName index from rfl] at h ⊢
    split_ifs at h ⊢ with h1 h2 h3
    · exact h
    · exact h
    · exact h
    · exact ih (index + 1) r h

theorem coreFilePath_extra (env : Env) (directoryPath fileBaseName : String) (extra : Nat) :
    coreFilePath env directoryPath fileBaseName (1002 + extra) 0 =
      coreFilePath env directoryPath fileBaseName 1002 0 := by
  induction extra with
  | zero => rfl
  | succ extra ih =>
    cases hr : coreFilePath env directoryPath fileBaseName 1002 0 with
    | none =>
      exact absurd hr (coreFilePath_terminates env directoryPath fileBaseName 1002 0
        (by omega) (by omega))
    | some r =>
      rw [hr] at ih
      exact coreFilePath_mono env directoryPath fileBaseName (1002 + extra) 0 r ih

theorem coreFilePath_found (env : Env) (directoryPath fileBaseName : String) :
    ∀ (rounds index k : Nat), index ≤ k → k - index < rounds →
      (∀ j, index ≤ j → j ≤ k →
        (env.path_set_to directoryPath (coreFileName fileBaseName j)).1 = B_OK) →
      (∀ j, index ≤ j → j < k → j ≤ 1000 ∧ ¬ coreFree env directoryPath fileBaseName j) →
      coreFree env directoryPath fileBaseName k →
      coreFilePath env directoryPath fileBaseName rounds index =
        some (Except.ok (corePath env directoryPath fileBaseName k)) := by
  intro rounds
  induction rounds with
  | zero => intro index k _ h; omega
  | succ rounds ih =>
    intro index k hle hfuel hset hbusy hfree
    have hs := hset index (le_refl _) hle
    unfold coreFilePath
    simp only []
    rw [show (if index > 0 then fileBaseName ++ "-" ++ toString index else fileBaseName) =
      coreFileName fileBaseName index from rfl]
    rw [if_neg (not_not.mpr hs)]
    by_cases hk : index = k
    · subst hk
      have hfree2 := hfree
      unfold coreFree corePath at hfree2
      rw [if_pos hfree2]
      rfl
    · have hlt : index < k := lt_of_le_of_ne hle hk
      obtain ⟨hsmall, hnot⟩ := hbusy index (le_refl _) hlt
      unfold coreFree corePath at hnot
      rw [if_neg hnot, if_neg (by omega)]
      exact ih (index + 1) k (by omega) (by omega)
        (fun j hj hjk => hset j (by omega) hjk)
        (fun j hj hjk => hbusy j (by omega) hjk) hfree

theorem coreFilePath_exhausted (env : Env) (directoryPath fileBaseName : String) :
    ∀ (rounds index : Nat), index ≤ 1001 → 1001 - index < rounds →
      (∀ j, index ≤ j → j ≤ 1001 →
        (env.path_set_to directoryPath (coreFileName fileBaseName j)).1 = B_OK ∧
        ¬ coreFree env directoryPath fileBaseName j) →
      coreFilePath env directoryPath fileBaseName rounds index =
        some (Except.error B_ERROR) := by
  intro rounds
  induction rounds with
  | zero => intro index _ h; omega
  | succ rounds ih =>
    intro index hle hfuel hall
    obtain ⟨hs, hnot⟩ := hall index (le_refl _) hle
    unfold coreFilePath
    simp only []
    rw [show (if index > 0 then fileBaseName ++ "-" ++ toString index else fileBaseName) =
      coreFileName fileBaseName index from rfl]
    unfold coreFree corePath at hnot
    rw [if_neg (not_not.mpr hs), if_neg hnot]
    by_cases hlast : index > 1000
    · rw [if_pos hlast]
    · rw [if_neg hlast]
      exact ih (index + 1) (by omega) (by omega) (fun j hj hjk => hall j (by omega) hjk)

theorem WriteCoreFile_found (env : Env) (h : NNHandler)
    (hdir : env.find_desktop_directory.1 = B_OK) (filePath : String)
    (hr : coreFilePath env env.find_desktop_directory.2 h.coreBaseName 1002 0 =
      some (Except.ok filePath)) :
    h._WriteCoreFile env =
      (if (env.write_core_file filePath).1 = B_OK then (env.write_core_file filePath).2
        else (env.write_core_file filePath).1,
        [Effect.send_debug_message h.fTeam (DebugRequest.write_core_file filePath)]) := by
  unfold NNHandler._WriteCoreFile
  rw [if_neg (not_not.mpr hdir)]
  simp only []
  rw [show "core-" ++ _LastPathComponent h.fExecutablePath ++ "-" ++ toString h.fTeam =
    h.coreBaseName from rfl, hr]

theorem WriteCoreFile_failed (env : Env) (h : NNHandler)
    (hdir : env.find_desktop_directory.1 = B_OK) (error : status_t)
    (hr : coreFilePath env env.find_desktop_directory.2 h.coreBaseName 1002 0 =
      some (Except.error error)) :
    h._WriteCoreFile env = (error, []) := by
  unfold NNHandler._WriteCoreFile
  rw [if_neg (not_not.mpr hdir)]
  simp only []
  rw [show "core-" ++ _LastPathComponent h.fExecutablePath ++ "-" ++ toString h.fTeam =
    h.coreBaseName from rfl, hr]

theorem WriteCoreFile_no_directory (env : Env) (h : NNHandler)
    (hdir : env.find_desktop_directory.1 ≠ B_OK) :
    h._WriteCoreFile env = (env.find_desktop_directory.1, []) := by
  unfold NNHandler._WriteCoreFile
  rw [if_pos hdir]

/-- C14 fails when `_WriteCoreFile` ends before it has a path: the decision
for team 42 is WriteCoreFile and the desktop directory cannot be found. The
run ends with one terminate request for the team and without any core dump
request. -/
theorem C14_counterexample :
    (sampleHandler.initialAction { rulesEnv with find_desktop_directory := (B_ERROR, "") }
      [WakeEvent.push (sampleMessage B_DEBUGGER_MESSAGE_EXCEPTION_OCCURRED 0)]).map
        (fun first => first.debugAction) = some kActionWriteCoreFile ∧
    (sampleHandler._HandlerThread { rulesEnv with find_desktop_directory := (B_ERROR, "") }
      [WakeEvent.push (sampleMessage B_DEBUGGER_MESSAGE_EXCEPTION_OCCURRED 0)] sampleRoster).map
        (fun res => (coreRequests res.trace, dumpsCore res.trace, kills res.trace)) =
      some ([], false, [42]) := by
  refine ⟨by decide, by decide⟩

/-- C14 (amended): the decision after the first event is WriteCoreFile.
Whatever `_WriteCoreFile` returns, the thread reaches its end; after the
effects of the decision come those of one call of `_WriteCoreFile` and then
one terminate request for the own team, before the handler is removed and
deleted together with the messages still queued. No hand-over is prepared and
no debugger is launched. The core dump is requested once, with the path the
name search found, when the desktop directory is found and the search gives a
path; it is not requested when the desktop directory is not found or the
search ends in an error. -/
theorem C14_core_file_then_kill (env : Env) (this : NNHandler) (sched : List WakeEvent)
    (roster : NNHandlerRoster) (first : LoopResult)
    (hfirst : this.initialAction env sched = some first)
    (hdec : first.debugAction = kActionWriteCoreFile) :
    ∃ res, this._HandlerThread env sched roster = some res ∧
      res.debugAction = kActionKillTeam ∧
      res.trace = first.trace ++ (first.handler._WriteCoreFile env).2
        ++ [Effect.kill_team this.fTeam, Effect.remove_handler this.fTeam]
        ++ first.handler.fMessages.map Effect.delete_message
        ++ [Effect.delete_handler this.addr] ∧
      kills res.trace = [this.fTeam] ∧
      coreRequests res.trace = coreRequests (first.handler._WriteCoreFile env).2 ∧
      (coreRequests res.trace).length ≤ 1 ∧
      preparesHandover res.trace = false ∧ launchesDebugger res.trace = false ∧
      (env.find_desktop_directory.1 ≠ B_OK → coreRequests res.trace = []) ∧
      (env.find_desktop_directory.1 = B_OK → ∀ filePath,
        coreFilePath env env.find_desktop_directory.2 first.handler.coreBaseName 1002 0 =
          some (Except.ok filePath) →
        coreRequests res.trace = [filePath]) ∧
      (env.find_desktop_directory.1 = B_OK → ∀ error,
        coreFilePath env env.find_desktop_directory.2 first.handler.coreBaseName 1002 0 =
          some (Except.error error) →
        coreRequests res.trace = []) := by
  have hteam := (initialAction_spec env this sched first hfirst).2
  obtain ⟨q1, q2, q3⟩ := initialAction_quiet env this sched first hfirst
  have hlast : first.handler.handOver env first.sched first.debugAction =
      some { debugAction := kActionKillTeam, handler := first.handler, sched := first.sched,
             trace := (first.handler._WriteCoreFile env).2 } := by
    rw [hdec]
    unfold NNHandler.handOver
    have h1 : ¬ kActionWriteCoreFile = kActionKillTeam := by decide
    simp only [h1, if_false, if_true]
  have hrun : this._HandlerThread env sched roster =
      some { status := B_OK, debugAction := kActionKillTeam,
             roster := (roster.RemoveHandler this.fTeam).2,
             trace := first.trace ++ (first.handler._WriteCoreFile env).2
               ++ [Effect.kill_team this.fTeam, Effect.remove_handler this.fTeam]
               ++ first.handler.fMessages.map Effect.delete_message
               ++ [Effect.delete_handler this.addr] } := by
    simp [NNHandler._HandlerThread, hfirst, hlast, NNHandler._KillTeam, KillTeam, hteam,
      NNHandler.destructor]
  obtain ⟨_, d2, d3, _, d5⟩ := destructor_quiet first.handler
  unfold NNHandler.destructor at d2 d3 d5
  have hreq : coreRequests (first.trace ++ (first.handler._WriteCoreFile env).2
        ++ [Effect.kill_team this.fTeam, Effect.remove_handler this.fTeam]
        ++ first.handler.fMessages.map Effect.delete_message
        ++ [Effect.delete_handler this.addr]) =
      coreRequests (first.handler._WriteCoreFile env).2 := by
    simp only [coreRequests_append, q3, d5, List.nil_append]
    simp [coreRequests]
  refine ⟨_, hrun, rfl, rfl, ?_, hreq, ?_, ?_, ?_, ?_, ?_, ?_⟩
  · rw [HandlerThread_kills env this sched roster _ hrun]
    simp
  · show (coreRequests (first.trace ++ (first.handler._WriteCoreFile env).2
        ++ [Effect.kill_team this.fTeam, Effect.remove_handler this.fTeam]
        ++ first.handler.fMessages.map Effect.delete_message
        ++ [Effect.delete_handler this.addr])).length ≤ 1
    rw [hreq]
    rcases WriteCoreFile_trace env first.handler with h0 | ⟨path, h0⟩ <;>
      simp [h0, coreRequests]
  · simp only [preparesHandover_append, q2, d3]
    rcases WriteCoreFile_trace env first.handler with h0 | ⟨path, h0⟩ <;>
      simp [h0, preparesHandover]
  · simp only [launchesDebugger_append, q1, d2]
    rcases WriteCoreFile_trace env first.handler with h0 | ⟨path, h0⟩ <;>
      simp [h0, launchesDebugger]
  · intro hdir
    show coreRequests (first.trace ++ (first.handler._WriteCoreFile env).2
        ++ [Effect.kill_team this.fTeam, Effect.remove_handler this.fTeam]
        ++ first.handler.fMessages.map Effect.delete_message
        ++ [Effect.delete_handler this.addr]) = []
    rw [hreq, WriteCoreFile_no_directory env first.handler hdir]
    rfl
  · intro hdir filePath hsearch
    show coreRequests (first.trace ++ (first.handler._WriteCoreFile env).2
        ++ [Effect.kill_team this.fTeam, Effect.remove_handler this.fTeam]
        ++ first.handler.fMessages.map Effect.delete_message
        ++ [Effect.delete_handler this.addr]) = [filePath]
    rw [hreq, WriteCoreFile_found env first.handler hdir filePath hsearch]
    rfl
  · intro hdir error hsearch
    show coreRequests (first.trace ++ (first.handler._WriteCoreFile env).2
        ++ [Effect.kill_team this.fTeam, Effect.remove_handler this.fTeam]
        ++ first.handler.fMessages.map Effect.delete_message
        ++ [Effect.delete_handler this.addr]) = []
    rw [hreq, WriteCoreFile_failed env first.handler hdir error hsearch]
    rfl

/-- C14 (amended) at team 42 under the rule `crasher core`: with the core file
written while a second message is queued, and with a desktop directory that
cannot be found. -/
theorem C14_core_file_then_kill_witness :
    (∃ res, queuedHandler._HandlerThread rulesEnv [] sampleRoster = some res ∧
      res.trace = [Effect.print_stack_trace 421,
        Effect.delete_message (sampleMessage B_DEBUGGER_MESSAGE_EXCEPTION_OCCURRED 0),
        Effect.send_debug_message 42
          (DebugRequest.write_core_file "/boot/home/Desktop/core-crasher-42"),
        Effect.kill_team 42, Effect.remove_handler 42,
        Effect.delete_message (sampleMessage 12 1), Effect.delete_handler 1000] ∧
      coreRequests res.trace = ["/boot/home/Desktop/core-crasher-42"]) ∧
    (∃ res, sampleHandler._HandlerThread
        { rulesEnv with find_desktop_directory := (B_ERROR, "") }
        [WakeEvent.push (sampleMessage B_DEBUGGER_MESSAGE_EXCEPTION_OCCURRED 0)] sampleRoster =
        some res ∧
      kills res.trace = [42] ∧ launchesDebugger res.trace = false ∧
      coreRequests res.trace = []) :=
  ⟨(C14_core_file_then_kill rulesEnv queuedHandler [] sampleRoster
      { debugAction := kActionWriteCoreFile,
        handler := { sampleHandler with fMessages := [sampleMessage 12 1], semCount := 1 },
        sched := [],
        trace := [Effect.print_stack_trace 421,
          Effect.delete_message (sampleMessage B_DEBUGGER_MESSAGE_EXCEPTION_OCCURRED 0)] }
      rfl rfl).imp (fun _ hres => ⟨hres.1, hres.2.2.1.trans (by decide),
        hres.2.2.2.2.2.2.2.2.2.1 rfl "/boot/home/Desktop/core-crasher-42" rfl⟩),
    (C14_core_file_then_kill { rulesEnv with find_desktop_directory := (B_ERROR, "") }
      sampleHandler
      [WakeEvent.push (sampleMessage B_DEBUGGER_MESSAGE_EXCEPTION_OCCURRED 0)] sampleRoster
      { debugAction := kActionWriteCoreFile, handler := sampleHandler, sched := [],
        trace := [Effect.print_stack_trace 421,
          Effect.delete_message (sampleMessage B_DEBUGGER_MESSAGE_EXCEPTION_OCCURRED 0)] }
      rfl rfl).imp (fun _ hres => ⟨hres.1, hres.2.2.2.1, hres.2.2.2.2.2.2.2.1,
        hres.2.2.2.2.2.2.2.2.1 (by decide)⟩)⟩

/-- C15: the decision after the first event is Debug or SaveReport and
`_EnterDebugger` fails (returns a negative value). The thread then pops no
further message (mailbox and schedule are as after the first pop) and reaches
its end with exactly one terminate request, for the own team, after the
effects of `_EnterDebugger`; the handler is then removed and deleted, which
releases the messages still queued. When it is the prepare-handover request
that fails, `_EnterDebugger` returns its error after that request alone: no
debugger is launched. -/
theorem C15_failed_launch_kills (env : Env) (this : NNHandler) (sched : List WakeEvent)
    (roster : NNHandlerRoster) (first : LoopResult)
    (hfirst : this.initialAction env sched = some first)
    (hdec : first.debugAction = kActionDebugTeam ∨ first.debugAction = kActionSaveReportTeam)
    (hfail : (first.handler._EnterDebugger env
      (decide (first.debugAction = kActionSaveReportTeam))).1 < 0) :
    first.handler.handOver env first.sched first.debugAction =
      some { debugAction := kActionKillTeam, handler := first.handler, sched := first.sched,
             trace := (first.handler._EnterDebugger env
               (decide (first.debugAction = kActionSaveReportTeam))).2 } ∧
    (∃ res, this._HandlerThread env sched roster = some res ∧
      res.debugAction = kActionKillTeam ∧
      res.trace = first.trace ++ (first.handler._EnterDebugger env
          (decide (first.debugAction = kActionSaveReportTeam))).2
        ++ [Effect.kill_team this.fTeam, Effect.remove_handler this.fTeam]
        ++ first.handler.fMessages.map Effect.delete_message
        ++ [Effect.delete_handler this.addr] ∧
      kills res.trace = [this.fTeam] ∧
      (env.prepare_handover ≠ B_OK → launchesDebugger res.trace = false)) ∧
    (env.prepare_handover ≠ B_OK →
      first.handler._EnterDebugger env (decide (first.debugAction = kActionSaveReportTeam)) =
        (env.prepare_handover,
          [Effect.send_debug_message first.handler.fTeam DebugRequest.prepare_handover])) := by
  have hteam := (initialAction_spec env this sched first hfirst).2
  obtain ⟨q1, q2, q3⟩ := initialAction_quiet env this sched first hfirst
  have h1 : first.debugAction ≠ kActionKillTeam := by
    rcases hdec with h | h <;> rw [h] <;> decide
  have h2 : first.debugAction ≠ kActionWriteCoreFile := by
    rcases hdec with h | h <;> rw [h] <;> decide
  have hlast := handOver_launch_failed env first.handler first.sched first.debugAction h1 h2
    hfail
  have hprep : env.prepare_handover ≠ B_OK →
      first.handler._EnterDebugger env (decide (first.debugAction = kActionSaveReportTeam)) =
        (env.prepare_handover,
          [Effect.send_debug_message first.handler.fTeam DebugRequest.prepare_handover]) := by
    intro hp
    simp [NNHandler._EnterDebugger, hp]
  have hrun : this._HandlerThread env sched roster =
      some { status := B_OK, debugAction := kActionKillTeam,
             roster := (roster.RemoveHandler this.fTeam).2,
             trace := first.trace ++ (first.handler._EnterDebugger env
                 (decide (first.debugAction = kActionSaveReportTeam))).2
               ++ [Effect.kill_team this.fTeam, Effect.remove_handler this.fTeam]
               ++ first.handler.fMessages.map Effect.delete_message
               ++ [Effect.delete_handler this.addr] } := by
    simp [NNHandler._HandlerThread, hfirst, hlast, NNHandler._KillTeam, KillTeam, hteam,
      NNHandler.destructor]
  refine ⟨hlast, ⟨_, hrun, rfl, rfl, ?_, ?_⟩, hprep⟩
  · rw [HandlerThread_kills env this sched roster _ hrun]
    simp
  · intro hp
    have hq := (destructor_quiet first.handler).2.1
    unfold NNHandler.destructor at hq
    simp only [launchesDebugger_append, q1, hprep hp, hq]
    simp [launchesDebugger]

/-- C15 at `queuedHandler`: the user chooses Debug and the debug nub refuses
the hand-over; the second message of the queue is not popped, it is released
with the handler. -/
theorem C15_failed_launch_kills_witness :
    ∃ res, queuedHandler._HandlerThread goneEnv [] sampleRoster = some res ∧
      res.debugAction = kActionKillTeam ∧ kills res.trace = [42] ∧
      launchesDebugger res.trace = false ∧
      res.trace.drop 7 =
        [Effect.send_debug_message 42 DebugRequest.prepare_handover, Effect.kill_team 42,
         Effect.remove_handler 42, Effect.delete_message (sampleMessage 12 1),
         Effect.delete_handler 1000] :=
  (C15_failed_launch_kills goneEnv queuedHandler [] sampleRoster
    { debugAction := kActionDebugTeam,
      handler := { sampleHandler with fMessages := [sampleMessage 12 1], semCount := 1 },
      sched := [],
      trace := [Effect.print_stack_trace 421, Effect.init_gui, Effect.notify_app_server 42,
        Effect.notify_registrar 42 true false, Effect.alert_go "crasher",
        Effect.notify_registrar 42 false true,
        Effect.delete_message (sampleMessage B_DEBUGGER_MESSAGE_EXCEPTION_OCCURRED 0)] }
    rfl (Or.inl rfl) (by decide)).2.1.imp
    (fun _ hres => ⟨hres.1, hres.2.1, hres.2.2.2.1, hres.2.2.2.2 (by decide),
      by rw [hres.2.2.1]; decide⟩)

theorem waitMessage_not_interrupted (h : NNHandler) (sched : List WakeEvent)
    (popped : PopResult) (hpop : h.waitMessage sched = some popped) :
    popped.error ≠ B_INTERRUPTED := by
  induction sched with
  | nil => simp [NNHandler.waitMessage] at hpop
  | cons ev rest ih =>
    cases ev with
    | push m =>
      simp only [NNHandler.waitMessage, Option.some.injEq] at hpop
      subst hpop
      exact (show ¬ B_OK = B_INTERRUPTED by decide)
    | error e neg =>
      simp only [NNHandler.waitMessage] at hpop
      split_ifs at hpop with h1 h2
      · exact ih hpop
      · simp only [Option.some.injEq] at hpop
        subst hpop
        exact h1
      · simp only [Option.some.injEq] at hpop
        subst hpop
        exact (show ¬ B_OK = B_INTERRUPTED by decide)

theorem PopMessage_not_interrupted (h : NNHandler) (sched : List WakeEvent)
    (popped : PopResult) (hpop : h._PopMessage sched = some popped) :
    popped.error ≠ B_INTERRUPTED := by
  unfold NNHandler._PopMessage at hpop
  split_ifs at hpop
  · simp only [Option.some.injEq] at hpop
    subst hpop
    exact (show ¬ B_BAD_SEM_ID = B_INTERRUPTED by decide)
  · simp only [Option.some.injEq] at hpop
    subst hpop
    exact (show ¬ B_OK = B_INTERRUPTED by decide)
  · exact waitMessage_not_interrupted h sched popped hpop

/-- C16: the initial `_PopMessage` of the thread returns an error. That error
is never `B_INTERRUPTED`, which `_PopMessage` answers by waiting again. The
thread then skips `_HandleMessage`: its effects are one terminate request for
the own team, the removal of the handler and its deletion, which releases the
messages the failed pop left in the queue; they are the same for every policy,
prompt and system (no stack trace, no policy lookup, no prompt). -/
theorem C16_failed_initial_pop (env : Env) (this : NNHandler) (sched : List WakeEvent)
    (roster : NNHandlerRoster) (popped : PopResult)
    (hpop : this._PopMessage sched = some popped) (herr : popped.error ≠ B_OK) :
    popped.error ≠ B_INTERRUPTED ∧
    (∀ (h : NNHandler) (rest : List WakeEvent) (neg : B_INTERRUPTED < 0),
      h.waitMessage (WakeEvent.error B_INTERRUPTED neg :: rest) = h.waitMessage rest) ∧
    this.initialAction env sched =
      some { debugAction := kActionKillTeam, handler := popped.handler,
             sched := popped.sched, trace := [] } ∧
    this._HandlerThread env sched roster =
      some { status := B_OK, debugAction := kActionKillTeam,
             roster := (roster.RemoveHandler this.fTeam).2,
             trace := [Effect.kill_team this.fTeam, Effect.remove_handler this.fTeam]
               ++ popped.handler.fMessages.map Effect.delete_message
               ++ [Effect.delete_handler this.addr] } ∧
    (∀ other : Env, this._HandlerThread other sched roster =
      this._HandlerThread env sched roster) := by
  have hteam := (PopMessage_spec this sched popped hpop).1
  have hfirst : ∀ e : Env, this.initialAction e sched =
      some { debugAction := kActionKillTeam, handler := popped.handler,
             sched := popped.sched, trace := [] } := by
    intro e
    simp [NNHandler.initialAction, hpop, herr]
  have hrun : ∀ e : Env, this._HandlerThread e sched roster =
      some { status := B_OK, debugAction := kActionKillTeam,
             roster := (roster.RemoveHandler this.fTeam).2,
             trace := [Effect.kill_team this.fTeam, Effect.remove_handler this.fTeam]
               ++ popped.handler.fMessages.map Effect.delete_message
               ++ [Effect.delete_handler this.addr] } := by
    intro e
    simp [NNHandler._HandlerThread, hfirst e, NNHandler.handOver, NNHandler._KillTeam, KillTeam,
      hteam, NNHandler.destructor]
  refine ⟨PopMessage_not_interrupted this sched popped hpop, ?_, hfirst env, hrun env, ?_⟩
  · intro h rest neg
    simp [NNHandler.waitMessage]
  · intro other
    rw [hrun other, hrun env]

/-- C16 at team 42: the wait is interrupted once and then fails because the
semaphore is gone; and a handler without a semaphore, whose pop fails at once
and whose queued message is released with it. -/
theorem C16_failed_initial_pop_witness :
    sampleHandler._HandlerThread sampleEnv
        [WakeEvent.error B_INTERRUPTED (by decide), WakeEvent.error B_BAD_SEM_ID (by decide)]
        sampleRoster =
      some { status := B_OK, debugAction := kActionKillTeam,
             roster := (sampleRoster.RemoveHandler sampleHandler.fTeam).2,
             trace := [Effect.kill_team 42, Effect.remove_handler 42] ++ []
               ++ [Effect.delete_handler 1000] } ∧
    semlessHandler._HandlerThread sampleEnv [] sampleRoster =
      some { status := B_OK, debugAction := kActionKillTeam,
             roster := (sampleRoster.RemoveHandler 42).2,
             trace := [Effect.kill_team 42, Effect.remove_handler 42]
               ++ [Effect.delete_message (sampleMessage 12 1)]
               ++ [Effect.delete_handler 1000] } :=
  ⟨(C16_failed_initial_pop sampleEnv sampleHandler
      [WakeEvent.error B_INTERRUPTED (by decide), WakeEvent.error B_BAD_SEM_ID (by decide)]
      sampleRoster
      { error := B_BAD_SEM_ID, message := none, handler := sampleHandler, sched := [] }
      rfl (by decide)).2.2.2.1,
    (C16_failed_initial_pop sampleEnv semlessHandler [] sampleRoster
      { error := B_BAD_SEM_ID, message := none, handler := semlessHandler, sched := [] }
      rfl (by decide)).2.2.2.1⟩

/-! ## Creation of a handler -/

theorem mapAssign_absent (m : List (team_id × NNHandler)) (team : team_id)
    (value : NNHandler) (hnone : mapFind m team = none) :
    mapAssign m team value = m ++ [(team, value)] := by
  induction m with
  | nil => rfl
  | cons e m ih =>
    obtain ⟨k, v⟩ := e
    by_cases hk : k = team
    · simp [mapFind, hk] at hnone
    · simp only [mapFind, hk, if_false] at hnone
      simp [mapAssign, hk, ih hnone]

theorem mapStore_fresh (m : List (team_id × NNHandler)) (stored : NNHandler)
    (hfresh : ∀ e ∈ m, e.2.addr ≠ stored.addr) : mapStore m stored = m := by
  induction m with
  | nil => rfl
  | cons e m ih =>
    obtain ⟨k, v⟩ := e
    have hv : ¬ v.addr = stored.addr := hfresh (k, v) (List.mem_cons_self _ _)
    rw [mapStore_cons, if_neg hv, ih (fun e he => hfresh e (List.mem_cons_of_mem _ he))]

theorem mapStore_append (m1 m2 : List (team_id × NNHandler)) (stored : NNHandler) :
    mapStore (m1 ++ m2) stored = mapStore m1 stored ++ mapStore m2 stored := by
  simp [mapStore]

theorem mapFind_append_absent (m : List (team_id × NNHandler)) (team t : team_id)
    (value : NNHandler) (hnone : mapFind m team = none) :
    mapFind (m ++ [(team, value)]) t = if t = team then some value else mapFind m t := by
  induction m with
  | nil =>
    by_cases ht : t = team
    · simp [mapFind, ht]
    · have ht2 : ¬ team = t := fun h => ht h.symm
      simp [mapFind, ht, ht2]
  | cons e m ih =>
    obtain ⟨k, v⟩ := e
    by_cases hk : k = team
    · simp [mapFind, hk] at hnone
    · simp only [mapFind, hk, if_false] at hnone
      by_cases hkt : k = t
      · subst hkt
        simp [mapFind, hk]
      · simp only [List.cons_append, mapFind, hkt, if_false]
        exact ih hnone

theorem constructed_append (a b : List Effect) :
    constructed (a ++ b) = constructed a ++ constructed b := by
  simp [constructed, List.filterMap_append]

theorem constructed_Init (env : InitEnv) (h : NNHandler) (nubPort : port_id) :
    constructed (NNHandler.Init env h nubPort).2.2 = [] := by
  unfold NNHandler.Init
  simp only []
  split_ifs <;> simp [constructed]

theorem Init_ok (env : InitEnv) (h : NNHandler) (nubPort : port_id)
    (hinit : (NNHandler.Init env h nubPort).1 = B_OK) :
    ¬ (NNHandler.Init env h nubPort).2.1.fMessageCountSem < 0 ∧
    (NNHandler.Init env h nubPort).2.1.semCount = 0 := by
  unfold NNHandler.Init at hinit ⊢
  by_cases h1 : env.get_team_info.1 = B_OK
  · by_cases h2 : env.init_debug_context = B_OK
    · by_cases h3 : env.create_sem < 0
      · simp only [h1, h2, h3, ne_eq, not_true_eq_false, if_false, if_true] at hinit
        exact absurd hinit (ne_of_lt h3)
      · by_cases h4 : env.spawn_thread < 0
        · simp only [h1, h2, h3, h4, ne_eq, not_true_eq_false, if_false, if_true] at hinit
          exact absurd hinit (ne_of_lt h4)
        · simp only [h1, h2, h3, h4, ne_eq, not_true_eq_false, if_false, not_false_eq_true,
            and_self]
    · simp only [h1, h2, ne_eq, not_true_eq_false, if_false, not_false_eq_true, if_true] at hinit
  · simp only [h1, ne_eq, not_false_eq_true, if_true] at hinit

/-- C18: the team of an event has no registered handler, `new` gives an
address no registered handler has, and `NNHandler::Init` succeeds. Then
`DispatchMessage` returns `B_OK`, constructs exactly that one handler, and the
registry afterwards is the registry before with one more entry: the team maps
to the new handler, whose queue holds exactly the event and whose semaphore
count is one. The entries of all other teams are as they were. -/
theorem C18_dispatch_creates_handler (env : InitEnv) (r : NNHandlerRoster)
    (message : DebugMessage) (addr : Nat)
    (hnone : r.HandlerFor message.team = none) (hnew : env.new_handler = some addr)
    (hfresh : ∀ e ∈ r.fHandlers, e.2.addr ≠ addr)
    (hinit : (NNHandler.Init env (NNHandler.new addr message.team) message.nub_port).1 = B_OK) :
    (r.DispatchMessage env (some message)).status = B_OK ∧
    constructed (r.DispatchMessage env (some message)).trace = [addr] ∧
    (r.DispatchMessage env (some message)).roster.fHandlers =
      r.fHandlers ++ [(message.team,
        { (NNHandler.Init env (NNHandler.new addr message.team) message.nub_port).2.1 with
          fMessages := [message], semCount := 1 })] ∧
    (r.DispatchMessage env (some message)).roster.HandlerFor message.team =
      some { (NNHandler.Init env (NNHandler.new addr message.team) message.nub_port).2.1 with
        fMessages := [message], semCount := 1 } ∧
    (NNHandler.Init env (NNHandler.new addr message.team) message.nub_port).2.1.addr = addr ∧
    (NNHandler.Init env (NNHandler.new addr message.team) message.nub_port).2.1.fTeam =
      message.team ∧
    (∀ t : team_id, t ≠ message.team →
      (r.DispatchMessage env (some message)).roster.HandlerFor t = r.HandlerFor t) := by
  have hfind : mapFind r.fHandlers message.team = none := by
    rw [← HandlerFor_eq]; exact hnone
  obtain ⟨f1, f2, f3⟩ := Init_fields env (NNHandler.new addr message.team) message.nub_port
  obtain ⟨o1, o2⟩ := Init_ok env (NNHandler.new addr message.team) message.nub_port hinit
  have f1b : (NNHandler.Init env (NNHandler.new addr message.team) message.nub_port).2.1.fTeam =
      message.team := f1
  have f2b : (NNHandler.Init env (NNHandler.new addr message.team) message.nub_port).2.1.addr =
      addr := f2
  have f3b : (NNHandler.Init env (NNHandler.new addr message.team)
      message.nub_port).2.1.fMessages = [] := f3
  have hpush : ((NNHandler.Init env (NNHandler.new addr message.team)
      message.nub_port).2.1.PushMessage message).2 =
      { (NNHandler.Init env (NNHandler.new addr message.team) message.nub_port).2.1 with
        fMessages := [message], semCount := 1 } := by
    simp [NNHandler.PushMessage, release_sem, o1, o2, f3b]
  have hroster : (r.DispatchMessage env (some message)).roster.fHandlers =
      r.fHandlers ++ [(message.team,
        { (NNHandler.Init env (NNHandler.new addr message.team) message.nub_port).2.1 with
          fMessages := [message], semCount := 1 })] := by
    simp only [NNHandlerRoster.DispatchMessage, hnone, hnew, hinit, ne_eq, not_true_eq_false,
      if_false, NNHandlerRoster.AddHandler, Bool.not_true, Bool.false_eq_true, hpush,
      NNHandler.Team, f1b]
    rw [mapAssign_absent _ _ _ hfind, mapStore_append, mapStore_fresh]
    · simp [mapStore]
    · intro e he
      simpa [f2b] using hfresh e he
  refine ⟨?_, ?_, hroster, ?_, f2b, f1b, ?_⟩
  · simp [NNHandlerRoster.DispatchMessage, hnone, hnew, hinit, NNHandlerRoster.AddHandler]
  · simp only [NNHandlerRoster.DispatchMessage, hnone, hnew, hinit, ne_eq, not_true_eq_false,
      if_false, NNHandlerRoster.AddHandler, Bool.not_true, Bool.false_eq_true,
      constructed_append, constructed_Init, List.append_nil]
    rfl
  · rw [HandlerFor_eq, hroster, mapFind_append_absent _ _ _ _ hfind]
    simp
  · intro t ht
    rw [HandlerFor_eq, HandlerFor_eq, hroster, mapFind_append_absent _ _ _ _ hfind]
    simp [ht]

/-- C18 at `smallRoster` and the first event of team 42. -/
theorem C18_dispatch_creates_handler_witness :
    (smallRoster.DispatchMessage workingInit
      (some (sampleMessage B_DEBUGGER_MESSAGE_EXCEPTION_OCCURRED 0))).status = B_OK ∧
    (smallRoster.DispatchMessage workingInit
      (some (sampleMessage B_DEBUGGER_MESSAGE_EXCEPTION_OCCURRED 0))).roster.fHandlers =
      [(7, otherHandler),
       (42, { addr := 2000,
              fMessages := [sampleMessage B_DEBUGGER_MESSAGE_EXCEPTION_OCCURRED 0],
              fMessageCountSem := 5, semCount := 1, fTeam := 42, fTeamInfoArgs := "crasher",
              fExecutablePath := "/boot/home/apps/crasher", fHandlerThread := 77,
              nubPort := 9 })] :=
  ⟨(C18_dispatch_creates_handler workingInit smallRoster
      (sampleMessage B_DEBUGGER_MESSAGE_EXCEPTION_OCCURRED 0) 2000 (by decide) rfl (by decide)
      (by decide)).1,
    (C18_dispatch_creates_handler workingInit smallRoster
      (sampleMessage B_DEBUGGER_MESSAGE_EXCEPTION_OCCURRED 0) 2000 (by decide) rfl (by decide)
      (by decide)).2.2.1.trans (by decide)⟩

/-! ## The listener -/

theorem Listener_spec (sys : Nat → InitEnv) :
    ∀ (reads : List PortRead) (n : Nat) (roster : NNHandlerRoster),
      (NN._Listener sys false reads n roster).dispatched =
        ((reads.takeWhile (fun read =>
          decide (read.bytesRead = B_INTERRUPTED) || decide (0 ≤ read.bytesRead))).filter
            (fun read => decide (0 ≤ read.bytesRead))).map PortRead.message ∧
      (NN._Listener sys false reads n roster).outcome =
        if reads.all (fun read =>
          decide (read.bytesRead = B_INTERRUPTED) || decide (0 ≤ read.bytesRead))
        then ListenerEnd.waiting else ListenerEnd.exited 1 := by
  intro reads
  induction reads with
  | nil => intro n roster; simp [NN._Listener]
  | cons read rest ih =>
    intro n roster
    by_cases h1 : read.bytesRead = B_INTERRUPTED
    · have hneg : ¬ (0 : Int) ≤ read.bytesRead := by rw [h1]; decide
      simp only [NN._Listener, Bool.false_eq_true, if_false, h1, if_true, List.takeWhile_cons,
        decide_True, Bool.true_or, List.filter_cons, List.all_cons, Bool.true_and]
      have hdec : decide ((0 : Int) ≤ B_INTERRUPTED) = false := by decide
      simp only [hdec, Bool.false_eq_true, if_false]
      exact ih n roster
    · by_cases h2 : read.bytesRead < 0
      · have hneg : ¬ (0 : Int) ≤ read.bytesRead := not_le.mpr h2
        simp [NN._Listener, h1, h2, hneg]
      · have hpos : (0 : Int) ≤ read.bytesRead := not_lt.mp h2
        obtain ⟨i1, i2⟩ := ih (n + 1)
          (roster.DispatchMessage (sys n) (some read.message)).roster
        simp [NN._Listener, h1, h2, hpos, i1, i2]

theorem Listener_dispatchAll (sys : Nat → InitEnv) :
    ∀ (reads : List PortRead) (n : Nat) (roster : NNHandlerRoster),
      ((NN._Listener sys false reads n roster).roster,
        (NN._Listener sys false reads n roster).trace) =
      dispatchAll sys (NN._Listener sys false reads n roster).dispatched n roster := by
  intro reads
  induction reads with
  | nil => intro n roster; simp [NN._Listener, dispatchAll]
  | cons read rest ih =>
    intro n roster
    by_cases h1 : read.bytesRead = B_INTERRUPTED
    · simp only [NN._Listener, Bool.false_eq_true, if_false, h1, if_true]
      exact ih n roster
    · by_cases h2 : read.bytesRead < 0
      · simp [NN._Listener, h1, h2, dispatchAll]
      · have hstep := ih (n + 1) (roster.DispatchMessage (sys n) (some read.message)).roster
        simp only [NN._Listener, Bool.false_eq_true, if_false, h1, h2, dispatchAll]
        rw [← hstep]

/-- C19: `NN::_Listener` over any sequence of results of `read_port`. A result
`B_INTERRUPTED` is read again: the run goes on with the next result, nothing
dispatched. Another negative result ends the run with `exit(1)` and nothing
dispatched, whatever follows. A non-negative result gives one
`DispatchMessage` call with the message that carries the received code, at the
head of the calls the later results give. So the calls are, in order, the
non-negative results before the first negative result that is not
`B_INTERRUPTED`; the registry and the effects of the run are those of these
`DispatchMessage` calls made in turn. -/
theorem C19_listener_dispatch :
    (∀ (sys : Nat → InitEnv) (read : PortRead) (rest : List PortRead) (n : Nat)
        (roster : NNHandlerRoster),
      read.bytesRead = B_INTERRUPTED →
      NN._Listener sys false (read :: rest) n roster = NN._Listener sys false rest n roster) ∧
    (∀ (sys : Nat → InitEnv) (read : PortRead) (rest : List PortRead) (n : Nat)
        (roster : NNHandlerRoster),
      read.bytesRead < 0 → read.bytesRead ≠ B_INTERRUPTED →
      NN._Listener sys false (read :: rest) n roster =
        { outcome := ListenerEnd.exited 1, dispatched := [], roster := roster, trace := [] }) ∧
    (∀ (sys : Nat → InitEnv) (read : PortRead) (rest : List PortRead) (n : Nat)
        (roster : NNHandlerRoster),
      0 ≤ read.bytesRead →
      read.message.fCode = read.code ∧
      (NN._Listener sys false (read :: rest) n roster).dispatched =
        read.message :: (NN._Listener sys false rest (n + 1)
          (roster.DispatchMessage (sys n) (some read.message)).roster).dispatched ∧
      (NN._Listener sys false (read :: rest) n roster).outcome =
        (NN._Listener sys false rest (n + 1)
          (roster.DispatchMessage (sys n) (some read.message)).roster).outcome ∧
      (NN._Listener sys false (read :: rest) n roster).roster =
        (NN._Listener sys false rest (n + 1)
          (roster.DispatchMessage (sys n) (some read.message)).roster).roster ∧
      (NN._Listener sys false (read :: rest) n roster).trace =
        (roster.DispatchMessage (sys n) (some read.message)).trace ++
          (NN._Listener sys false rest (n + 1)
            (roster.DispatchMessage (sys n) (some read.message)).roster).trace) ∧
    (∀ (sys : Nat → InitEnv) (reads : List PortRead) (n : Nat) (roster : NNHandlerRoster),
      (NN._Listener sys false reads n roster).dispatched =
        ((reads.takeWhile (fun read =>
          decide (read.bytesRead = B_INTERRUPTED) || decide (0 ≤ read.bytesRead))).filter
            (fun read => decide (0 ≤ read.bytesRead))).map PortRead.message ∧
      (NN._Listener sys false reads n roster).outcome =
        (if reads.all (fun read =>
          decide (read.bytesRead = B_INTERRUPTED) || decide (0 ≤ read.bytesRead))
        then ListenerEnd.waiting else ListenerEnd.exited 1) ∧
      ((NN._Listener sys false reads n roster).roster,
        (NN._Listener sys false reads n roster).trace) =
      dispatchAll sys (NN._Listener sys false reads n roster).dispatched n roster) := by
  refine ⟨?_, ?_, ?_, fun sys reads n roster =>
    ⟨(Listener_spec sys reads n roster).1, (Listener_spec sys reads n roster).2,
      Listener_dispatchAll sys reads n roster⟩⟩
  · intro sys read rest n roster h1
    simp [NN._Listener, h1]
  · intro sys read rest n roster h2 h1
    simp [NN._Listener, h1, h2]
  · intro sys read rest n roster hpos
    have h2 : ¬ read.bytesRead < 0 := not_lt.mpr hpos
    have h1 : ¬ read.bytesRead = B_INTERRUPTED := by
      intro h
      rw [h] at hpos
      exact absurd hpos (by decide)
    simp [NN._Listener, h1, h2, PortRead.message]

/-- C19 at six reads: interrupted, exception, interrupted, handed-over, an
error, debugger call. Two messages are dispatched and the service exits; the
first dispatch creates the handler of team 42, which holds both messages at
the end. -/
theorem C19_listener_dispatch_witness :
    (NN._Listener (fun _ => workingInit) false
      [sampleRead B_INTERRUPTED 0, sampleRead 16 B_DEBUGGER_MESSAGE_EXCEPTION_OCCURRED,
       sampleRead B_INTERRUPTED 0, sampleRead 16 B_DEBUGGER_MESSAGE_HANDED_OVER,
       sampleRead B_ERROR 0, sampleRead 16 B_DEBUGGER_MESSAGE_DEBUGGER_CALL]
      0 smallRoster).dispatched =
      [sampleMessage B_DEBUGGER_MESSAGE_EXCEPTION_OCCURRED 0,
       sampleMessage B_DEBUGGER_MESSAGE_HANDED_OVER 0] ∧
    (NN._Listener (fun _ => workingInit) false
      [sampleRead B_INTERRUPTED 0, sampleRead 16 B_DEBUGGER_MESSAGE_EXCEPTION_OCCURRED,
       sampleRead B_INTERRUPTED 0, sampleRead 16 B_DEBUGGER_MESSAGE_HANDED_OVER,
       sampleRead B_ERROR 0, sampleRead 16 B_DEBUGGER_MESSAGE_DEBUGGER_CALL]
      0 smallRoster).outcome = ListenerEnd.exited 1 ∧
    NN._Listener (fun _ => workingInit) false
      [sampleRead B_ERROR 0, sampleRead 16 B_DEBUGGER_MESSAGE_DEBUGGER_CALL] 0 smallRoster =
      { outcome := ListenerEnd.exited 1, dispatched := [], roster := smallRoster,
        trace := [] } ∧
    (((NN._Listener (fun _ => workingInit) false
      [sampleRead B_INTERRUPTED 0, sampleRead 16 B_DEBUGGER_MESSAGE_EXCEPTION_OCCURRED,
       sampleRead B_INTERRUPTED 0, sampleRead 16 B_DEBUGGER_MESSAGE_HANDED_OVER,
       sampleRead B_ERROR 0, sampleRead 16 B_DEBUGGER_MESSAGE_DEBUGGER_CALL]
      0 smallRoster).roster.HandlerFor 42).map (fun handler => handler.fMessages),
     constructed (NN._Listener (fun _ => workingInit) false
      [sampleRead B_INTERRUPTED 0, sampleRead 16 B_DEBUGGER_MESSAGE_EXCEPTION_OCCURRED,
       sampleRead B_INTERRUPTED 0, sampleRead 16 B_DEBUGGER_MESSAGE_HANDED_OVER,
       sampleRead B_ERROR 0, sampleRead 16 B_DEBUGGER_MESSAGE_DEBUGGER_CALL]
      0 smallRoster).trace) =
      (some [sampleMessage B_DEBUGGER_MESSAGE_EXCEPTION_OCCURRED 0,
         sampleMessage B_DEBUGGER_MESSAGE_HANDED_OVER 0], [2000]) :=
  ⟨((C19_listener_dispatch.2.2.2 (fun _ => workingInit)
      [sampleRead B_INTERRUPTED 0, sampleRead 16 B_DEBUGGER_MESSAGE_EXCEPTION_OCCURRED,
       sampleRead B_INTERRUPTED 0, sampleRead 16 B_DEBUGGER_MESSAGE_HANDED_OVER,
       sampleRead B_ERROR 0, sampleRead 16 B_DEBUGGER_MESSAGE_DEBUGGER_CALL]
      0 smallRoster).1).trans (by decide),
    ((C19_listener_dispatch.2.2.2 (fun _ => workingInit)
      [sampleRead B_INTERRUPTED 0, sampleRead 16 B_DEBUGGER_MESSAGE_EXCEPTION_OCCURRED,
       sampleRead B_INTERRUPTED 0, sampleRead 16 B_DEBUGGER_MESSAGE_HANDED_OVER,
       sampleRead B_ERROR 0, sampleRead 16 B_DEBUGGER_MESSAGE_DEBUGGER_CALL]
      0 smallRoster).2.1).trans (by decide),
    C19_listener_dispatch.2.1 (fun _ => workingInit) (sampleRead B_ERROR 0)
      [sampleRead 16 B_DEBUGGER_MESSAGE_DEBUGGER_CALL] 0 smallRoster (by decide) (by decide),
    (congrArg (fun p : NNHandlerRoster × List Effect =>
        ((p.1.HandlerFor 42).map (fun handler => handler.fMessages), constructed p.2))
      (C19_listener_dispatch.2.2.2 (fun _ => workingInit)
        [sampleRead B_INTERRUPTED 0, sampleRead 16 B_DEBUGGER_MESSAGE_EXCEPTION_OCCURRED,
         sampleRead B_INTERRUPTED 0, sampleRead 16 B_DEBUGGER_MESSAGE_HANDED_OVER,
         sampleRead B_ERROR 0, sampleRead 16 B_DEBUGGER_MESSAGE_DEBUGGER_CALL]
        0 smallRoster).2.2).trans (by decide)⟩

/-! ## The prompt -/

/-- C20 fails for a process-deleted event: the policy of team 42 is
PromptUser, the prompt can be shown and would give Kill, but `_HandleMessage`
returns `kActionDebugTeam` without showing it; and under the rule
`crasher kill` it returns `kActionDebugTeam` instead of the policy
decision. -/
theorem C20_counterexample :
    sampleHandler._IsGUIServer = false ∧
    (sampleHandler.policyAction { sampleEnv with alert_go := kActionKillTeam }).1 =
      kActionPromptUser ∧
    _AreGUIServersAlive { sampleEnv with alert_go := kActionKillTeam } = true ∧
    sampleHandler._HandleMessage { sampleEnv with alert_go := kActionKillTeam }
      (sampleMessage B_DEBUGGER_MESSAGE_TEAM_DELETED 0) = (kActionDebugTeam, []) ∧
    (sampleHandler.policyAction killRuleEnv).1 = kActionKillTeam ∧
    (sampleHandler._HandleMessage killRuleEnv
      (sampleMessage B_DEBUGGER_MESSAGE_TEAM_DELETED 0)).1 = kActionDebugTeam := by
  refine ⟨by decide, by decide, by decide, by decide, by decide, by decide⟩

/-- C20 (amended): for a non-privileged target and an event that is not
process-deleted. When the policy decision is PromptUser and the prompt can be
shown (GUI servers alive, `_InitGUI` succeeds), `_HandleMessage` shows it and
returns its result, Kill for a negative result; with the results the spec
gives the prompt, the decision is Kill, Debug or SaveReport. When the policy
decision is not PromptUser, the prompt is not shown and the policy decision is
returned unchanged. -/
theorem C20_prompt_decision (env : Env) (h : NNHandler) (message : DebugMessage)
    (hgui : h._IsGUIServer = false)
    (hcode : message.fCode ≠ B_DEBUGGER_MESSAGE_TEAM_DELETED) :
    ((h.policyAction env).1 = kActionPromptUser → _AreGUIServersAlive env = true →
      env.init_gui = B_OK →
      prompts (h._HandleMessage env message).2 = true ∧
      (h._HandleMessage env message).1 =
        (if env.alert_go < 0 then kActionKillTeam else env.alert_go) ∧
      (env.alert_go < 0 → (h._HandleMessage env message).1 = kActionKillTeam) ∧
      (nnWindow_Go_result env.alert_go = true →
        (h._HandleMessage env message).1 = kActionKillTeam ∨
        (h._HandleMessage env message).1 = kActionDebugTeam ∨
        (h._HandleMessage env message).1 = kActionSaveReportTeam)) ∧
    ((h.policyAction env).1 ≠ kActionPromptUser →
      prompts (h._HandleMessage env message).2 = false ∧
      (h._HandleMessage env message).1 = (h.policyAction env).1) := by
  constructor
  · intro hpol halive hinit
    have hdec : (h._HandleMessage env message).1 =
        (if env.alert_go < 0 then kActionKillTeam else env.alert_go) := by
      simp [NNHandler._HandleMessage, hcode, hgui, hpol, halive, hinit]
    refine ⟨?_, hdec, ?_, ?_⟩
    · simp [NNHandler._HandleMessage, hcode, hgui, hpol, halive, hinit, prompts]
    · intro hneg
      rw [hdec, if_pos hneg]
    · intro hgo
      rw [hdec]
      by_cases hneg : env.alert_go < 0
      · rw [if_pos hneg]
        exact Or.inl rfl
      · rw [if_neg hneg]
        simp only [nnWindow_Go_result, Bool.or_eq_true, decide_eq_true_eq, beq_iff_eq] at hgo
        tauto
  · intro hpol
    simp [NNHandler._HandleMessage, hcode, hgui, hpol, prompts]

/-- C20 (amended) at team 42: the prompt gives Debug; under the rule
`crasher kill` the decision is Kill without a prompt. -/
theorem C20_prompt_decision_witness :
    (sampleHandler._HandleMessage sampleEnv
      (sampleMessage B_DEBUGGER_MESSAGE_EXCEPTION_OCCURRED 0)).1 = kActionDebugTeam ∧
    prompts (sampleHandler._HandleMessage killRuleEnv
      (sampleMessage B_DEBUGGER_MESSAGE_EXCEPTION_OCCURRED 0)).2 = false ∧
    (sampleHandler._HandleMessage killRuleEnv
      (sampleMessage B_DEBUGGER_MESSAGE_EXCEPTION_OCCURRED 0)).1 = kActionKillTeam :=
  ⟨((C20_prompt_decision sampleEnv sampleHandler
      (sampleMessage B_DEBUGGER_MESSAGE_EXCEPTION_OCCURRED 0) (by decide) (by decide)).1
      (by decide) (by decide) (by decide)).2.1.trans (by decide),
    ((C20_prompt_decision killRuleEnv sampleHandler
      (sampleMessage B_DEBUGGER_MESSAGE_EXCEPTION_OCCURRED 0) (by decide) (by decide)).2
      (by decide)).1,
    ((C20_prompt_decision killRuleEnv sampleHandler
      (sampleMessage B_DEBUGGER_MESSAGE_EXCEPTION_OCCURRED 0) (by decide) (by decide)).2
      (by decide)).2.trans (by decide)⟩

/-! ## The utility code -/

/-- C24 (the code at a failing input): for the 32-bit integers
`a = -2147483648` and `b = 1` the difference wraps around to `2147483647`, so
`integer_cmp` returns a positive number although `a < b`; and for
`a = 2147483647`, `b = -1` it returns a negative number although `a > b`. -/
theorem C24_integer_cmp_wraps :
    isInt32 (-2147483648) ∧ isInt32 1 ∧ (-2147483648 : Int) < 1 ∧
    integer_cmp (-2147483648) 1 = 2147483647 ∧ 0 < integer_cmp (-2147483648) 1 ∧
    isInt32 2147483647 ∧ isInt32 (-1) ∧ (2147483647 : Int) > -1 ∧
    integer_cmp 2147483647 (-1) = -2147483648 ∧ integer_cmp 2147483647 (-1) < 0 := by
  refine ⟨by decide, by decide, by decide, by decide, by decide, by decide, by decide,
    by decide, by decide, by decide⟩

theorem integer_cmp_small (a b : Int) (hlo : -2147483648 ≤ a - b)
    (hhi : a - b ≤ 2147483647) : integer_cmp a b = a - b := by
  unfold integer_cmp wrap32
  rw [Int.emod_eq_of_lt (by omega) (by omega)]
  omega

/-- C25 (the code at a failing input): `b = 4` is a power of two and
`a = -1`. The remainder operator of C gives `-1 % 4 = -1`, `__mod_pw2` gives
`-1 & 3 = 3`; likewise `-5 % 8 = -5` and `-5 & 7 = 3`. -/
theorem C25_mod_pw2_negative :
    __mod_pw2 (-1) 4 = 3 ∧ c_rem (-1) 4 = -1 ∧ __mod_pw2 (-1) 4 ≠ c_rem (-1) 4 ∧
    __mod_pw2 (-5) 8 = 3 ∧ c_rem (-5) 8 = -5 ∧
    __mod_pw2 7 4 = c_rem 7 4 := by
  refine ⟨by decide, by decide, by decide, by decide, by decide, by decide⟩

/-- C29 (the code at a failing input): teams named `app_server` and
`input_server` run, no team is named `registrar`. `_FindTeam("registrar")`
returns `B_ENTRY_NOT_FOUND`, which as the last operand of `&&` counts as true:
`_AreGUIServersAlive` returns true. -/
theorem C29_missing_registrar_counts_as_alive :
    _FindTeam "registrar" { sampleEnv with
      teams := [(10, some "app_server"), (11, some "input_server")] }.teams =
      B_ENTRY_NOT_FOUND ∧
    _AreGUIServersAlive { sampleEnv with
      teams := [(10, some "app_server"), (11, some "input_server")] } = true ∧
    _AreGUIServersAlive { sampleEnv with
      teams := [(11, some "input_server"), (12, some "registrar")] } = false ∧
    _AreGUIServersAlive { sampleEnv with
      teams := [(10, some "app_server"), (12, some "registrar")] } = false := by
  refine ⟨by decide, by decide, by decide, by decide⟩

/-- C23 (the code at a failing input): `table_create(info, 65537, 65536)`.
The product of width and height wraps around to 65536 objects. Row 65536 and
column 0 are in range, and the index `65536*65536 + 0` wraps around to 0, the
index of row 0 and column 0: after `table_set(t, 65536, 0, 7)` the object at
`[0, 0]`, which was 0, is 7. -/
theorem C23_table_index_wraps :
    (table_create (fun _ => 0) 65537 65536).map (fun t => (t.width, t.height, t.size)) =
      some (65536, 65537, 65536) ∧
    ((table_create (fun _ => 0) 65537 65536).bind (fun t => table_get t 0 0)) = some 0 ∧
    ((table_create (fun _ => 0) 65537 65536).bind (fun t =>
      (table_set t 65536 0 7).bind (fun t2 => table_get t2 65536 0))) = some 7 ∧
    ((table_create (fun _ => 0) 65537 65536).bind (fun t =>
      (table_set t 65536 0 7).bind (fun t2 => table_get t2 0 0))) = some 7 := by
  refine ⟨by decide, by decide, by decide, by decide⟩

theorem table_index_lt {α : Type} (t : table α) (i j : Nat) (hi : i < t.height)
    (hj : j < t.width) : i * t.width + j < t.width * t.height := by
  calc i * t.width + j < i * t.width + t.width := by omega
    _ = (i + 1) * t.width := by ring
    _ ≤ t.height * t.width := Nat.mul_le_mul_right t.width hi
    _ = t.width * t.height := by ring

theorem table_index_inj (w i j i2 j2 : Nat) (hj : j < w) (hj2 : j2 < w)
    (h : i * w + j = i2 * w + j2) : i = i2 ∧ j = j2 := by
  have hw : 0 < w := by omega
  have h1 : (i * w + j) / w = i := by
    rw [Nat.add_comm, Nat.add_mul_div_right _ _ hw, Nat.div_eq_of_lt hj]; simp
  have h2 : (i2 * w + j2) / w = i2 := by
    rw [Nat.add_comm, Nat.add_mul_div_right _ _ hw, Nat.div_eq_of_lt hj2]; simp
  have hi : i = i2 := by rw [← h1, ← h2, h]
  subst hi
  exact ⟨rfl, by omega⟩

/-- The law of `table_get` and `table_set` on a table whose number of objects
fits the index arithmetic: what was set is got, the other positions and the
dimensions are as before. -/
theorem table_get_set {α : Type} (t : table α) (i j : Nat) (obj : α)
    (hfit : t.width * t.height < 4294967296) (hsize : t.size = t.width * t.height)
    (hi : i < t.height) (hj : j < t.width) :
    ∃ t2, table_set t i j obj = some t2 ∧ table_get t2 i j = some obj ∧
      t2.width = t.width ∧ t2.height = t.height ∧
      ∀ i2 j2 : Nat, i2 < t.height → j2 < t.width → (i2, j2) ≠ (i, j) →
        table_get t2 i2 j2 = table_get t i2 j2 := by
  have hidx := table_index_lt t i j hi hj
  have hwrap : unsigned_wrap (i * t.width + j) = i * t.width + j := by
    unfold unsigned_wrap
    exact Nat.mod_eq_of_lt (by omega)
  refine ⟨{ t with objects := Function.update t.objects (unsigned_wrap (i * t.width + j)) obj },
    ?_, ?_, rfl, rfl, ?_⟩
  · simp [table_set, hi, hj, hwrap, hsize, hidx]
  · simp [table_get, hi, hj, hwrap, hsize, hidx]
  · intro i2 j2 hi2 hj2 hne
    have hidx2 := table_index_lt t i2 j2 hi2 hj2
    have hwrap2 : unsigned_wrap (i2 * t.width + j2) = i2 * t.width + j2 := by
      unfold unsigned_wrap
      exact Nat.mod_eq_of_lt (by omega)
    have hdiff : i2 * t.width + j2 ≠ i * t.width + j := by
      intro h
      obtain ⟨h1, h2⟩ := table_index_inj t.width i2 j2 i j hj2 hj h
      exact hne (by rw [h1, h2])
    have hget : ∀ u : table α, u.width = t.width → u.height = t.height → u.size = t.size →
        table_get u i2 j2 = some (u.objects (i2 * t.width + j2)) := by
      intro u hw hh hs
      simp [table_get, hw, hh, hs, hi2, hj2, hwrap2, hsize, hidx2]
    rw [hget t rfl rfl rfl,
      hget { t with objects := Function.update t.objects (unsigned_wrap (i * t.width + j)) obj }
        rfl rfl rfl, hwrap]
    simp only [Function.update_noteq hdiff]

theorem strcaseeq_core_user (action : String) :
    (strcaseeq action "core" = true → action ≠ "kill" ∧ action ≠ "debug" ∧ action ≠ "log" ∧
      action ≠ "report") ∧
    (strcaseeq action "user" = true → action ≠ "kill" ∧ action ≠ "debug" ∧ action ≠ "log" ∧
      action ≠ "report" ∧ strcaseeq action "core" = false) := by
  constructor
  · intro h
    refine ⟨?_, ?_, ?_, ?_⟩ <;>
    · intro heq
      rw [heq] at h
      exact absurd h (by decide)
  · intro h
    refine ⟨?_, ?_, ?_, ?_, ?_⟩
    · intro heq; rw [heq] at h; exact absurd h (by decide)
    · intro heq; rw [heq] at h; exact absurd h (by decide)
    · intro heq; rw [heq] at h; exact absurd h (by decide)
    · intro heq; rw [heq] at h; exact absurd h (by decide)
    · simp only [strcaseeq, beq_iff_eq] at h ⊢
      rw [h]
      decide

/-- C28: `action_for_string` returns `B_OK` exactly for `kill`, `debug`, `log`
and `report` compared as they are and for `core` and `user` compared without
regard to case, with the actions Kill, Debug, SaveReport, SaveReport,
WriteCoreFile and PromptUser; for every other string it returns `B_BAD_VALUE`
and the action is what it was. -/
theorem C28_action_for_string (action : String) (_action : Int) :
    (action = "kill" → action_for_string action _action = (B_OK, kActionKillTeam)) ∧
    (action = "debug" → action_for_string action _action = (B_OK, kActionDebugTeam)) ∧
    (action = "log" → action_for_string action _action = (B_OK, kActionSaveReportTeam)) ∧
    (action = "report" → action_for_string action _action = (B_OK, kActionSaveReportTeam)) ∧
    (strcaseeq action "core" = true →
      action_for_string action _action = (B_OK, kActionWriteCoreFile)) ∧
    (strcaseeq action "user" = true →
      action_for_string action _action = (B_OK, kActionPromptUser)) ∧
    (action ≠ "kill" → action ≠ "debug" → action ≠ "log" → action ≠ "report" →
      strcaseeq action "core" = false → strcaseeq action "user" = false →
      action_for_string action _action = (B_BAD_VALUE, _action)) ∧
    ((action_for_string action _action).1 = B_OK ↔
      (action = "kill" ∨ action = "debug" ∨ action = "log" ∨ action = "report" ∨
       strcaseeq action "core" = true ∨ strcaseeq action "user" = true)) ∧
    ((action_for_string action _action).1 = B_OK ∨
      (action_for_string action _action).1 = B_BAD_VALUE) := by
  obtain ⟨hcore, huser⟩ := strcaseeq_core_user action
  have hbad : ¬ B_BAD_VALUE = B_OK := by decide
  refine ⟨?_, ?_, ?_, ?_, ?_, ?_, ?_, ?_, ?_⟩
  · intro h; subst h; rfl
  · intro h; subst h; rfl
  · intro h; subst h; rfl
  · intro h; subst h; rfl
  · intro h
    obtain ⟨n1, n2, n3, n4⟩ := hcore h
    simp [action_for_string, n1, n2, n3, n4, h]
  · intro h
    obtain ⟨n1, n2, n3, n4, n5⟩ := huser h
    simp [action_for_string, n1, n2, n3, n4, n5, h]
  · intro n1 n2 n3 n4 n5 n6
    simp [action_for_string, n1, n2, n3, n4, n5, n6]
  · unfold action_for_string
    split_ifs with h1 h2 h3 h4 h5
    · simp [h1]
    · simp [h2]
    · simp only [true_iff]
      rcases h3 with h | h
      · exact Or.inr (Or.inr (Or.inl h))
      · exact Or.inr (Or.inr (Or.inr (Or.inl h)))
    · simp [h4]
    · simp [h5]
    · simp only [hbad, false_iff]
      simp only [not_or] at h3
      simp [h1, h2, h3.1, h3.2, h4, h5]
  · unfold action_for_string
    split_ifs <;> simp

/-- C28 at `CoRe`, `user` and `Kill`. -/
theorem C28_action_for_string_witness :
    action_for_string "CoRe" kActionKillTeam = (B_OK, kActionWriteCoreFile) ∧
    action_for_string "user" kActionKillTeam = (B_OK, kActionPromptUser) ∧
    action_for_string "Kill" kActionDebugTeam = (B_BAD_VALUE, kActionDebugTeam) :=
  ⟨(C28_action_for_string "CoRe" kActionKillTeam).2.2.2.2.1 (by decide),
    (C28_action_for_string "user" kActionKillTeam).2.2.2.2.2.1 (by decide),
    (C28_action_for_string "Kill" kActionDebugTeam).2.2.2.2.2.2.1 (by decide) (by decide)
      (by decide) (by decide) (by decide) (by decide)⟩

/-! ## One decision and at most one kill -/

theorem decisionEffects_append (a b : List Effect) :
    decisionEffects (a ++ b) = decisionEffects a ++ decisionEffects b := by
  simp [decisionEffects, List.filter_append]

theorem handOverLoop_decision (env : Env) (debuggerThread : thread_id) (debugAction : Int) :
    ∀ (rounds checks : Nat) (h : NNHandler) (sched : List WakeEvent) (last : LoopResult),
      handOverLoop env debuggerThread rounds checks debugAction h sched = some last →
      decisionEffects last.trace = [] ∧ last.handler.fTeam = h.fTeam := by
  intro rounds
  induction rounds with
  | zero => intro checks h sched last hloop; simp [handOverLoop] at hloop
  | succ rounds ih =>
    intro checks h sched last hloop
    simp only [handOverLoop] at hloop
    cases hpop : h._PopMessage sched with
    | none => simp [hpop] at hloop
    | some popped =>
      have hteam := (PopMessage_spec h sched popped hpop).1
      simp only [hpop] at hloop
      by_cases h1 : popped.error = B_OK
      · simp only [h1, ne_eq, not_true_eq_false, if_false] at hloop
        cases hmsg : popped.message with
        | none => simp [hmsg] at hloop
        | some message =>
          simp only [hmsg] at hloop
          by_cases h2 : message.fCode = B_DEBUGGER_MESSAGE_HANDED_OVER
          · simp only [h2, if_true, Option.some.injEq] at hloop
            subst hloop
            exact ⟨rfl, hteam⟩
          · simp only [h2, if_false] at hloop
            by_cases h3 : message.fCode = B_DEBUGGER_MESSAGE_TEAM_DELETED
            · simp only [h3, if_true, Option.some.injEq] at hloop
              subst hloop
              exact ⟨rfl, hteam⟩
            · simp only [h3, if_false] at hloop
              by_cases h4 : env.get_thread_info checks debuggerThread = B_OK
              · simp only [h4, ne_eq, not_true_eq_false, if_false] at hloop
                cases hrec : handOverLoop env debuggerThread rounds (checks + 1) debugAction
                    popped.handler popped.sched with
                | none => simp [hrec] at hloop
                | some later =>
                  simp only [hrec, Option.some.injEq] at hloop
                  subst hloop
                  obtain ⟨k1, k2⟩ := ih _ _ _ _ hrec
                  refine ⟨?_, k2.trans hteam⟩
                  simp only [decisionEffects_append, k1]
                  rfl
              · simp only [ne_eq, h4, not_false_eq_true, if_true, Option.some.injEq] at hloop
                subst hloop
                exact ⟨rfl, hteam⟩
      · simp only [ne_eq, h1, not_false_eq_true, if_true, Option.some.injEq] at hloop
        subst hloop
        exact ⟨rfl, hteam⟩

theorem decisionEffects_EnterDebugger (env : Env) (h : NNHandler) (saveReport : Bool) :
    decisionEffects (h._EnterDebugger env saveReport).2 = [] := by
  unfold NNHandler._EnterDebugger
  simp only []
  split_ifs
  · simp [decisionEffects, isDecisionEffect]
  · simp [decisionEffects, isDecisionEffect]
  · cases h.debuggerArguments env saveReport (h._IsGUIServer || !_AreGUIServersAlive env) with
    | error error => simp [decisionEffects, isDecisionEffect]
    | ok argv =>
      simp only []
      split_ifs <;> simp [decisionEffects, isDecisionEffect]
  · cases h.debuggerArguments env saveReport (h._IsGUIServer || !_AreGUIServersAlive env) with
    | error error => simp [decisionEffects, isDecisionEffect]
    | ok argv =>
      simp only []
      split_ifs <;> simp [decisionEffects, isDecisionEffect]

theorem decisionEffects_WriteCoreFile (env : Env) (h : NNHandler) :
    decisionEffects (h._WriteCoreFile env).2 = [] := by
  unfold NNHandler._WriteCoreFile
  simp only []
  split_ifs
  · rfl
  · split <;> simp [decisionEffects, isDecisionEffect]

theorem handOver_decision (env : Env) (h : NNHandler) (sched : List WakeEvent) (debugAction : Int)
    (last : LoopResult) (hlast : h.handOver env sched debugAction = some last) :
    decisionEffects last.trace = [] ∧ last.handler.fTeam = h.fTeam := by
  unfold NNHandler.handOver at hlast
  by_cases h1 : debugAction = kActionKillTeam
  · simp only [h1, if_true, Option.some.injEq] at hlast
    subst hlast
    exact ⟨rfl, rfl⟩
  · simp only [h1, if_false] at hlast
    by_cases h2 : debugAction = kActionWriteCoreFile
    · simp only [h2, if_true, Option.some.injEq] at hlast
      subst hlast
      exact ⟨decisionEffects_WriteCoreFile env h, rfl⟩
    · simp only [h2, if_false] at hlast
      by_cases h3 : (h._EnterDebugger env (decide (debugAction = kActionSaveReportTeam))).1 ≥ 0
      · simp only [h3, if_true] at hlast
        cases hloop : handOverLoop env
            (h._EnterDebugger env (decide (debugAction = kActionSaveReportTeam))).1
            (loopRounds h sched) 0 debugAction h sched with
        | none => simp [hloop] at hlast
        | some looped =>
          simp only [hloop, Option.some.injEq] at hlast
          subst hlast
          obtain ⟨k1, k2⟩ := handOverLoop_decision env _ debugAction _ _ _ _ _ hloop
          refine ⟨?_, k2⟩
          simp only [decisionEffects_append, decisionEffects_EnterDebugger, k1]
          rfl
      · simp only [h3, if_false, Option.some.injEq] at hlast
        subst hlast
        exact ⟨decisionEffects_EnterDebugger env h _, rfl⟩


theorem HandleMessage_decision (env : Env) (h : NNHandler) (message : DebugMessage) :
    decisionEffects (h._HandleMessage env message).2 = (h._HandleMessage env message).2 := by
  unfold NNHandler._HandleMessage
  simp only []
  split_ifs <;> simp [decisionEffects, isDecisionEffect]

theorem mem_kills (team : team_id) (trace : List Effect) :
    team ∈ kills trace ↔ Effect.kill_team team ∈ trace := by
  simp only [kills, List.mem_filterMap]
  constructor
  · rintro ⟨e, he, hsome⟩
    cases e <;> simp at hsome
    subst hsome
    exact he
  · intro h
    exact ⟨_, h, rfl⟩

/-- C27: in every run of the handler thread that reaches its end, the
terminate requests are one for the own team when the final value of
`debugAction` is Kill and none otherwise, so `_KillTeam` runs at most once and
exactly in that case. The effects of `_HandleMessage` in the run (stack trace,
GUI set-up, notifications, prompt) are those of one call, on the first message
popped; there are none when the first pop fails. -/
theorem C27_one_kill_one_decision (env : Env) (this : NNHandler) (sched : List WakeEvent)
    (roster : NNHandlerRoster) (res : ThreadResult)
    (hrun : this._HandlerThread env sched roster = some res) :
    kills res.trace = (if res.debugAction = kActionKillTeam then [this.fTeam] else []) ∧
    (kills res.trace).length ≤ 1 ∧
    (Effect.kill_team this.fTeam ∈ res.trace ↔ res.debugAction = kActionKillTeam) ∧
    ∃ popped, this._PopMessage sched = some popped ∧
      (popped.error ≠ B_OK → decisionEffects res.trace = []) ∧
      (popped.error = B_OK → ∃ message, popped.message = some message ∧
        decisionEffects res.trace = (popped.handler._HandleMessage env message).2) := by
  have hkills := HandlerThread_kills env this sched roster res hrun
  refine ⟨hkills, ?_, ?_, ?_⟩
  · rw [hkills]
    split_ifs <;> simp
  · rw [← mem_kills, hkills]
    split_ifs with hk <;> simp [hk]
  · unfold NNHandler._HandlerThread at hrun
    cases hfirst : this.initialAction env sched with
    | none => simp [hfirst] at hrun
    | some first =>
      simp only [hfirst] at hrun
      cases hlast : first.handler.handOver env first.sched first.debugAction with
      | none => simp [hlast] at hrun
      | some last =>
        simp only [hlast, Option.some.injEq] at hrun
        subst hrun
        have hd2 := (handOver_decision env _ _ _ last hlast).1
        have htail : decisionEffects
            (if last.debugAction = kActionKillTeam then last.handler._KillTeam else []) =
              [] := by
          split_ifs <;>
            simp [decisionEffects, isDecisionEffect, NNHandler._KillTeam, KillTeam]
        have hq : decisionEffects last.handler.destructor = [] := by
          unfold NNHandler.destructor
          induction last.handler.fMessages with
          | nil => rfl
          | cons m rest ih => simpa [decisionEffects, isDecisionEffect] using ih
        have hone : decisionEffects [Effect.remove_handler this.fTeam] = [] := rfl
        have htwo : decisionEffects [Effect.delete_handler this.addr] = [] := rfl
        have hall : decisionEffects (first.trace ++ last.trace ++
            (if last.debugAction = kActionKillTeam then last.handler._KillTeam else [])
              ++ [Effect.remove_handler this.fTeam] ++ last.handler.destructor
              ++ [Effect.delete_handler this.addr]) =
            decisionEffects first.trace := by
          simp only [decisionEffects_append, hd2, htail, hq, hone, htwo, List.append_nil]
        unfold NNHandler.initialAction at hfirst
        cases hpop : this._PopMessage sched with
        | none => simp [hpop] at hfirst
        | some popped =>
          simp only [hpop] at hfirst
          refine ⟨popped, rfl, ?_, ?_⟩
          · intro herr
            simp only [herr, if_false, Option.some.injEq] at hfirst
            subst hfirst
            rw [hall]
            rfl
          · intro hok
            simp only [hok, if_true] at hfirst
            cases hmsg : popped.message with
            | none => simp [hmsg] at hfirst
            | some message =>
              simp only [hmsg, Option.some.injEq] at hfirst
              subst hfirst
              refine ⟨message, rfl, ?_⟩
              rw [hall, decisionEffects_append, HandleMessage_decision]
              simp [decisionEffects, isDecisionEffect]

/-- C27 at the run of `sampleHandler` in which the debugger dies after the
launch. -/
theorem C27_one_kill_one_decision_witness :
    ∃ res, sampleHandler._HandlerThread deadDebuggerEnv
        [WakeEvent.push (sampleMessage B_DEBUGGER_MESSAGE_EXCEPTION_OCCURRED 0),
         WakeEvent.push (sampleMessage 12 0)] sampleRoster = some res ∧
      kills res.trace = [42] ∧
      decisionEffects res.trace = [Effect.print_stack_trace 421, Effect.init_gui,
        Effect.notify_app_server 42, Effect.notify_registrar 42 true false,
        Effect.alert_go "crasher", Effect.notify_registrar 42 false true] :=
  ⟨{ status := B_OK, debugAction := kActionKillTeam, roster := smallRoster,
      trace := [Effect.print_stack_trace 421, Effect.init_gui, Effect.notify_app_server 42,
        Effect.notify_registrar 42 true false, Effect.alert_go "crasher",
        Effect.notify_registrar 42 false true,
        Effect.delete_message (sampleMessage B_DEBUGGER_MESSAGE_EXCEPTION_OCCURRED 0),
        Effect.send_debug_message 42 DebugRequest.prepare_handover,
        Effect.load_image ["/boot/system/apps/Debugger", "--team", "42"],
        Effect.resume_thread 500, Effect.get_thread_info 500,
        Effect.delete_message (sampleMessage 12 0), Effect.kill_team 42,
        Effect.remove_handler 42, Effect.delete_handler 1000] },
    rfl,
    (C27_one_kill_one_decision deadDebuggerEnv sampleHandler
      [WakeEvent.push (sampleMessage B_DEBUGGER_MESSAGE_EXCEPTION_OCCURRED 0),
       WakeEvent.push (sampleMessage 12 0)] sampleRoster _ rfl).1.trans (by decide),
    by decide⟩

/-! ## The mailbox invariant -/

theorem waitMessage_empty (h : NNHandler) (hsem : 0 ≤ h.fMessageCountSem)
    (hcount : h.semCount = 0) (hempty : h.fMessages = []) :
    ∀ (sched : List WakeEvent) (popped : PopResult),
      h.waitMessage sched = some popped → popped.error = B_OK →
      ∃ m, popped.message = some m ∧ WakeEvent.push m ∈ sched ∧
        popped.handler.fMessages = [] ∧ popped.handler.semCount = 0 ∧
        popped.handler.fMessageCountSem = h.fMessageCountSem := by
  intro sched
  induction sched with
  | nil => intro popped hp; simp [NNHandler.waitMessage] at hp
  | cons ev rest ih =>
    intro popped hp hok
    cases ev with
    | push m =>
      have hnot : ¬ h.fMessageCountSem < 0 := not_lt.mpr hsem
      simp only [NNHandler.waitMessage, Option.some.injEq] at hp
      subst hp
      refine ⟨m, ?_, List.mem_cons_self _ _, ?_, ?_, rfl⟩
      · simp [NNHandler.takeHead, NNHandler.PushMessage, hempty]
      · simp [NNHandler.takeHead, NNHandler.PushMessage, hempty]
      · simp [NNHandler.takeHead, NNHandler.PushMessage, release_sem, hnot, hcount]
    | error e neg =>
      simp only [NNHandler.waitMessage] at hp
      by_cases h1 : e = B_INTERRUPTED
      · simp only [h1, if_true] at hp
        obtain ⟨m, a, b, c⟩ := ih popped hp hok
        exact ⟨m, a, List.mem_cons_of_mem _ b, c⟩
      · have h2 : e ≠ B_OK := ne_of_lt neg
        simp only [h1, if_false, ne_eq, h2, not_false_eq_true, if_true,
          Option.some.injEq] at hp
        subst hp
        exact absurd hok h2

theorem PopMessage_inv (h : NNHandler) (hsem : 0 ≤ h.fMessageCountSem)
    (hinv : h.semCount = h.fMessages.length) (sched : List WakeEvent) (popped : PopResult)
    (hpop : h._PopMessage sched = some popped) (hok : popped.error = B_OK) :
    0 ≤ popped.handler.fMessageCountSem ∧
    popped.handler.semCount = popped.handler.fMessages.length ∧
    ∃ m, popped.message = some m ∧
      (h.fMessages = m :: popped.handler.fMessages ∨
       (h.fMessages = [] ∧ WakeEvent.push m ∈ sched ∧ popped.handler.fMessages = [])) := by
  have hnot : ¬ h.fMessageCountSem < 0 := not_lt.mpr hsem
  unfold NNHandler._PopMessage at hpop
  simp only [hnot, if_false] at hpop
  by_cases hpos : 0 < h.semCount
  · simp only [hpos, if_true, Option.some.injEq] at hpop
    subst hpop
    obtain ⟨m, tl, hq⟩ : ∃ m tl, h.fMessages = m :: tl := by
      cases hq : h.fMessages with
      | nil => rw [hq] at hinv; simp at hinv; omega
      | cons m tl => exact ⟨m, tl, rfl⟩
    refine ⟨hsem, ?_, m, ?_, Or.inl ?_⟩
    · simp only [NNHandler.takeHead, hq, List.tail_cons]
      rw [hq] at hinv
      simp only [List.length_cons] at hinv
      omega
    · simp [NNHandler.takeHead, hq]
    · simp [NNHandler.takeHead, hq]
  · simp only [hpos, if_false] at hpop
    have hcount : h.semCount = 0 := by omega
    have hempty : h.fMessages = [] := by
      rw [hcount] at hinv
      exact List.length_eq_zero.mp hinv.symm
    obtain ⟨m, a, b, c, d, e⟩ := waitMessage_empty h hsem hcount hempty sched popped hpop hok
    exact ⟨by rw [e]; exact hsem, by rw [c, d]; rfl, m, a, Or.inr ⟨hempty, b, c⟩⟩

theorem MailboxReachable_inv (h : NNHandler) (hr : NNHandler.MailboxReachable h) :
    0 ≤ h.fMessageCountSem ∧ h.semCount = h.fMessages.length := by
  induction hr with
  | init h hsem hempty hcount => exact ⟨hsem, by rw [hcount, hempty]; rfl⟩
  | push h message _ ih =>
    have hnot : ¬ h.fMessageCountSem < 0 := not_lt.mpr ih.1
    refine ⟨ih.1, ?_⟩
    simp [NNHandler.PushMessage, release_sem, hnot, ih.2]
  | pop h sched popped _ hpop hok ih =>
    obtain ⟨a, b, _⟩ := PopMessage_inv h ih.1 ih.2 sched popped hpop hok
    exact ⟨a, b⟩

/-- C26: in every state of the mailbox of a handler reached from the state
`Init` leaves (semaphore created with count zero, empty list) by
`PushMessage` and by `_PopMessage` calls that return `B_OK`, the count of the
semaphore equals the number of queued messages. So a `_PopMessage` that
returns `B_OK` in such a state gives a message that is not `NULL`: the head of
the non-empty list, or the message pushed while the empty mailbox was waited
on. -/
theorem C26_mailbox_invariant (h : NNHandler) (hr : NNHandler.MailboxReachable h) :
    h.semCount = h.fMessages.length ∧
    ∀ (sched : List WakeEvent) (popped : PopResult),
      h._PopMessage sched = some popped → popped.error = B_OK →
      popped.handler.semCount = popped.handler.fMessages.length ∧
      ∃ m, popped.message = some m ∧
        (h.fMessages = m :: popped.handler.fMessages ∨
         (h.fMessages = [] ∧ WakeEvent.push m ∈ sched ∧ popped.handler.fMessages = [])) := by
  obtain ⟨hsem, hinv⟩ := MailboxReachable_inv h hr
  refine ⟨hinv, ?_⟩
  intro sched popped hpop hok
  exact (PopMessage_inv h hsem hinv sched popped hpop hok).2

/-- C26 at `sampleHandler` after two pushes and one pop. -/
theorem C26_mailbox_invariant_witness :
    NNHandler.MailboxReachable
      { sampleHandler with fMessages := [sampleMessage 17 1], semCount := 1 } ∧
    ({ sampleHandler with fMessages := [sampleMessage 17 1], semCount := 1 } :
      NNHandler).semCount = 1 :=
  ⟨NNHandler.MailboxReachable.pop
      (pushAll sampleHandler [sampleMessage 8 0, sampleMessage 17 1]) []
      { error := B_OK, message := some (sampleMessage 8 0),
        handler := { sampleHandler with fMessages := [sampleMessage 17 1], semCount := 1 },
        sched := [] }
      (NNHandler.MailboxReachable.push _ _
        (NNHandler.MailboxReachable.push _ _
          (NNHandler.MailboxReachable.init sampleHandler (by decide) rfl rfl)))
      rfl rfl,
    (C26_mailbox_invariant
      { sampleHandler with fMessages := [sampleMessage 17 1], semCount := 1 }
      (NNHandler.MailboxReachable.pop
        (pushAll sampleHandler [sampleMessage 8 0, sampleMessage 17 1]) []
        { error := B_OK, message := some (sampleMessage 8 0),
          handler := { sampleHandler with fMessages := [sampleMessage 17 1], semCount := 1 },
          sched := [] }
        (NNHandler.MailboxReachable.push _ _
          (NNHandler.MailboxReachable.push _ _
            (NNHandler.MailboxReachable.init sampleHandler (by decide) rfl rfl)))
        rfl rfl)).1⟩

/-! ## The core file name search -/

/-- C30: the search for the name of the core file in `_WriteCoreFile`.
It ends within 1002 candidates (1002 rounds of the loop give a result from
index 0, and more rounds give the same result). The candidate of index 0 is
`core-<executable leaf>-<team>`, that of an index above 0 has `-<index>`
appended. When the desktop directory is found and the paths can be set: if the
candidate of index `k ≤ 1001` is the first one for which `lstat` reports that
the entry is not found, the core dump request is sent with its path and no
other request is sent; if no candidate of index at most 1001 is free, the
result is `B_ERROR` and no request is sent. -/
theorem C30_core_file_search (env : Env) (h : NNHandler) :
    (coreFilePath env env.find_desktop_directory.2 h.coreBaseName 1002 0 ≠ none ∧
      ∀ extra, coreFilePath env env.find_desktop_directory.2 h.coreBaseName (1002 + extra) 0 =
        coreFilePath env env.find_desktop_directory.2 h.coreBaseName 1002 0) ∧
    (coreFileName h.coreBaseName 0 =
        "core-" ++ _LastPathComponent h.fExecutablePath ++ "-" ++ toString h.fTeam ∧
      ∀ index, 0 < index → coreFileName h.coreBaseName index =
        "core-" ++ _LastPathComponent h.fExecutablePath ++ "-" ++ toString h.fTeam ++ "-" ++
          toString index) ∧
    (env.find_desktop_directory.1 = B_OK →
      ∀ k, k ≤ 1001 →
        (∀ j, j ≤ k →
          (env.path_set_to env.find_desktop_directory.2 (coreFileName h.coreBaseName j)).1 =
            B_OK) →
        (∀ j, j < k → ¬ coreFree env env.find_desktop_directory.2 h.coreBaseName j) →
        coreFree env env.find_desktop_directory.2 h.coreBaseName k →
        h._WriteCoreFile env =
          (if (env.write_core_file
                (corePath env env.find_desktop_directory.2 h.coreBaseName k)).1 = B_OK
            then (env.write_core_file
                (corePath env env.find_desktop_directory.2 h.coreBaseName k)).2
            else (env.write_core_file
                (corePath env env.find_desktop_directory.2 h.coreBaseName k)).1,
            [Effect.send_debug_message h.fTeam (DebugRequest.write_core_file
              (corePath env env.find_desktop_directory.2 h.coreBaseName k))])) ∧
    (env.find_desktop_directory.1 = B_OK →
      (∀ j, j ≤ 1001 →
        (env.path_set_to env.find_desktop_directory.2 (coreFileName h.coreBaseName j)).1 =
            B_OK ∧
        ¬ coreFree env env.find_desktop_directory.2 h.coreBaseName j) →
      h._WriteCoreFile env = (B_ERROR, [])) := by
  refine ⟨⟨coreFilePath_terminates _ _ _ 1002 0 (by omega) (by omega),
    coreFilePath_extra _ _ _⟩, ⟨rfl, ?_⟩, ?_, ?_⟩
  · intro index hpos
    unfold coreFileName
    rw [if_pos hpos]
    rfl
  · intro hdir k hk hset hbusy hfree
    have hr := coreFilePath_found env env.find_desktop_directory.2 h.coreBaseName 1002 0 k
      (Nat.zero_le _) (by omega) (fun j _ hjk => hset j hjk)
      (fun j _ hjk => ⟨by omega, hbusy j hjk⟩) hfree
    exact WriteCoreFile_found env h hdir _ hr
  · intro hdir hall
    have hr := coreFilePath_exhausted env env.find_desktop_directory.2 h.coreBaseName 1002 0
      (by omega) (by omega) (fun j _ hj => hall j hj)
    exact WriteCoreFile_failed env h hdir _ hr

/-- C30 at `sampleHandler`: with the first two names taken on the desktop the
request goes to `core-crasher-42-2`; with every name taken the result is
`B_ERROR` and nothing is sent. -/
theorem C30_core_file_search_witness :
    sampleHandler._WriteCoreFile
        { sampleEnv with
          lstat := fun path =>
            if path = "/boot/home/Desktop/core-crasher-42" ∨
                path = "/boot/home/Desktop/core-crasher-42-1" then (0, 0)
            else (-1, B_ENTRY_NOT_FOUND) } =
      (B_OK, [Effect.send_debug_message 42
        (DebugRequest.write_core_file "/boot/home/Desktop/core-crasher-42-2")]) ∧
    sampleHandler._WriteCoreFile { sampleEnv with lstat := fun _ => (0, 0) } =
      (B_ERROR, []) :=
  ⟨(C30_core_file_search
      { sampleEnv with
        lstat := fun path =>
          if path = "/boot/home/Desktop/core-crasher-42" ∨
              path = "/boot/home/Desktop/core-crasher-42-1" then (0, 0)
          else (-1, B_ENTRY_NOT_FOUND) }
      sampleHandler).2.2.1 rfl 2 (by decide) (fun _ _ => rfl)
      (fun j hj => by interval_cases j <;> decide) (by decide),
    (C30_core_file_search { sampleEnv with lstat := fun _ => (0, 0) } sampleHandler).2.2.2 rfl
      (fun _ _ => ⟨rfl, fun hfree => hfree.1 rfl⟩)⟩
